import Mathlib

/-! ChefConnect: storage adapter, debounce coordinator and recipe query engine.

A shallow embedding of the client-side data layer of the ChefConnect
application:

* `src/services/storage.js`  (class `StorageService`),
* `src/utils/helpers.js`     (`debounce`, `parseTime`),
* `src/hooks/useDebounce.js` (`useDebouncedCallback`, `useDebouncedAPI`),
* `src/hooks/useRecipes.js`  (`fetchRecipes`, `fetchPopularRecipes`),
* `src/services/mockData.js` (`mockDataUtils`),
* `src/hooks/useLocalStorage.js` (`useLocalStorage`, `useSearchHistory`,
  `useRecentlyViewed`, `useShoppingList`, `useMealPlan`, `useUserPreferences`),
* `src/hooks/useAuth.jsx`    (`AuthProvider`),
* `src/services/api.js`      (`apiUtils.retry`, `APIError`),
* `src/utils/validators.js`  (`password`), `src/utils/constants.js`
  (`VALIDATION_RULES.password`).

Conventions of the embedding.

* JavaScript numbers that hold integers (timestamps, page numbers, counts) are
  `Int`. A rating is a finite binary64 number, held as the rational that it
  denotes; products and differences of ratings are rounded to binary64
  (`Double.round`), with the infinities and `NaN` of the Number type.
* Functions of the ECMAScript / browser host that the source calls but does not
  define (`JSON.stringify`, `JSON.parse`, `String.prototype.toLowerCase`,
  `String.prototype.localeCompare`, `Date` parsing) are fields of `Host`.
  `RefHost.host` is a small executable host used to evaluate the code on
  concrete inputs.
* Mutable state (`window.localStorage`, React state, timers) is passed
  explicitly.
-/

/-! ## ECMAScript values -/

/-- The ECMAScript values that reach the storage adapter: `undefined`, and the
JSON-serialisable values (null, booleans, numbers, strings, arrays, objects). -/
inductive JSValue where
  | undefined : JSValue
  | null : JSValue
  | bool (b : Bool) : JSValue
  | num (n : Int) : JSValue
  | str (s : String) : JSValue
  | arr (xs : List JSValue) : JSValue
  | obj (fields : List (String × JSValue)) : JSValue

namespace JSValue

/-- The test `typeof value === 'string'`. -/
def isString : JSValue → Bool
  | str _ => true
  | _ => false

/-- The test `typeof value === 'object'` (true of null, arrays and objects). -/
def isObject : JSValue → Bool
  | null => true
  | arr _ => true
  | obj _ => true
  | _ => false

/-- ECMAScript `ToBoolean`: the values that pass `if (value)`. -/
def truthy : JSValue → Bool
  | undefined => false
  | null => false
  | bool b => b
  | num n => decide (n ≠ 0)
  | str s => decide (s ≠ "")
  | arr _ => true
  | obj _ => true

/-- Lookup of a field in the field list of an object. -/
def lookupField (key : String) : List (String × JSValue) → JSValue
  | [] => undefined
  | (k, v) :: rest => if k = key then v else lookupField key rest

/-- Property access `value.key` for the keys the adapter reads (`expiry`,
`value`): the field of an object, and `undefined` on every other value. -/
def getProp (v : JSValue) (key : String) : JSValue :=
  match v with
  | obj fields => lookupField key fields
  | _ => undefined

end JSValue

/-! ## Host functions -/

/-- Functions of the ECMAScript and browser host used by the source. -/
structure Host where
  /-- `JSON.stringify(value)`; `none` when it returns `undefined`. -/
  jsonStringify : JSValue → Option String
  /-- `JSON.parse(text)`; `none` when it throws a `SyntaxError`. -/
  jsonParse : String → Option JSValue
  /-- ECMAScript `ToNumber` on strings, arrays and objects; `none` is `NaN`. -/
  toNumber : JSValue → Option Int
  /-- `String.prototype.toLowerCase`. -/
  toLowerCase : String → String
  /-- `a.localeCompare(b)`. -/
  localeCompare : String → String → Int
  /-- The time value of `new Date(text)` in ms; `none` is an invalid date. -/
  dateParse : String → Option Int

/-- The relational test `now > value` of the expiry check, with the operand
converted by `ToNumber`; a comparison with `NaN` is false. -/
def jsGreater (H : Host) (now : Int) (v : JSValue) : Bool :=
  match v with
  | JSValue.num n => decide (now > n)
  | JSValue.bool b => decide (now > (if b then 1 else 0))
  | JSValue.null => decide (now > 0)
  | JSValue.undefined => false
  | other =>
    match H.toNumber other with
    | some n => decide (now > n)
    | none => false

/-! ## A reference host -/

namespace RefHost

/-- The double quote character. -/
def dquote : Char := Char.ofNat 34

/-- The backslash character. -/
def bslash : Char := Char.ofNat 92

/-- The opening brace. -/
def lbrace : Char := Char.ofNat 123

/-- The closing brace. -/
def rbrace : Char := Char.ofNat 125

/-- Decimal digits of a natural number, most significant first. -/
def natDigits : Nat → Nat → List Char
  | 0, _ => []
  | fuel + 1, n =>
    if n < 10 then [Char.ofNat (48 + n)]
    else natDigits fuel (n / 10) ++ [Char.ofNat (48 + n % 10)]

/-- Decimal text of an integer. -/
def intText (n : Int) : List Char :=
  if n < 0 then '-' :: natDigits (n.natAbs + 1) n.natAbs
  else natDigits (n.natAbs + 1) n.natAbs

/-- The body of a JSON string literal: quote, backslash, newline and tab are
escaped. -/
def escape : List Char → List Char
  | [] => []
  | c :: cs =>
    if c = dquote then bslash :: dquote :: escape cs
    else if c = bslash then bslash :: bslash :: escape cs
    else if c = '\n' then bslash :: 'n' :: escape cs
    else if c = '\t' then bslash :: 't' :: escape cs
    else c :: escape cs

/-- A JSON string literal. -/
def quoted (s : String) : List Char :=
  dquote :: escape s.data ++ [dquote]

mutual
/-- Compact JSON text of a value; an `undefined` element of an array prints as
null. -/
def stringifyChars : JSValue → List Char
  | JSValue.undefined => "null".data
  | JSValue.null => "null".data
  | JSValue.bool true => "true".data
  | JSValue.bool false => "false".data
  | JSValue.num n => intText n
  | JSValue.str s => quoted s
  | JSValue.arr xs => '[' :: stringifyElems xs ++ [']']
  | JSValue.obj fields => lbrace :: (stringifyFields fields).drop 1 ++ [rbrace]
/-- Comma separated elements. -/
def stringifyElems : List JSValue → List Char
  | [] => []
  | [x] => stringifyChars x
  | x :: y :: rest => stringifyChars x ++ ',' :: stringifyElems (y :: rest)
/-- The members `,"key":value` of an object, each led by a comma; a member
whose value is `undefined` is left out. -/
def stringifyFields : List (String × JSValue) → List Char
  | [] => []
  | (_, JSValue.undefined) :: rest => stringifyFields rest
  | (k, x) :: rest => ',' :: quoted k ++ ':' :: stringifyChars x ++ stringifyFields rest
end

/-- Reference `JSON.stringify`: `undefined` at top level gives `undefined`. -/
def jsonStringify : JSValue → Option String
  | JSValue.undefined => none
  | v => some (String.mk (stringifyChars v))

/-- JSON white space. -/
def isWs (c : Char) : Bool :=
  c = ' ' || c = '\n' || c = '\t' || c = '\r'

/-- Drop leading white space. -/
def skipWs : List Char → List Char
  | [] => []
  | c :: cs => if isWs c then skipWs cs else c :: cs

/-- Split off the leading run of decimal digits. -/
def spanDigits : List Char → List Char × List Char
  | [] => ([], [])
  | c :: cs =>
    if c.isDigit then ((spanDigits cs).1.cons c, (spanDigits cs).2)
    else ([], c :: cs)

/-- Value of a run of decimal digits. -/
def digitsValue (ds : List Char) : Nat :=
  ds.foldl (fun n c => 10 * n + (c.toNat - 48)) 0

/-- An unsigned JSON integer: digits without a leading zero, not followed by a
fraction or an exponent (the reference host reads integers only). -/
def parseNat (cs : List Char) : Option (Nat × List Char) :=
  match spanDigits cs with
  | ([], _) => none
  | (d :: ds, rest) =>
    if d = '0' ∧ ds ≠ [] then none
    else
      match rest with
      | '.' :: _ => none
      | 'e' :: _ => none
      | 'E' :: _ => none
      | _ => some (digitsValue (d :: ds), rest)

/-- The body of a string literal, after the opening quote. -/
def parseStringBody : List Char → Option (List Char × List Char)
  | [] => none
  | [c] => if c = dquote then some ([], []) else none
  | c :: d :: cs =>
    if c = dquote then some ([], d :: cs)
    else if c = bslash then
      let unescaped : Option Char :=
        if d = dquote then some dquote
        else if d = bslash then some bslash
        else if d = '/' then some '/'
        else if d = 'n' then some '\n'
        else if d = 't' then some '\t'
        else none
      match unescaped, parseStringBody cs with
      | some u, some (body, rest) => some (u :: body, rest)
      | _, _ => none
    else if c = '\n' then none
    else
      match parseStringBody (d :: cs) with
      | some (body, rest) => some (c :: body, rest)
      | none => none

mutual
/-- One JSON value at the head of the input, and the unread rest. -/
def parseValue : Nat → List Char → Option (JSValue × List Char)
  | 0, _ => none
  | fuel + 1, cs =>
    match skipWs cs with
    | [] => none
    | c :: rest =>
      if c = 'n' then
        match rest with
        | 'u' :: 'l' :: 'l' :: r => some (JSValue.null, r)
        | _ => none
      else if c = 't' then
        match rest with
        | 'r' :: 'u' :: 'e' :: r => some (JSValue.bool true, r)
        | _ => none
      else if c = 'f' then
        match rest with
        | 'a' :: 'l' :: 's' :: 'e' :: r => some (JSValue.bool false, r)
        | _ => none
      else if c = dquote then
        match parseStringBody rest with
        | some (body, r) => some (JSValue.str (String.mk body), r)
        | none => none
      else if c = '-' then
        match parseNat rest with
        | some (n, r) => some (JSValue.num (-(n : Int)), r)
        | none => none
      else if c.isDigit then
        match parseNat (c :: rest) with
        | some (n, r) => some (JSValue.num (n : Int), r)
        | none => none
      else if c = '[' then
        match skipWs rest with
        | ']' :: r => some (JSValue.arr [], r)
        | _ => parseElems fuel rest []
      else if c = lbrace then
        match skipWs rest with
        | [] => none
        | e :: r => if e = rbrace then some (JSValue.obj [], r) else parseMembers fuel rest []
      else none
/-- The elements of a non-empty array, after the opening bracket. -/
def parseElems : Nat → List Char → List JSValue → Option (JSValue × List Char)
  | 0, _, _ => none
  | fuel + 1, cs, acc =>
    match parseValue fuel cs with
    | none => none
    | some (v, r) =>
      match skipWs r with
      | ',' :: r2 => parseElems fuel r2 (acc ++ [v])
      | ']' :: r2 => some (JSValue.arr (acc ++ [v]), r2)
      | _ => none
/-- The members of a non-empty object, after the opening brace. -/
def parseMembers : Nat → List Char → List (String × JSValue) → Option (JSValue × List Char)
  | 0, _, _ => none
  | fuel + 1, cs, acc =>
    match skipWs cs with
    | [] => none
    | q :: afterQuote =>
      if q = dquote then
        match parseStringBody afterQuote with
        | none => none
        | some (key, r) =>
          match skipWs r with
          | ':' :: r2 =>
            match parseValue fuel r2 with
            | none => none
            | some (v, r3) =>
              match skipWs r3 with
              | [] => none
              | e :: r4 =>
                if e = ',' then parseMembers fuel r4 (acc ++ [(String.mk key, v)])
                else if e = rbrace then some (JSValue.obj (acc ++ [(String.mk key, v)]), r4)
                else none
          | _ => none
      else none
end

/-- Reference `JSON.parse`: one value surrounded by white space and nothing
else. -/
def jsonParse (text : String) : Option JSValue :=
  match parseValue (text.data.length + 1) text.data with
  | some (v, rest) => if skipWs rest = [] then some v else none
  | none => none

/-- ASCII lower-casing. -/
def toLowerCase (s : String) : String :=
  String.mk (s.data.map Char.toLower)

/-- Code-point order on character lists, as a sign. -/
def compareChars : List Char → List Char → Int
  | [], [] => 0
  | [], _ :: _ => -1
  | _ :: _, [] => 1
  | a :: as, b :: bs =>
    if a.toNat < b.toNat then -1
    else if b.toNat < a.toNat then 1
    else compareChars as bs

/-- The executable reference host: compact JSON over integers, ASCII case
folding, code-point collation, and dates written as a plain number of
milliseconds. -/
def host : Host where
  jsonStringify := jsonStringify
  jsonParse := jsonParse
  toNumber := fun _ => none
  toLowerCase := toLowerCase
  localeCompare := fun a b => compareChars a.data b.data
  dateParse := fun s =>
    match parseNat s.data with
    | some (n, []) => some (n : Int)
    | _ => none

end RefHost

/-! ## `window.localStorage` -/

/-- The `name` of an exception thrown by `localStorage.setItem`. -/
inductive StorageError where
  | quotaExceeded : StorageError
  | other : StorageError
  deriving DecidableEq, Repr

/-- The browser store: string keys and string values in insertion order, a
capacity counted in characters of keys and values, and a flag for stores that
reject every write with an error other than `QuotaExceededError`. -/
structure LocalStorage where
  entries : List (String × String)
  quota : Nat
  readOnly : Bool
  deriving DecidableEq, Repr

namespace LocalStorage

/-- `localStorage.getItem(key)`; `none` is `null`. -/
def getItem (ls : LocalStorage) (key : String) : Option String :=
  (ls.entries.find? (fun e => e.1 = key)).map (fun e => e.2)

/-- Replace the value of `key` in place, or append a new entry. -/
def put (key value : String) : List (String × String) → List (String × String)
  | [] => [(key, value)]
  | (k, v) :: rest => if k = key then (k, value) :: rest else (k, v) :: put key value rest

/-- Characters used by the entries. -/
def used (entries : List (String × String)) : Nat :=
  (entries.map (fun e => e.1.length + e.2.length)).sum

/-- `localStorage.setItem(key, value)`: throws on a read-only store and when
the capacity would be exceeded. -/
def setItem (ls : LocalStorage) (key value : String) : Except StorageError LocalStorage :=
  if ls.readOnly then Except.error StorageError.other
  else if used (put key value ls.entries) > ls.quota then Except.error StorageError.quotaExceeded
  else Except.ok { ls with entries := put key value ls.entries }

/-- `localStorage.removeItem(key)`. -/
def removeItem (ls : LocalStorage) (key : String) : LocalStorage :=
  { ls with entries := ls.entries.filter (fun e => e.1 ≠ key) }

/-- `Object.keys(localStorage)`. -/
def keys (ls : LocalStorage) : List String :=
  ls.entries.map (fun e => e.1)

end LocalStorage

/-! ## `StorageService` (src/services/storage.js) -/

/-- The service object: `isSupported` is fixed by the probe of the
constructor. -/
structure StorageService where
  isSupported : Bool
  deriving DecidableEq, Repr

namespace StorageService

/-- `get(key, defaultValue)`: the default when the store is unsupported or the
key is absent, the parsed JSON when the item parses, the raw string otherwise. -/
def get (svc : StorageService) (H : Host) (ls : LocalStorage) (key : String)
    (defaultValue : JSValue) : JSValue :=
  if !svc.isSupported then defaultValue
  else
    match ls.getItem key with
    | none => defaultValue
    | some item =>
      match H.jsonParse item with
      | some parsed => parsed
      | none => JSValue.str item

/-- The string that `set` hands to `setItem`: strings pass through, other
values are stringified (`setItem` turns an `undefined` into its name). -/
def serialize (H : Host) (value : JSValue) : String :=
  match value with
  | JSValue.str s => s
  | other => (H.jsonStringify other).getD "undefined"

/-- `remove(key)`. -/
def remove (svc : StorageService) (ls : LocalStorage) (key : String) : Bool × LocalStorage :=
  if !svc.isSupported then (false, ls)
  else (true, ls.removeItem key)

/-- `keys()`. -/
def keys (svc : StorageService) (ls : LocalStorage) : List String :=
  if !svc.isSupported then [] else ls.keys

/-- The condition under which `clearExpired` removes an item that `get`
returned. -/
def isExpiredItem (H : Host) (now : Int) (item : JSValue) : Bool :=
  item.truthy && item.isObject && (item.getProp "expiry").truthy
    && jsGreater H now (item.getProp "expiry")

/-- The loop of `clearExpired` over the keys read at its start. -/
def clearExpiredLoop (svc : StorageService) (H : Host) (now : Int) :
    List String → Nat × LocalStorage → Nat × LocalStorage
  | [], acc => acc
  | key :: rest, (count, ls) =>
    if isExpiredItem H now (svc.get H ls key JSValue.null) then
      clearExpiredLoop svc H now rest (count + 1, (svc.remove ls key).2)
    else clearExpiredLoop svc H now rest (count, ls)

/-- `clearExpired()`: the number of removed items and the store left. -/
def clearExpired (svc : StorageService) (H : Host) (now : Int) (ls : LocalStorage) :
    Nat × LocalStorage :=
  if !svc.isSupported then (0, ls)
  else clearExpiredLoop svc H now (svc.keys ls) (0, ls)

/-- `set(key, value)`: on a quota error the expired items are cleared and the
write is tried once more; every other failure reports `false`. -/
def set (svc : StorageService) (H : Host) (now : Int) (ls : LocalStorage) (key : String)
    (value : JSValue) : Bool × LocalStorage :=
  if !svc.isSupported then (false, ls)
  else
    match ls.setItem key (serialize H value) with
    | Except.ok ls1 => (true, ls1)
    | Except.error StorageError.quotaExceeded =>
      let cleared := (svc.clearExpired H now ls).2
      match cleared.setItem key (serialize H value) with
      | Except.ok ls2 => (true, ls2)
      | Except.error _ => (false, cleared)
    | Except.error StorageError.other => (false, ls)

/-- `exists(key)`. -/
def «exists» (svc : StorageService) (ls : LocalStorage) (key : String) : Bool :=
  if !svc.isSupported then false
  else (ls.getItem key).isSome

/-- `setWithExpiry(key, value, ttl)` called at time `now`. -/
def setWithExpiry (svc : StorageService) (H : Host) (now : Int) (ls : LocalStorage)
    (key : String) (value : JSValue) (ttl : Int) : Bool × LocalStorage :=
  if !svc.isSupported then (false, ls)
  else
    svc.set H now ls key
      (JSValue.obj [("value", value), ("expiry", JSValue.num (now + ttl))])

/-- `getWithExpiry(key, defaultValue)` called at time `now`: the value read
and the store left. -/
def getWithExpiry (svc : StorageService) (H : Host) (now : Int) (ls : LocalStorage)
    (key : String) (defaultValue : JSValue) : JSValue × LocalStorage :=
  if !svc.isSupported then (defaultValue, ls)
  else
    let item := svc.get H ls key JSValue.null
    if !item.truthy || !item.isObject || !(item.getProp "expiry").truthy then
      (defaultValue, ls)
    else if jsGreater H now (item.getProp "expiry") then
      (defaultValue, (svc.remove ls key).2)
    else (item.getProp "value", ls)

end StorageService

/-- A supported service. -/
def liveService : StorageService := { isSupported := true }

/-- An empty store with room for 1000 characters. -/
def emptyStore : LocalStorage := { entries := [], quota := 1000, readOnly := false }

/-! ## Timers (`setTimeout` / `clearTimeout`) -/

/-- A timer set by `setTimeout(() => func(...args), delay)` and not yet run. -/
structure Timer (α : Type) where
  id : Nat
  fireAt : Nat
  args : α

/-- The timer part of the event loop, and the record of the calls made to the
wrapped function (time of the call, arguments). Timer ids are positive. -/
structure TimerLoop (α : Type) where
  now : Nat
  nextId : Nat
  pending : List (Timer α)
  calls : List (Nat × α)

namespace TimerLoop

/-- The loop at time 0 with no timer set. -/
def init (α : Type) : TimerLoop α :=
  { now := 0, nextId := 1, pending := [], calls := [] }

/-- `setTimeout(callback, delay)`: the id handed out and the loop left. -/
def setTimeout {α : Type} (loop : TimerLoop α) (delay : Nat) (args : α) : Nat × TimerLoop α :=
  (loop.nextId,
    { loop with
      nextId := loop.nextId + 1
      pending := loop.pending ++ [{ id := loop.nextId, fireAt := loop.now + delay, args := args }] })

/-- `clearTimeout(id)`. -/
def clearTimeout {α : Type} (loop : TimerLoop α) (id : Nat) : TimerLoop α :=
  { loop with pending := loop.pending.filter (fun t => t.id ≠ id) }

/-- Let time pass until `t`: the timers due by then run in the order of their
due times (timers due together run in the order they were set). -/
def advanceTo {α : Type} (loop : TimerLoop α) (t : Nat) : TimerLoop α :=
  { loop with
    now := max loop.now t
    pending := loop.pending.filter (fun x => ¬ x.fireAt ≤ t)
    calls := loop.calls ++
      ((loop.pending.filter (fun x => x.fireAt ≤ t)).insertionSort
        (fun x y => x.fireAt ≤ y.fireAt)).map (fun x => (x.fireAt, x.args)) }

/-- Let time pass until no timer is pending. -/
def drain {α : Type} (loop : TimerLoop α) : TimerLoop α :=
  loop.advanceTo ((loop.pending.map (fun x => x.fireAt)).foldl max 0)

end TimerLoop

/-! ## `debounce` (src/utils/helpers.js) -/

/-- The closure variable `timeoutId` of a debounced function; `none` is
`undefined`. -/
structure Debounce where
  timeoutId : Option Nat
  deriving DecidableEq, Repr

namespace Debounce

/-- The state right after `debounce(func, delay)`. -/
def init : Debounce := { timeoutId := none }

/-- One call `debounced(...args)`: `clearTimeout(timeoutId)` and a new timer. -/
def call {α : Type} (delay : Nat) (st : Debounce × TimerLoop α) (args : α) :
    Debounce × TimerLoop α :=
  let cleared :=
    match st.1.timeoutId with
    | some id => st.2.clearTimeout id
    | none => st.2
  let started := cleared.setTimeout delay args
  ({ timeoutId := some started.1 }, started.2)

end Debounce

/-! ## `useDebouncedCallback` (src/hooks/useDebounce.js) -/

/-- The ref `timeoutRef` of the hook; `none` is `undefined`. -/
structure DebouncedCallback where
  timeoutRef : Option Nat
  deriving DecidableEq, Repr

namespace DebouncedCallback

/-- The state after the first render. -/
def init : DebouncedCallback := { timeoutRef := none }

/-- The test `if (timeoutRef.current)`: a defined, non-zero timer id. -/
def hasTimer (st : DebouncedCallback) : Option Nat :=
  match st.timeoutRef with
  | some id => if id = 0 then none else some id
  | none => none

/-- One call `debouncedCallback(...args)`. -/
def call {α : Type} (delay : Nat) (st : DebouncedCallback × TimerLoop α) (args : α) :
    DebouncedCallback × TimerLoop α :=
  let cleared :=
    match st.1.hasTimer with
    | some id => st.2.clearTimeout id
    | none => st.2
  let started := cleared.setTimeout delay args
  ({ timeoutRef := some started.1 }, started.2)

/-- The effect cleanup run on unmount. -/
def unmount {α : Type} (st : DebouncedCallback × TimerLoop α) :
    DebouncedCallback × TimerLoop α :=
  match st.1.hasTimer with
  | some id => (st.1, st.2.clearTimeout id)
  | none => st

end DebouncedCallback

/-- Feed timed triggers `(time, args)` to a debounced function: before each
trigger the loop runs the timers due by its time. -/
def runTriggers {σ α : Type} (call : σ × TimerLoop α → α → σ × TimerLoop α) :
    List (Nat × α) → σ × TimerLoop α → σ × TimerLoop α
  | [], st => st
  | (t, args) :: rest, st => runTriggers call rest (call (st.1, st.2.advanceTo t) args)

/-- The calls the wrapped function has received once the triggers are over and
every timer has run. -/
def observedCalls {σ α : Type} (call : σ × TimerLoop α → α → σ × TimerLoop α) (start : σ)
    (triggers : List (Nat × α)) : List (Nat × α) :=
  (runTriggers call triggers (start, TimerLoop.init α)).2.drain.calls

/-- Consecutive triggers are in time order and less than `delay` apart. -/
def Rapid {α : Type} (delay : Nat) (triggers : List (Nat × α)) : Prop :=
  List.Chain' (fun p q => p.1 ≤ q.1 ∧ q.1 < p.1 + delay) triggers

/-! ## `useDebouncedAPI` (src/hooks/useDebounce.js) -/

/-- How a call of the API function ends when nothing aborts it. -/
inductive Outcome (ρ : Type) where
  | resolve (result : ρ) : Outcome ρ
  | reject (name : String) (message : String) : Outcome ρ
  deriving DecidableEq, Repr

/-- One call of `apiFunction`: its own outcome, and whether it watches the
`signal` it is given (then it rejects with an `AbortError` once aborted). -/
structure ApiCall (ρ : Type) where
  outcome : Outcome ρ
  honoursSignal : Bool
  deriving DecidableEq, Repr

/-- State of the hook: the three `useState` cells, the controller held by
`abortControllerRef` (named by the request it was made for), and the
controllers on which `abort()` has been called. -/
structure ApiState (ρ : Type) where
  loading : Bool
  error : Option String
  data : Option ρ
  controller : Option Nat
  aborted : List Nat
  deriving DecidableEq, Repr

/-- What happens to the hook: the debounced callback starts request `id`, or
the promise of request `id` settles. -/
inductive ApiEvent where
  | start (id : Nat) : ApiEvent
  | settle (id : Nat) : ApiEvent
  deriving DecidableEq, Repr

namespace ApiState

/-- The state after the first render. -/
def init (ρ : Type) : ApiState ρ :=
  { loading := false, error := none, data := none, controller := none, aborted := [] }

/-- The callback up to its `await`: abort the previous controller, install a
new one, `setLoading(true)`, `setError(null)`. -/
def start {ρ : Type} (st : ApiState ρ) (id : Nat) : ApiState ρ :=
  { st with
    aborted :=
      match st.controller with
      | some previous => previous :: st.aborted
      | none => st.aborted
    controller := some id
    loading := true
    error := none }

/-- The outcome the awaited promise of request `id` delivers. -/
def delivered {ρ : Type} (st : ApiState ρ) (call : ApiCall ρ) (id : Nat) : Outcome ρ :=
  if call.honoursSignal && decide (id ∈ st.aborted) then
    Outcome.reject "AbortError" "The operation was aborted."
  else call.outcome

/-- The callback after its `await`: `setData(result)`, or `setError` unless the
error is an `AbortError`; `setLoading(false)` in both cases. -/
def settle {ρ : Type} (st : ApiState ρ) (call : ApiCall ρ) (id : Nat) : ApiState ρ :=
  match st.delivered call id with
  | Outcome.resolve result => { st with data := some result, loading := false }
  | Outcome.reject name message =>
    if name ≠ "AbortError" then
      { st with
        error := some (if message = "" then "API call failed" else message)
        loading := false }
    else { st with loading := false }

/-- One event. -/
def step {ρ : Type} (calls : Nat → ApiCall ρ) (st : ApiState ρ) : ApiEvent → ApiState ρ
  | ApiEvent.start id => st.start id
  | ApiEvent.settle id => st.settle (calls id) id

/-- A run of events from the initial state. -/
def run {ρ : Type} (calls : Nat → ApiCall ρ) (events : List ApiEvent) : ApiState ρ :=
  events.foldl (step calls) (init ρ)

end ApiState

/-! ## Strings and arrays of the host language -/

/-- `haystack.includes(needle)` on character lists. -/
def includesChars (needle : List Char) : List Char → Bool
  | [] => needle.isEmpty
  | c :: cs => needle.isPrefixOf (c :: cs) || includesChars needle cs

/-- `haystack.includes(needle)`. -/
def strIncludes (haystack needle : String) : Bool :=
  includesChars needle.data haystack.data

/-- The relative index of `Array.prototype.slice`: a negative index counts
from the end, and the result is clamped to `0..len`. -/
def relativeIndex (len : Nat) (i : Int) : Nat :=
  if i < 0 then (len + i).toNat else min i.toNat len

/-- `array.slice(start, end)`. -/
def jsSlice {α : Type} (xs : List α) (start stop : Int) : List α :=
  (xs.drop (relativeIndex xs.length start)).take
    (relativeIndex xs.length stop - relativeIndex xs.length start)

/-- `array.sort(compare)`: the sort is stable, so `a` stays ahead of a later
`b` unless `compare(a, b) > 0`. For a consistent comparator every stable sort
gives this list. For an inconsistent one (a comparator that returns `NaN` for
some pairs only) ECMAScript leaves the order to the implementation, and the
list given here is one of the orders allowed. -/
def sortWith {α : Type} (compare : α → α → ℚ) (xs : List α) : List α :=
  xs.insertionSort (fun a b => compare a b ≤ 0)

/-- The value of `x || fallback` for an optional number (`undefined` and `0`
are falsy). -/
def orElse (x : Option Int) (fallback : Int) : Int :=
  match x with
  | some v => if v = 0 then fallback else v
  | none => fallback

/-- The test `if (text)` for an optional string (`undefined` and the empty
string are falsy). -/
def present (x : Option String) : Option String :=
  match x with
  | some text => if text = "" then none else some text
  | none => none

/-- White space skipped by `parseInt` and matched by the regex class `\s`. -/
def isJsSpace (c : Char) : Bool :=
  c.toNat ∈ [9, 10, 11, 12, 13, 32, 160, 5760, 8232, 8233, 8239, 8287, 12288, 65279]
    || (8192 ≤ c.toNat && c.toNat ≤ 8202)

/-- Value of a hexadecimal digit. -/
def hexDigit (c : Char) : Option Nat :=
  if c.isDigit then some (c.toNat - 48)
  else if 'a'.toNat ≤ c.toNat ∧ c.toNat ≤ 'f'.toNat then some (c.toNat - 87)
  else if 'A'.toNat ≤ c.toNat ∧ c.toNat ≤ 'F'.toNat then some (c.toNat - 55)
  else none

/-- Value of the longest prefix of hexadecimal digits, `none` when empty. -/
def hexPrefix : List Char → Option Nat → Option Nat
  | [], acc => acc
  | c :: cs, acc =>
    match hexDigit c with
    | some d => hexPrefix cs (some (16 * acc.getD 0 + d))
    | none => acc

/-- Unsigned part of `parseInt`: a `0x` prefix selects radix 16, otherwise the
longest prefix of decimal digits is read; `none` is `NaN`. -/
def parseIntUnsigned (cs : List Char) : Option Nat :=
  match cs with
  | '0' :: 'x' :: rest => hexPrefix rest none
  | '0' :: 'X' :: rest => hexPrefix rest none
  | _ =>
    match (RefHost.spanDigits cs).1 with
    | [] => none
    | ds => some (RefHost.digitsValue ds)

/-- `parseInt(text)` without radix; `none` is `NaN`. -/
def parseInt (text : String) : Option Int :=
  match text.data.dropWhile isJsSpace with
  | '-' :: rest => (parseIntUnsigned rest).map (fun n => -(n : Int))
  | '+' :: rest => (parseIntUnsigned rest).map (fun n => (n : Int))
  | rest => (parseIntUnsigned rest).map (fun n => (n : Int))

/-! ## `parseTime` (src/utils/helpers.js) -/

/-- The group `(min|hour|hr|h)` under the flag `i` at the head of the input:
`some true` for the hour units, `some false` for `min`. -/
def matchUnit (cs : List Char) : Option Bool :=
  match cs.map Char.toLower with
  | 'm' :: 'i' :: 'n' :: _ => some false
  | 'h' :: _ => some true
  | _ => none

/-- The regex of `parseTime` anchored at the head of the input: the digits and
whether the unit is an hour unit. -/
def matchTimeAt (cs : List Char) : Option (List Char × Bool) :=
  match RefHost.spanDigits cs with
  | ([], _) => none
  | (ds, rest) => (matchUnit (rest.dropWhile isJsSpace)).map (fun hour => (ds, hour))

/-- The leftmost match of the regex of `parseTime`. -/
def matchTime : List Char → Option (List Char × Bool)
  | [] => none
  | c :: cs =>
    match matchTimeAt (c :: cs) with
    | some m => some m
    | none => matchTime cs

/-- `parseTime(timeString)`: minutes denoted by a duration string, 0 when it
has no `<digits> <unit>` part. -/
def parseTime (timeString : String) : Int :=
  match matchTime timeString.data with
  | none => 0
  | some (ds, hour) =>
    if hour then (RefHost.digitsValue ds : Int) * 60 else (RefHost.digitsValue ds : Int)

/-! ## Recipes (src/hooks/useRecipes.js, src/services/mockData.js) -/

/-! ## Binary64 numbers -/

/-- A value of the ECMAScript Number type: a finite number, held as the
rational that it denotes (the two zeros are one value), an infinity, or
`NaN`. -/
inductive Double where
  | finite (value : ℚ) : Double
  | infinity (negative : Bool) : Double
  | nan : Double
  deriving DecidableEq

namespace Double

/-- The power `2 ^ e` for an integer `e`. -/
def pow2 (e : Int) : ℚ :=
  if 0 ≤ e then ((2 ^ e.toNat : Nat) : ℚ) else 1 / ((2 ^ (-e).toNat : Nat) : ℚ)

/-- Rounding to the nearest integer, a tie going to the even one. -/
def roundHalfEven (q : ℚ) : Int :=
  if q - ⌊q⌋ < 1 / 2 then ⌊q⌋
  else if 1 / 2 < q - ⌊q⌋ then ⌊q⌋ + 1
  else if ⌊q⌋ % 2 = 0 then ⌊q⌋ else ⌊q⌋ + 1

/-- The number of binary digits of `n`; the first argument bounds the number
of halvings. -/
def bitLength : Nat → Nat → Nat
  | 0, _ => 0
  | fuel + 1, n => if n = 0 then 0 else bitLength fuel (n / 2) + 1

/-- The greatest `k` with `2 ^ k ≤ |q|`, for `q ≠ 0`: the difference of the
bit lengths of numerator and denominator, or one less. -/
def floorLog2 (q : ℚ) : Int :=
  if pow2 ((bitLength q.num.natAbs q.num.natAbs : Int) - (bitLength q.den q.den : Int)) ≤ |q| then
    (bitLength q.num.natAbs q.num.natAbs : Int) - (bitLength q.den q.den : Int)
  else (bitLength q.num.natAbs q.num.natAbs : Int) - (bitLength q.den q.den : Int) - 1

/-- The binary64 value of an exact result `q` (IEEE 754 round to nearest,
ties to even): a significand of 53 bits above the exponent `-1074` of the
subnormal numbers, and an infinity from `2 ^ 1024` on. -/
def round (q : ℚ) : Double :=
  if q = 0 then finite 0
  else if pow2 1024
      ≤ |(roundHalfEven (q / pow2 (max (floorLog2 q - 52) (-1074))) : ℚ)
          * pow2 (max (floorLog2 q - 52) (-1074))| then
    infinity (decide (q < 0))
  else
    finite ((roundHalfEven (q / pow2 (max (floorLog2 q - 52) (-1074))) : ℚ)
      * pow2 (max (floorLog2 q - 52) (-1074)))

/-- The product `x * y` of two numbers. -/
def mul : Double → Double → Double
  | finite x, finite y => round (x * y)
  | finite x, infinity negative =>
    if x = 0 then nan else infinity (xor (decide (x < 0)) negative)
  | infinity negative, finite y =>
    if y = 0 then nan else infinity (xor negative (decide (y < 0)))
  | infinity negative, infinity negative2 => infinity (xor negative negative2)
  | _, _ => nan

/-- The difference `x - y` of two numbers. -/
def sub : Double → Double → Double
  | finite x, finite y => round (x - y)
  | finite _, infinity negative => infinity (!negative)
  | infinity negative, finite _ => infinity negative
  | infinity negative, infinity negative2 => if negative = negative2 then nan else infinity negative
  | _, _ => nan

/-- The comparison `x <= y` of two numbers. -/
def le : Double → Double → Bool
  | finite x, finite y => decide (x ≤ y)
  | finite _, infinity negative => !negative
  | infinity negative, finite _ => negative
  | infinity negative, infinity negative2 => negative || !negative2
  | _, _ => false

/-- What `sort` reads from the result of a comparator: `NaN` counts as `+0`,
and of every other number only the sign is used. -/
def toCompare : Double → ℚ
  | finite value => value
  | infinity negative => if negative then -1 else 1
  | nan => 0

/-- The value of a decimal number literal `q` within the range of the finite
numbers: the binary64 number nearest to it. -/
def literal (q : ℚ) : ℚ :=
  match round q with
  | finite value => value
  | _ => 0

end Double

instance : LE Double := ⟨fun x y => Double.le x y = true⟩

instance (x y : Double) : Decidable (x ≤ y) :=
  inferInstanceAs (Decidable (Double.le x y = true))

instance (n : Nat) : OfNat Double n := ⟨Double.finite n⟩

/-- The fields of a recipe that the queries read. `rating` and `reviewCount`
are finite numbers, each held as the rational that it denotes. -/
structure Recipe where
  id : Nat
  title : String
  description : String
  category : String
  difficulty : String
  prepTime : String
  rating : ℚ
  reviewCount : Int
  tags : List String
  createdAt : String
  deriving DecidableEq

/-- The argument `filters` of `fetchRecipes`; `none` is an absent property. -/
structure Filters where
  search : Option String
  category : Option String
  difficulty : Option String
  tags : Option (List String)
  sortBy : Option String
  page : Option Int
  limit : Option Int
  deriving DecidableEq

/-- The state cell `pagination`. -/
structure Pagination where
  page : Int
  limit : Int
  total : Nat
  totalPages : Int
  deriving DecidableEq

/-- What `fetchRecipes` leaves in the state of the hook. -/
structure RecipesState where
  recipes : List Recipe
  pagination : Pagination
  error : Option String
  loading : Bool
  deriving DecidableEq

/-- The popularity `rating * reviewCount`, a binary64 product. -/
def popularity (r : Recipe) : Double :=
  Double.mul (Double.finite r.rating) (Double.finite r.reviewCount)

/-- The comparator `(a, b) => b.rating * b.reviewCount - a.rating * a.reviewCount`,
as `sort` reads its result. -/
def comparePopular (a b : Recipe) : ℚ :=
  Double.toCompare
    (Double.sub (Double.mul (Double.finite b.rating) (Double.finite b.reviewCount))
      (Double.mul (Double.finite a.rating) (Double.finite a.reviewCount)))

/-- The comparator `(a, b) => b.rating - a.rating`, as `sort` reads its
result. -/
def compareRating (a b : Recipe) : ℚ :=
  Double.toCompare (Double.sub (Double.finite b.rating) (Double.finite a.rating))

/-- The comparator `(a, b) => new Date(b.createdAt) - new Date(a.createdAt)`;
a `NaN` result is read by `sort` as 0. -/
def compareNewest (H : Host) (a b : Recipe) : ℚ :=
  match H.dateParse b.createdAt, H.dateParse a.createdAt with
  | some tb, some ta => ((tb - ta : Int) : ℚ)
  | _, _ => 0

/-- The comparator `(a, b) => new Date(a.createdAt) - new Date(b.createdAt)`. -/
def compareOldest (H : Host) (a b : Recipe) : ℚ :=
  match H.dateParse a.createdAt, H.dateParse b.createdAt with
  | some ta, some tb => ((ta - tb : Int) : ℚ)
  | _, _ => 0

/-- The comparator `(a, b) => a.title.localeCompare(b.title)`. -/
def compareAlphabetical (H : Host) (a b : Recipe) : ℚ :=
  (H.localeCompare a.title b.title : ℚ)

/-- The comparator of the `prep-time` case:
`parseInt(a.prepTime) - parseInt(b.prepTime)`; a `NaN` result is read by
`sort` as 0. -/
def comparePrepTime (a b : Recipe) : ℚ :=
  match parseInt a.prepTime, parseInt b.prepTime with
  | some aTime, some bTime => ((aTime - bTime : Int) : ℚ)
  | _, _ => 0

/-- The search filter, run when `filters.search` is truthy. -/
def filterSearch (H : Host) (search : Option String) (recipes : List Recipe) : List Recipe :=
  match present search with
  | some text =>
    recipes.filter (fun recipe =>
      strIncludes (H.toLowerCase recipe.title) (H.toLowerCase text)
        || strIncludes (H.toLowerCase recipe.description) (H.toLowerCase text)
        || recipe.tags.any (fun tag => strIncludes (H.toLowerCase tag) (H.toLowerCase text)))
  | none => recipes

/-- The category filter, run when `filters.category` is truthy. -/
def filterCategory (category : Option String) (recipes : List Recipe) : List Recipe :=
  match present category with
  | some c => recipes.filter (fun recipe => recipe.category = c)
  | none => recipes

/-- The difficulty filter, run when `filters.difficulty` is truthy. -/
def filterDifficulty (difficulty : Option String) (recipes : List Recipe) : List Recipe :=
  match present difficulty with
  | some d => recipes.filter (fun recipe => recipe.difficulty = d)
  | none => recipes

/-- The tag filter, run when `filters.tags` is a non-empty array. -/
def filterTags (tags : Option (List String)) (recipes : List Recipe) : List Recipe :=
  match tags with
  | some (t :: ts) =>
    recipes.filter (fun recipe => (t :: ts).any (fun tag => recipe.tags.contains tag))
  | _ => recipes

/-- The four filters of `fetchRecipes` in their order. -/
def matchedRecipes (H : Host) (all : List Recipe) (filters : Filters) : List Recipe :=
  filterTags filters.tags
    (filterDifficulty filters.difficulty
      (filterCategory filters.category
        (filterSearch H filters.search all)))

/-- The sorting step of `fetchRecipes`: nothing without a (truthy) sort key,
the `switch` otherwise. -/
def sortRecipes (H : Host) (sortBy : Option String) (recipes : List Recipe) : List Recipe :=
  match present sortBy with
  | none => recipes
  | some key =>
    if key = "newest" then sortWith (compareNewest H) recipes
    else if key = "oldest" then sortWith (compareOldest H) recipes
    else if key = "rating" then sortWith compareRating recipes
    else if key = "alphabetical" then sortWith (compareAlphabetical H) recipes
    else if key = "prep-time" then sortWith comparePrepTime recipes
    else sortWith comparePopular recipes

/-- `Math.ceil(total / limit)` for a non-zero `limit`. -/
def ceilDiv (total : Nat) (limit : Int) : Int :=
  ⌈((total : ℚ) / (limit : ℚ))⌉

/-- `fetchRecipes(filters)` over the collection `all` (the module constant
`mockRecipes`): filter, sort, paginate, and store the page and the pagination
record. Nothing in the `try` block throws, so `error` stays `null`. -/
def fetchRecipes (H : Host) (all : List Recipe) (filters : Filters) : RecipesState :=
  let filteredRecipes := sortRecipes H filters.sortBy (matchedRecipes H all filters)
  let page := orElse filters.page 1
  let limit := orElse filters.limit 12
  let startIndex := (page - 1) * limit
  let endIndex := startIndex + limit
  { recipes := jsSlice filteredRecipes startIndex endIndex
    pagination :=
      { page := page
        limit := limit
        total := filteredRecipes.length
        totalPages := ceilDiv filteredRecipes.length limit }
    error := none
    loading := false }

/-- `fetchPopularRecipes(limit = 6)` over the collection `all`. -/
def fetchPopularRecipes (all : List Recipe) (limit : Option Int) : List Recipe :=
  jsSlice (sortWith comparePopular all) 0 (limit.getD 6)

/-- The record returned by `mockDataUtils.paginate`. -/
structure Page (α : Type) where
  items : List α
  page : Int
  limit : Int
  total : Nat
  totalPages : Int
  hasNext : Bool
  hasPrev : Bool

/-- `mockDataUtils.paginate(items, page = 1, limit = 12)`. -/
def paginate {α : Type} (items : List α) (page : Option Int) (limit : Option Int) : Page α :=
  let startIndex := (page.getD 1 - 1) * limit.getD 12
  let endIndex := startIndex + limit.getD 12
  { items := jsSlice items startIndex endIndex
    page := page.getD 1
    limit := limit.getD 12
    total := items.length
    totalPages := ⌈((items.length : ℚ) / (limit.getD 12 : ℚ))⌉
    hasNext := decide (endIndex < (items.length : Int))
    hasPrev := decide (page.getD 1 > 1) }

/-- A recipe with the given title, preparation time, rating and review count
(category `main-courses`, difficulty `easy`, tag `quick`); the rating is
written as a decimal literal and held as the binary64 number it denotes. -/
def sampleRecipe (id : Nat) (title prepTime : String) (rating : ℚ) (reviewCount : Int) : Recipe :=
  { id := id, title := title, description := "", category := "main-courses",
    difficulty := "easy", prepTime := prepTime, rating := Double.literal rating,
    reviewCount := reviewCount, tags := ["quick"], createdAt := "0" }

/-- A query with no property set. -/
def noFilters : Filters :=
  { search := none, category := none, difficulty := none, tags := none, sortBy := none,
    page := none, limit := none }

/-- The host turns `v` into JSON text from which it reads `v` back. -/
def Host.RoundTrips (H : Host) (v : JSValue) : Prop :=
  ∃ text, H.jsonStringify v = some text ∧ H.jsonParse text = some v

/-! ## `mockDataUtils` (src/services/mockData.js) -/

/-- What a query leaves behind: the value it returns and the content of the
module array `mockRecipes` after the call. -/
structure QueryRun (β : Type) where
  result : β
  mockRecipes : List Recipe

/-- The argument `filters` of `mockDataUtils.filterRecipes`. -/
structure MockFilters where
  category : Option String
  difficulty : Option String
  minRating : Option ℚ
  sortBy : Option String
  deriving DecidableEq

namespace MockDataUtils

/-- `mockDataUtils.searchRecipes(query)` over the collection `mockRecipes`. -/
def searchRecipes (H : Host) (mockRecipes : List Recipe) (query : String) : List Recipe :=
  mockRecipes.filter (fun recipe =>
    strIncludes (H.toLowerCase recipe.title) (H.toLowerCase query)
      || strIncludes (H.toLowerCase recipe.description) (H.toLowerCase query)
      || recipe.tags.any (fun tag => strIncludes (H.toLowerCase tag) (H.toLowerCase query)))

/-- The sorting step of `mockDataUtils.filterRecipes`. -/
def sortFiltered (H : Host) (sortBy : Option String) (filtered : List Recipe) : List Recipe :=
  match present sortBy with
  | none => filtered
  | some key =>
    if key = "newest" then sortWith (compareNewest H) filtered
    else if key = "rating" then sortWith compareRating filtered
    else if key = "alphabetical" then sortWith (compareAlphabetical H) filtered
    else sortWith comparePopular filtered

/-- The `minRating` step of `mockDataUtils.filterRecipes`, run when
`filters.minRating` is truthy. -/
def filterMinRating (minRating : Option ℚ) (filtered : List Recipe) : List Recipe :=
  match minRating with
  | some m => if m = 0 then filtered else filtered.filter (fun recipe => decide (recipe.rating ≥ m))
  | none => filtered

/-- `mockDataUtils.filterRecipes(filters)`: the filters and the sort work on
the copy `[...mockRecipes]`; the module array is not touched. -/
def filterRecipes (H : Host) (mockRecipes : List Recipe) (filters : MockFilters) :
    QueryRun (List Recipe) :=
  let filtered := mockRecipes
  { result :=
      sortFiltered H filters.sortBy
        (filterMinRating filters.minRating
          (filterDifficulty filters.difficulty (filterCategory filters.category filtered)))
    mockRecipes := mockRecipes }

/-- `mockDataUtils.getPopularRecipes(limit = 10)`: `mockRecipes.sort(...)`
sorts the module array itself, in place, and returns it; the result is a slice
of the sorted module array. -/
def getPopularRecipes (mockRecipes : List Recipe) (limit : Option Int) :
    QueryRun (List Recipe) :=
  let sorted := sortWith comparePopular mockRecipes
  { result := jsSlice sorted 0 (limit.getD 10)
    mockRecipes := sorted }

end MockDataUtils

/-- `fetchRecipes(filters)` of the hook together with the module array it
leaves: the hook filters and sorts the copy `[...mockRecipes]`. -/
def fetchRecipesRun (H : Host) (mockRecipes : List Recipe) (filters : Filters) :
    QueryRun RecipesState :=
  let filteredRecipes := mockRecipes
  { result := fetchRecipes H filteredRecipes filters
    mockRecipes := mockRecipes }

/-- `fetchPopularRecipes(limit)` of the hook together with the module array it
leaves: `[...mockRecipes].sort(...)` sorts a copy. -/
def fetchPopularRecipesRun (mockRecipes : List Recipe) (limit : Option Int) :
    QueryRun (List Recipe) :=
  let copy := mockRecipes
  { result := fetchPopularRecipes copy limit
    mockRecipes := mockRecipes }

/-! ## Plain objects as key/value lists -/

/-- `object[key]` on own properties; `none` is `undefined`. -/
def objGet {β : Type} (key : String) (object : List (String × β)) : Option β :=
  (object.find? (fun e => e.1 = key)).map (fun e => e.2)

/-- `{ ...object, [key]: value }`: an own property keeps its place and takes
the new value, a new property goes last. -/
def objSet {β : Type} (key : String) (value : β) : List (String × β) → List (String × β)
  | [] => [(key, value)]
  | (k, v) :: rest => if k = key then (k, value) :: rest else (k, v) :: objSet key value rest

/-- `delete object[key]`. -/
def objDelete {β : Type} (key : String) (object : List (String × β)) : List (String × β) :=
  object.filter (fun e => e.1 ≠ key)

/-- `text.trim()`. -/
def jsTrim (text : String) : String :=
  String.mk ((text.data.dropWhile isJsSpace).reverse.dropWhile isJsSpace).reverse

/-! ## `useLocalStorage` (src/hooks/useLocalStorage.js) -/

/-- The argument of `setValue`: a value, or a function of the previous
value. -/
inductive SetArg where
  | value (v : JSValue) : SetArg
  | updater (f : JSValue → JSValue) : SetArg

namespace UseLocalStorage

/-- The initial state of the hook: the parsed item when the key holds a
non-empty string that parses, the initial value otherwise. -/
def initialState (H : Host) (hasWindow : Bool) (key : String) (initialValue : JSValue)
    (ls : LocalStorage) : JSValue :=
  if !hasWindow then initialValue
  else
    match ls.getItem key with
    | none => initialValue
    | some item =>
      if item = "" then initialValue
      else
        match H.jsonParse item with
        | some parsed => parsed
        | none => initialValue

/-- The line `value instanceof Function ? value(storedValue) : value`. -/
def valueToStore (storedValue : JSValue) : SetArg → JSValue
  | SetArg.value v => v
  | SetArg.updater f => f storedValue

/-- `setValue(value)` on the state `(storedValue, localStorage)`:
`setStoredValue(valueToStore)` runs first, then `setItem`; an exception of
`setItem` is caught and logged. -/
def setValue (H : Host) (hasWindow : Bool) (key : String) (st : JSValue × LocalStorage)
    (value : SetArg) : JSValue × LocalStorage :=
  let stored := valueToStore st.1 value
  if hasWindow then
    match st.2.setItem key ((H.jsonStringify stored).getD "undefined") with
    | Except.ok written => (stored, written)
    | Except.error _ => (stored, st.2)
  else (stored, st.2)

end UseLocalStorage

/-! ## `useSearchHistory` -/

/-- The history that `addSearch(query)` stores, from the history `prev`. -/
def addSearch (H : Host) (maxItems : Int) (prev : List String) (query : String) : List String :=
  if query = "" ∨ jsTrim query = "" then prev
  else
    jsSlice
      (jsTrim query ::
        prev.filter (fun item => decide (H.toLowerCase item ≠ H.toLowerCase (jsTrim query))))
      0 maxItems

/-! ## `useRecentlyViewed` -/

/-- The fields of a recipe that the recently-viewed list and the favorites
copy; the payload fields are copied as they are. -/
structure RecipeCard where
  id : Nat
  title : JSValue
  image : JSValue
  rating : JSValue
  author : JSValue

/-- An entry of the recently-viewed list. -/
structure ViewedRecipe where
  id : Nat
  title : JSValue
  image : JSValue
  rating : JSValue
  author : JSValue
  viewedAt : String

/-- The list that `addRecipe(recipe)` stores, from the list `prev`; `nowIso` is
`new Date().toISOString()`, `none` a missing recipe, and the id 0 is falsy. -/
def addRecipe (nowIso : String) (maxItems : Int) (prev : List ViewedRecipe)
    (recipe : Option RecipeCard) : List ViewedRecipe :=
  match recipe with
  | none => prev
  | some r =>
    if r.id = 0 then prev
    else
      jsSlice
        ({ id := r.id, title := r.title, image := r.image, rating := r.rating,
           author := r.author, viewedAt := nowIso } ::
          prev.filter (fun item => decide (item.id ≠ r.id)))
        0 maxItems

/-! ## `useShoppingList` -/

/-- The fields of a shopping-list item that the grouping reads or shows;
`category` is `none` when the property is absent. -/
structure ShoppingItem where
  id : ℚ
  name : String
  category : Option String
  completed : Bool
  deriving DecidableEq

/-- The object `categories` of `getItemsByCategory`. -/
structure Categories where
  produce : List ShoppingItem
  dairy : List ShoppingItem
  meat : List ShoppingItem
  pantry : List ShoppingItem
  other : List ShoppingItem
  deriving DecidableEq

/-- The names that every plain object inherits from `Object.prototype`; each
of them reads as a truthy value (a function, or the prototype itself). -/
def objectPrototypeKeys : List String :=
  ["constructor", "__proto__", "hasOwnProperty", "isPrototypeOf", "propertyIsEnumerable",
   "toLocaleString", "toString", "valueOf", "__defineGetter__", "__defineSetter__",
   "__lookupGetter__", "__lookupSetter__"]

/-- One turn of the `forEach` of `getItemsByCategory`. `categories[category]`
is an own bucket, or an inherited truthy value without `push` (the call throws
a `TypeError`), or `undefined` (the item goes to `other`). -/
def groupItem (categories : Categories) (item : ShoppingItem) : Except String Categories :=
  let category :=
    match item.category with
    | some c => if c = "" then "other" else c
    | none => "other"
  if category = "produce" then Except.ok { categories with produce := categories.produce ++ [item] }
  else if category = "dairy" then Except.ok { categories with dairy := categories.dairy ++ [item] }
  else if category = "meat" then Except.ok { categories with meat := categories.meat ++ [item] }
  else if category = "pantry" then Except.ok { categories with pantry := categories.pantry ++ [item] }
  else if category = "other" then Except.ok { categories with other := categories.other ++ [item] }
  else if category ∈ objectPrototypeKeys then
    Except.error "TypeError: categories[category].push is not a function"
  else Except.ok { categories with other := categories.other ++ [item] }

/-- The `forEach` loop. -/
def groupItems : List ShoppingItem → Categories → Except String Categories
  | [], categories => Except.ok categories
  | item :: rest, categories =>
    match groupItem categories item with
    | Except.ok next => groupItems rest next
    | Except.error e => Except.error e

/-- `getItemsByCategory()` over the list `shoppingList`. -/
def getItemsByCategory (shoppingList : List ShoppingItem) : Except String Categories :=
  groupItems shoppingList { produce := [], dairy := [], meat := [], pantry := [], other := [] }

/-! ## `useMealPlan` -/

/-- The fields of a recipe that `addMeal` copies. -/
structure PlannedRecipe where
  id : Nat
  title : String
  image : String
  prepTime : String
  servings : Int
  deriving DecidableEq

/-- A meal slot of the plan. -/
structure MealEntry where
  id : Nat
  title : String
  image : String
  prepTime : String
  servings : Int
  addedAt : String
  deriving DecidableEq

/-- The record of one date: meal type to meal. -/
abbrev DayPlan := List (String × MealEntry)

/-- The meal plan: date key to day record. -/
abbrev MealPlan := List (String × DayPlan)

/-- The plan that `addMeal(date, mealType, recipe)` stores; `dateKey` is
`new Date(date).toISOString().split('T')[0]` of a valid date and `nowIso` is
`new Date().toISOString()`. -/
def addMeal (nowIso : String) (prev : MealPlan) (dateKey mealType : String)
    (recipe : PlannedRecipe) : MealPlan :=
  objSet dateKey
    (objSet mealType
      { id := recipe.id, title := recipe.title, image := recipe.image,
        prepTime := recipe.prepTime, servings := recipe.servings, addedAt := nowIso }
      ((objGet dateKey prev).getD []))
    prev

/-- The plan that `removeMeal(date, mealType)` stores. -/
def removeMeal (prev : MealPlan) (dateKey mealType : String) : MealPlan :=
  let dayPlan := objDelete mealType ((objGet dateKey prev).getD [])
  if dayPlan.length = 0 then objDelete dateKey prev
  else objSet dateKey dayPlan prev

/-- `getMealsForDate(date)`: `mealPlan[dateKey] || {}`. -/
def getMealsForDate (mealPlan : MealPlan) (dateKey : String) : DayPlan :=
  (objGet dateKey mealPlan).getD []

/-! ## `storage` (src/utils/helpers.js) -/

namespace HelperStorage

/-- `storage.get(key, defaultValue)`: the parsed item when the key holds a
non-empty string that parses, the default otherwise. -/
def get (H : Host) (ls : LocalStorage) (key : String) (defaultValue : JSValue) : JSValue :=
  match ls.getItem key with
  | none => defaultValue
  | some item =>
    if item = "" then defaultValue
    else
      match H.jsonParse item with
      | some parsed => parsed
      | none => defaultValue

/-- `storage.set(key, value)`: the success flag and the store left. -/
def set (H : Host) (ls : LocalStorage) (key : String) (value : JSValue) : Bool × LocalStorage :=
  match ls.setItem key ((H.jsonStringify value).getD "undefined") with
  | Except.ok written => (true, written)
  | Except.error _ => (false, ls)

/-- `storage.remove(key)`. -/
def remove (ls : LocalStorage) (key : String) : Bool × LocalStorage :=
  (true, ls.removeItem key)

end HelperStorage

/-! ## Imports from `src/utils/index.js` -/

/-- The names that `src/utils/index.js` exports. -/
def utilsIndexExports : List String :=
  ["constants", "helpers", "formatters", "validators",
   "API_ENDPOINTS", "RECIPE_CATEGORIES", "VALIDATION_RULES", "ERROR_MESSAGES",
   "SUCCESS_MESSAGES",
   "capitalize", "formatNumber", "formatDate", "storage", "debounce", "throttle", "slugify",
   "truncateText",
   "formatRecipeTime", "formatServings", "formatUserName", "formatTimeAgo", "formatRating",
   "formatExcerpt",
   "required", "email", "password", "validateForm", "validateField", "authSchemas",
   "recipeSchemas"]

/-- The binding that `import { name } from '../utils'` gives; `value` is
what `src/utils/constants.js` defines under the name. A name that index.js
does not export is bound to `undefined`, which is `none`. -/
def importFromUtils {α : Type} (name : String) (value : α) : Option α :=
  if name ∈ utilsIndexExports then some value else none

/-- The object `STORAGE_KEYS` of `src/utils/constants.js`. -/
def constantsStorageKeys : List (String × String) :=
  [("theme", "chefconnect_theme"), ("language", "chefconnect_language"),
   ("favorites", "chefconnect_favorites"), ("recentSearches", "chefconnect_recent_searches"),
   ("userPreferences", "chefconnect_user_preferences")]

/-- The binding `STORAGE_KEYS` of useRecipes.js, imported from `'../utils'`. -/
def STORAGE_KEYS : Option (List (String × String)) :=
  importFromUtils "STORAGE_KEYS" constantsStorageKeys

/-- The binding `AUTH_TOKEN_KEY` of useAuth.jsx, imported from `'../utils'`. -/
def AUTH_TOKEN_KEY : Option String :=
  importFromUtils "AUTH_TOKEN_KEY" "chefconnect_token"

/-- The binding `AUTH_USER_KEY` of useAuth.jsx, imported from `'../utils'`. -/
def AUTH_USER_KEY : Option String :=
  importFromUtils "AUTH_USER_KEY" "chefconnect_user"

/-- The key that `localStorage` makes of the argument it is given: the text of
a string, and the text `undefined` for `undefined`. -/
def keyText (key : Option String) : String :=
  key.getD "undefined"

/-! ## `useFavoriteRecipes` (src/hooks/useRecipes.js) -/

/-- An entry of the favorites list. -/
structure Favorite where
  id : Nat
  title : JSValue
  image : JSValue
  rating : JSValue
  author : JSValue
  addedAt : String

/-- The object a favorite is in JavaScript. -/
def Favorite.toJSValue (fav : Favorite) : JSValue :=
  JSValue.obj
    [("id", JSValue.num fav.id), ("title", fav.title), ("image", fav.image),
     ("rating", fav.rating), ("author", fav.author), ("addedAt", JSValue.str fav.addedAt)]

/-- The state cell `favorites` and the browser store. -/
structure FavoritesState where
  favorites : List Favorite
  store : LocalStorage

/-- `saveFavorites(newFavorites)`: `setFavorites(newFavorites)`, then
`storage.set(STORAGE_KEYS.favorites, newFavorites)`. The read of `favorites`
on an `undefined` `STORAGE_KEYS` throws a `TypeError`, after the state has
been set and before the store is written. The result is the error thrown, if
any, and the state left. -/
def saveFavorites (H : Host) (st : FavoritesState) (newFavorites : List Favorite) :
    Except String Unit × FavoritesState :=
  match STORAGE_KEYS with
  | none =>
    (Except.error "TypeError: Cannot read properties of undefined (reading 'favorites')",
      { st with favorites := newFavorites })
  | some keys =>
    (Except.ok (),
      { favorites := newFavorites
        store := (HelperStorage.set H st.store (keyText (objGet "favorites" keys))
          (JSValue.arr (newFavorites.map Favorite.toJSValue))).2 })

/-- `addToFavorites(recipe)`: the value returned or the error thrown, and the
state left; `nowIso` is `new Date().toISOString()`. -/
def addToFavorites (H : Host) (nowIso : String) (st : FavoritesState) (recipe : RecipeCard) :
    Except String Bool × FavoritesState :=
  let newFavorites := st.favorites
  match newFavorites.findIdx? (fun fav => decide (fav.id = recipe.id)) with
  | none =>
    match saveFavorites H st
      (newFavorites ++
        [{ id := recipe.id, title := recipe.title, image := recipe.image,
           rating := recipe.rating, author := recipe.author, addedAt := nowIso }]) with
    | (Except.ok _, saved) => (Except.ok true, saved)
    | (Except.error e, saved) => (Except.error e, saved)
  | some _ => (Except.ok false, st)

/-- `removeFromFavorites(recipeId)`: the value returned or the error thrown,
and the state left. -/
def removeFromFavorites (H : Host) (st : FavoritesState) (recipeId : Nat) :
    Except String Bool × FavoritesState :=
  match saveFavorites H st (st.favorites.filter (fun fav => decide (fav.id ≠ recipeId))) with
  | (Except.ok _, saved) => (Except.ok true, saved)
  | (Except.error e, saved) => (Except.error e, saved)

/-! ## `AuthProvider` (src/hooks/useAuth.jsx) -/

/-- The four state cells of the provider. -/
structure AuthState where
  user : JSValue
  token : JSValue
  loading : Bool
  isAuthenticated : Bool

/-- The keys that the provider passes to `storage`: what `localStorage` makes
of `AUTH_TOKEN_KEY` and of `AUTH_USER_KEY`. -/
structure AuthKeys where
  tokenKey : String
  userKey : String

/-- The keys of the provider as it is built: both imports are `undefined`, so
both keys are the text `undefined`. -/
def importedAuthKeys : AuthKeys :=
  { tokenKey := keyText AUTH_TOKEN_KEY, userKey := keyText AUTH_USER_KEY }

/-- What an action of the provider returns. -/
structure AuthResult where
  success : Bool
  user : Option JSValue
  error : Option String

/-- Decimal text of a number that holds an integer. -/
def numberText (n : Int) : String :=
  String.mk (RefHost.intText n)

/-- The own enumerable properties that a spread `...value` copies. -/
def spreadFields : JSValue → List (String × JSValue)
  | JSValue.obj fields => fields
  | JSValue.arr xs => (List.range xs.length).zip xs |>.map (fun e => (numberText e.1, e.2))
  | JSValue.str s =>
    (List.range s.data.length).zip s.data |>.map
      (fun e => (numberText e.1, JSValue.str (String.mk [e.2])))
  | _ => []

/-- The object literal `{ ...base, ...extra }`. -/
def spreadMerge (base extra : JSValue) : JSValue :=
  JSValue.obj ((spreadFields extra).foldl (fun acc e => objSet e.1 e.2 acc) (spreadFields base))

namespace AuthProvider

/-- The state of the first render. -/
def init : AuthState :=
  { user := JSValue.null, token := JSValue.null, loading := true, isAuthenticated := false }

/-- `initAuth()`, the effect run on mount. -/
def initAuth (H : Host) (K : AuthKeys) (w : AuthState × LocalStorage) :
    AuthState × LocalStorage :=
  let storedToken := HelperStorage.get H w.2 K.tokenKey JSValue.null
  let storedUser := HelperStorage.get H w.2 K.userKey JSValue.null
  if storedToken.truthy && storedUser.truthy then
    ({ w.1 with token := storedToken, user := storedUser, isAuthenticated := true,
                loading := false }, w.2)
  else ({ w.1 with loading := false }, w.2)

/-- The record `mockUser` of `login`. -/
def mockUser (credentials : JSValue) : JSValue :=
  JSValue.obj
    [("id", JSValue.num 1), ("name", JSValue.str "John Doe"),
     ("email", credentials.getProp "email"), ("username", JSValue.str "johndoe"),
     ("avatar",
      JSValue.str "https://images.unsplash.com/photo-1472099645785-5658abf4ff4e?w=150"),
     ("bio", JSValue.str "Passionate home cook and food enthusiast"),
     ("stats", JSValue.obj
        [("recipes", JSValue.num 24), ("followers", JSValue.num 1247),
         ("following", JSValue.num 156), ("likes", JSValue.num 3456)])]

/-- A property read on `null` or `undefined` throws a `TypeError`. -/
def isNullish : JSValue → Bool
  | JSValue.null => true
  | JSValue.undefined => true
  | _ => false

/-- `login(credentials)` completed at time `now`. -/
def login (H : Host) (K : AuthKeys) (now : Int) (w : AuthState × LocalStorage)
    (credentials : JSValue) : AuthResult × (AuthState × LocalStorage) :=
  if isNullish credentials then
    ({ success := false, user := none, error := some "TypeError" },
      ({ w.1 with loading := false }, w.2))
  else
    let user := mockUser credentials
    let mockToken := JSValue.str ("mock-jwt-token-" ++ numberText now)
    let store1 := (HelperStorage.set H w.2 K.tokenKey mockToken).2
    let store2 := (HelperStorage.set H store1 K.userKey user).2
    ({ success := true, user := some user, error := none },
      ({ user := user, token := mockToken, isAuthenticated := true, loading := false }, store2))

/-- The property `username` of the record built by `register`:
`userData.username || userData.email.split('@')[0]`; `none` when the call of
`split` throws. -/
def registerUsername (userData : JSValue) : Option JSValue :=
  if (userData.getProp "username").truthy then some (userData.getProp "username")
  else
    match userData.getProp "email" with
    | JSValue.str email => some (JSValue.str (String.mk (email.data.takeWhile (fun c => c ≠ '@'))))
    | _ => none

/-- `register(userData)` completed at time `now`; `encodeName` is
`encodeURIComponent(userData.name)`. -/
def register (H : Host) (K : AuthKeys) (encodeName : JSValue → String) (now : Int)
    (w : AuthState × LocalStorage) (userData : JSValue) :
    AuthResult × (AuthState × LocalStorage) :=
  if isNullish userData then
    ({ success := false, user := none, error := some "TypeError" },
      ({ w.1 with loading := false }, w.2))
  else
    match registerUsername userData with
    | none =>
      ({ success := false, user := none, error := some "TypeError" },
        ({ w.1 with loading := false }, w.2))
    | some username =>
      let user := JSValue.obj
        [("id", JSValue.num now), ("name", userData.getProp "name"),
         ("email", userData.getProp "email"), ("username", username),
         ("avatar", JSValue.str ("https://ui-avatars.com/api/?name="
            ++ encodeName (userData.getProp "name") ++ "&background=f97316&color=fff")),
         ("bio", JSValue.str ""),
         ("stats", JSValue.obj
            [("recipes", JSValue.num 0), ("followers", JSValue.num 0),
             ("following", JSValue.num 0), ("likes", JSValue.num 0)])]
      let newToken := JSValue.str ("mock-jwt-token-" ++ numberText now)
      let store1 := (HelperStorage.set H w.2 K.tokenKey newToken).2
      let store2 := (HelperStorage.set H store1 K.userKey user).2
      ({ success := true, user := some user, error := none },
        ({ user := user, token := newToken, isAuthenticated := true, loading := false }, store2))

/-- `logout()`. -/
def logout (K : AuthKeys) (w : AuthState × LocalStorage) : AuthState × LocalStorage :=
  ({ w.1 with user := JSValue.null, token := JSValue.null, isAuthenticated := false },
    (HelperStorage.remove (HelperStorage.remove w.2 K.tokenKey).2 K.userKey).2)

/-- `updateProfile(updates)` completed. -/
def updateProfile (H : Host) (K : AuthKeys) (w : AuthState × LocalStorage) (updates : JSValue) :
    AuthResult × (AuthState × LocalStorage) :=
  let updatedUser := spreadMerge w.1.user updates
  ({ success := true, user := some updatedUser, error := none },
    ({ w.1 with user := updatedUser, loading := false },
      (HelperStorage.set H w.2 K.userKey updatedUser).2))

/-- `changePassword(currentPassword, newPassword)` completed. -/
def changePassword (w : AuthState × LocalStorage) (currentPassword : String) :
    AuthResult × (AuthState × LocalStorage) :=
  if currentPassword ≠ "current-password" then
    ({ success := false, user := none, error := some "Current password is incorrect" },
      ({ w.1 with loading := false }, w.2))
  else ({ success := true, user := none, error := none }, ({ w.1 with loading := false }, w.2))

/-- `validateToken()` completed: the flag returned; the state is not touched. -/
def validateToken (w : AuthState × LocalStorage) : Bool × (AuthState × LocalStorage) :=
  if !w.1.token.truthy then (false, w) else (true, w)

end AuthProvider

/-- A completed operation of the provider, with the data it is called with. -/
inductive AuthOp where
  | initAuth : AuthOp
  | login (now : Int) (credentials : JSValue) : AuthOp
  | register (encodeName : JSValue → String) (now : Int) (userData : JSValue) : AuthOp
  | logout : AuthOp
  | updateProfile (updates : JSValue) : AuthOp
  | changePassword (currentPassword : String) : AuthOp
  | validateToken : AuthOp

/-- The state and store that a completed operation leaves. -/
def AuthOp.run (H : Host) (K : AuthKeys) (w : AuthState × LocalStorage) :
    AuthOp → AuthState × LocalStorage
  | AuthOp.initAuth => AuthProvider.initAuth H K w
  | AuthOp.login now credentials => (AuthProvider.login H K now w credentials).2
  | AuthOp.register encodeName now userData =>
    (AuthProvider.register H K encodeName now w userData).2
  | AuthOp.logout => AuthProvider.logout K w
  | AuthOp.updateProfile updates => (AuthProvider.updateProfile H K w updates).2
  | AuthOp.changePassword currentPassword => (AuthProvider.changePassword w currentPassword).2
  | AuthOp.validateToken => (AuthProvider.validateToken w).2

/-- The states of the provider reachable from its first render, over any
initial store, by completed operations; the store may also be changed from
outside between two operations. -/
inductive AuthReachable (H : Host) (K : AuthKeys) : AuthState × LocalStorage → Prop where
  | start (ls : LocalStorage) : AuthReachable H K (AuthProvider.init, ls)
  | step (w : AuthState × LocalStorage) (op : AuthOp) :
      AuthReachable H K w → AuthReachable H K (op.run H K w)
  | outside (st : AuthState) (ls ls2 : LocalStorage) :
      AuthReachable H K (st, ls) → AuthReachable H K (st, ls2)

/-! ## `StorageService`: clear, backup, restore and namespaces -/

/-- `Object.entries(value)`; `none` when it throws (on `null` and
`undefined`). -/
def objectEntries (value : JSValue) : Option (List (String × JSValue)) :=
  if AuthProvider.isNullish value then none else some (spreadFields value)

/-- The assignment `object[key] = value` on a plain object: the key
`__proto__` goes to the inherited setter and creates no own property. -/
def assignProp (key : String) (value : JSValue) (object : List (String × JSValue)) :
    List (String × JSValue) :=
  if key = "__proto__" then object else objSet key value object

namespace StorageService

/-- `clear()`. -/
def clear (svc : StorageService) (ls : LocalStorage) : Bool × LocalStorage :=
  if !svc.isSupported then (false, ls)
  else (true, { ls with entries := [] })

/-- The object that `backup` fills: `backup[key] = this.get(key)` for every
key. -/
def backupObject (svc : StorageService) (H : Host) (ls : LocalStorage) :
    List (String × JSValue) :=
  (svc.keys ls).foldl (fun acc key => assignProp key (svc.get H ls key JSValue.null) acc) []

/-- `backup()`: the JSON text of the filled object (the indentation asked of
`JSON.stringify` is white space between tokens and is not modelled). -/
def backup (svc : StorageService) (H : Host) (ls : LocalStorage) : String :=
  if !svc.isSupported then "\x7b\x7d"
  else (H.jsonStringify (JSValue.obj (svc.backupObject H ls))).getD "\x7b\x7d"

/-- The loop of `restore`: `this.set(key, value)` for every entry, whatever
`set` returns. -/
def restoreLoop (svc : StorageService) (H : Host) (now : Int) :
    List (String × JSValue) → LocalStorage → LocalStorage
  | [], ls => ls
  | (key, value) :: rest, ls => restoreLoop svc H now rest (svc.set H now ls key value).2

/-- `restore(backupData, clearFirst)`: the flag returned and the store left.
The text is parsed before anything is cleared or written. -/
def restore (svc : StorageService) (H : Host) (now : Int) (ls : LocalStorage)
    (backupData : String) (clearFirst : Bool) : Bool × LocalStorage :=
  if !svc.isSupported then (false, ls)
  else
    match H.jsonParse backupData with
    | none => (false, ls)
    | some data =>
      let cleared := if clearFirst then (svc.clear ls).2 else ls
      match objectEntries data with
      | none => (false, cleared)
      | some entries => (true, svc.restoreLoop H now entries cleared)

end StorageService

/-- The view returned by `namespace(name)`: its methods, over the store that
the service works on. -/
structure NamespaceView where
  service : StorageService
  name : String
  deriving DecidableEq, Repr

namespace NamespaceView

/-- The constant `prefix` of the view. -/
def pre (view : NamespaceView) : String :=
  view.name ++ "_"

/-- `key.startsWith(prefix)`. -/
def startsWith (key pre : String) : Bool :=
  pre.data.isPrefixOf key.data

/-- `key.substring(prefix.length)`. -/
def stripPre (key pre : String) : String :=
  String.mk (key.data.drop pre.data.length)

/-- `view.get(key, defaultValue)`. -/
def get (view : NamespaceView) (H : Host) (ls : LocalStorage) (key : String)
    (defaultValue : JSValue) : JSValue :=
  view.service.get H ls (view.pre ++ key) defaultValue

/-- `view.set(key, value)`. -/
def set (view : NamespaceView) (H : Host) (now : Int) (ls : LocalStorage) (key : String)
    (value : JSValue) : Bool × LocalStorage :=
  view.service.set H now ls (view.pre ++ key) value

/-- `view.remove(key)`. -/
def remove (view : NamespaceView) (ls : LocalStorage) (key : String) : Bool × LocalStorage :=
  view.service.remove ls (view.pre ++ key)

/-- `view.exists(key)`. -/
def «exists» (view : NamespaceView) (ls : LocalStorage) (key : String) : Bool :=
  view.service.exists ls (view.pre ++ key)

/-- `view.keys()`. -/
def keys (view : NamespaceView) (ls : LocalStorage) : List String :=
  ((view.service.keys ls).filter (fun key => startsWith key view.pre)).map
    (fun key => stripPre key view.pre)

/-- `view.clear()`: every key of the view is removed. -/
def clear (view : NamespaceView) (ls : LocalStorage) : LocalStorage :=
  ((view.service.keys ls).filter (fun key => startsWith key view.pre)).foldl
    (fun store key => (view.service.remove store key).2) ls

end NamespaceView

/-- `namespace(name)`. -/
def StorageService.namespace (svc : StorageService) (name : String) : NamespaceView :=
  { service := svc, name := name }

/-! ## `apiUtils.retry` (src/services/api.js) -/

/-- An error thrown by `apiCall`: whether it is an instance of `APIError`, and
its `status` and `message`. -/
structure ThrownError where
  isAPIError : Bool
  status : Int
  message : String
  deriving DecidableEq, Repr

/-- The getter `isClientError`: `status >= 400 && status < 500`. -/
def ThrownError.isClientError (e : ThrownError) : Bool :=
  decide (e.status ≥ 400) && decide (e.status < 500)

/-- How one invocation of `apiCall` ends. -/
inductive Attempt (ρ : Type) where
  | resolve (result : ρ) : Attempt ρ
  | reject (error : ThrownError) : Attempt ρ
  deriving DecidableEq, Repr

/-- What a call of `retry` does: the number of invocations of `apiCall`, the
waits in ms in the order they are made, and the result returned or the error
thrown (`none` is `undefined`). -/
structure RetryRun (ρ : Type) where
  invocations : Nat
  waits : List Int
  outcome : Except (Option ThrownError) ρ

/-- The `for` loop of `retry` from the index `i`; `apiCall n` is the end of
the invocation number `n`, counted from 0, and the first argument bounds the
number of turns left. -/
def retryLoop {ρ : Type} (apiCall : Nat → Attempt ρ) (maxRetries delay : Int) :
    Nat → Nat → List Int → Option ThrownError → RetryRun ρ
  | 0, i, waits, lastError =>
    { invocations := i, waits := waits, outcome := Except.error lastError }
  | fuel + 1, i, waits, lastError =>
    if (i : Int) ≤ maxRetries then
      match apiCall i with
      | Attempt.resolve result =>
        { invocations := i + 1, waits := waits, outcome := Except.ok result }
      | Attempt.reject error =>
        if error.isAPIError && error.isClientError then
          { invocations := i + 1, waits := waits, outcome := Except.error (some error) }
        else if (i : Int) = maxRetries then
          { invocations := i + 1, waits := waits, outcome := Except.error (some error) }
        else
          retryLoop apiCall maxRetries delay fuel (i + 1)
            (waits ++ [delay * ((i : Int) + 1)]) (some error)
    else { invocations := i, waits := waits, outcome := Except.error lastError }

/-- `retry(apiCall, maxRetries, delay)`: the loop runs for `i` from 0 to
`maxRetries`, so `maxRetries + 1` turns suffice. -/
def retry {ρ : Type} (apiCall : Nat → Attempt ρ) (maxRetries delay : Int) : RetryRun ρ :=
  retryLoop apiCall maxRetries delay (maxRetries + 1).toNat 0 [] none

/-! ## `password` (src/utils/validators.js, src/utils/constants.js) -/

/-- `value.length`: the number of UTF-16 code units. -/
def utf16Length (value : String) : Nat :=
  (value.data.map (fun c => if c.toNat ≥ 65536 then 2 else 1)).sum

/-- The array `errors` of `password`. -/
def passwordErrors (value : String) : List String :=
  (if utf16Length value < 8 then ["at least 8 characters"] else [])
    ++ (if !value.data.any (fun c => decide ('a'.toNat ≤ c.toNat ∧ c.toNat ≤ 'z'.toNat)) then
          ["one lowercase letter"] else [])
    ++ (if !value.data.any (fun c => decide ('A'.toNat ≤ c.toNat ∧ c.toNat ≤ 'Z'.toNat)) then
          ["one uppercase letter"] else [])
    ++ (if !value.data.any (fun c => c.isDigit) then ["one number"] else [])

/-- `password(value, message)`: `none` is `null` (the value is accepted), and
an absent value or message is `none`. -/
def password (value : Option String) (message : Option String) : Option String :=
  match present value with
  | none => none
  | some text =>
    if (passwordErrors text).length > 0 then
      match present message with
      | some custom => some custom
      | none => some ("Password must contain " ++ ", ".intercalate (passwordErrors text))
    else none

/-- The constant `VALIDATION_RULES.password.minLength`. -/
def validationRulesPasswordMinLength : Nat := 6

/-- The constant `VALIDATION_RULES.password.message`. -/
def validationRulesPasswordMessage : String :=
  "Password must be at least 6 characters with uppercase, lowercase, and number"

/-! ## `useUserPreferences` (src/hooks/useLocalStorage.js) -/

/-- `text.split(separator)` on characters. -/
def splitChars (separator : Char) : List Char → List (List Char)
  | [] => [[]]
  | c :: cs =>
    if c = separator then [] :: splitChars separator cs
    else
      match splitChars separator cs with
      | [] => [[c]]
      | head :: tail => (c :: head) :: tail

/-- `path.split('.')`. -/
def pathKeys (path : String) : List String :=
  (splitChars '.' path.data).map String.mk

/-- The walk of `updatePreference` below the first key, inside an object that
is changed in place: a falsy property on the way is replaced by a new object,
an object is entered, and the last key is assigned. `none` when a truthy value
that is not a plain object stands on the way (the assignment then throws or
leaves the model). Keys are taken not to name properties inherited from
`Object.prototype`. -/
def assignPath : List String → JSValue → List (String × JSValue) →
    Option (List (String × JSValue))
  | [], _, fields => some fields
  | [last], value, fields => some (objSet last value fields)
  | key :: next :: rest, value, fields =>
    if !(JSValue.lookupField key fields).truthy then
      (assignPath (next :: rest) value []).map (fun sub => objSet key (JSValue.obj sub) fields)
    else
      match JSValue.lookupField key fields with
      | JSValue.obj sub =>
        (assignPath (next :: rest) value sub).map
          (fun sub2 => objSet key (JSValue.obj sub2) fields)
      | _ => none

/-- What `updatePreference(path, value)` leaves: the object `newPrefs` that
becomes the state, and the previous object `prev` as it is after the call. -/
structure PreferenceUpdate where
  newPrefs : List (String × JSValue)
  prevAfter : List (String × JSValue)

/-- The updater of `updatePreference(path, value)` on the object `prev`.
`newPrefs = { ...prev }` is a copy of the top level only: its nested objects
are the nested objects of `prev`. A key assigned at the top level, or a new
object put there, shows in `newPrefs` alone; an assignment inside an object
that `prev` already has shows in both. -/
def updatePreference (prev : List (String × JSValue)) (path : String) (value : JSValue) :
    Option PreferenceUpdate :=
  match pathKeys path with
  | [] => some { newPrefs := prev, prevAfter := prev }
  | [last] => some { newPrefs := objSet last value prev, prevAfter := prev }
  | key :: next :: rest =>
    if !(JSValue.lookupField key prev).truthy then
      (assignPath (next :: rest) value []).map
        (fun sub => { newPrefs := objSet key (JSValue.obj sub) prev, prevAfter := prev })
    else
      match JSValue.lookupField key prev with
      | JSValue.obj sub =>
        (assignPath (next :: rest) value sub).map
          (fun sub2 =>
            { newPrefs := objSet key (JSValue.obj sub2) prev
              prevAfter := objSet key (JSValue.obj sub2) prev })
      | _ => none

/-- One turn of the loop of `getPreference`: the property `key` of `current`
when `current` is an object that has it, `none` otherwise. -/
def stepInto (current : JSValue) (key : String) : Option JSValue :=
  match current with
  | JSValue.obj fields => objGet key fields
  | JSValue.arr xs =>
    if key = "length" then some (JSValue.num xs.length)
    else objGet key ((List.range xs.length).zip xs |>.map (fun e => (numberText e.1, e.2)))
  | _ => none

/-- The loop of `getPreference` over the keys left. -/
def getPreferenceLoop (defaultValue : JSValue) : List String → JSValue → JSValue
  | [], current => current
  | key :: rest, current =>
    match stepInto current key with
    | some next => getPreferenceLoop defaultValue rest next
    | none => defaultValue

/-- `getPreference(path, defaultValue)` on the state `preferences`. -/
def getPreference (preferences : JSValue) (path : String) (defaultValue : JSValue) : JSValue :=
  getPreferenceLoop defaultValue (pathKeys path) preferences

/-! ## Specification predicates and sample data -/

/-- A store with room for 40 characters that holds, under `k`, the value `v`
written at time 0 by `setWithExpiry` with a ttl of 1000 ms. -/
def smallStore : LocalStorage :=
  (liveService.setWithExpiry RefHost.host 0
    { entries := [], quota := 40, readOnly := false } "k" (JSValue.str "v") 1000).2

/-- A nested value used to exercise the storage adapter. -/
def sampleValue : JSValue :=
  JSValue.obj
    [("name", JSValue.str "soup"),
     ("tags", JSValue.arr [JSValue.str "a b", JSValue.num (-20), JSValue.null]),
     ("nested", JSValue.obj [("ok", JSValue.bool true), ("list", JSValue.arr [])])]

/-- The state of a debounced function between two rapid triggers: exactly one
timer is pending, set for `delay` after the last trigger and carrying its
arguments; the wrapped function has not been called. -/
def Armed {σ α : Type} (ref : σ → Option Nat) (delay t : Nat) (args : α)
    (st : σ × TimerLoop α) : Prop :=
  ∃ id, 0 < id ∧ 0 < st.2.nextId ∧ ref st.1 = some id ∧
    st.2.pending = [{ id := id, fireAt := t + delay, args := args }] ∧
    st.2.calls = [] ∧ st.2.now = t

/-- The data cell that request `b` alone would leave. -/
def dataOf {ρ : Type} (call : ApiCall ρ) : Option ρ :=
  match call.outcome with
  | Outcome.resolve result => some result
  | Outcome.reject _ _ => none

/-- The error cell that request `b` alone would leave. -/
def errorOf {ρ : Type} (call : ApiCall ρ) : Option String :=
  match call.outcome with
  | Outcome.resolve _ => none
  | Outcome.reject name message =>
    if name ≠ "AbortError" then some (if message = "" then "API call failed" else message)
    else none

/-- Two calls: request 0 resolves with 1, request 1 resolves with 2; the flag
says whether request 0 watches its abort signal. -/
def twoCalls (firstHonoursSignal : Bool) : Nat → ApiCall Nat
  | 0 => { outcome := Outcome.resolve 1, honoursSignal := firstHonoursSignal }
  | _ => { outcome := Outcome.resolve 2, honoursSignal := true }

/-- Five recipes used to exercise the queries: ids 1 to 5 in source order, with
popularities 40, 50, 40, 48 and 45. -/
def sampleRecipes : List Recipe :=
  [sampleRecipe 1 "Pizza" "20 min" 4 10,
   sampleRecipe 2 "Soup" "1 hour" 5 10,
   sampleRecipe 3 "Salad" "15 min" 4 10,
   sampleRecipe 4 "Curry" "2 hours" 4.8 10,
   sampleRecipe 5 "Bread" "45 min" 4.5 10]

/-- The three predicates of a query on category, difficulty and tags. -/
def satisfiesAll (c d : String) (tags : List String) (recipe : Recipe) : Bool :=
  decide (recipe.category = c) && decide (recipe.difficulty = d)
    && tags.any (fun tag => recipe.tags.contains tag)

/-- The search text `s` matches the recipe: the lower-cased `s` is a substring
of the lower-cased title, of the lower-cased description, or of a lower-cased
tag. -/
def SearchMatch (H : Host) (s : String) (recipe : Recipe) : Prop :=
  (H.toLowerCase s).data <:+: (H.toLowerCase recipe.title).data ∨
  (H.toLowerCase s).data <:+: (H.toLowerCase recipe.description).data ∨
  ∃ tag ∈ recipe.tags, (H.toLowerCase s).data <:+: (H.toLowerCase tag).data

/-- The three recipes of `mockRecipes` in src/services/mockData.js, by id,
rating and review count. -/
def mockRecipesData : List Recipe :=
  [sampleRecipe 1 "Classic Margherita Pizza" "20 min" 4.8 156,
   sampleRecipe 2 "Hearty Chicken Noodle Soup" "15 min" 4.5 89,
   sampleRecipe 3 "Molten Chocolate Lava Cake" "15 min" 4.7 234]

/-- A store that rejects every write. -/
def lockedStore : LocalStorage := { entries := [("k", "0")], quota := 1000, readOnly := true }

/-- A payload-free entry of the recently-viewed list. -/
def viewedSample (id : Nat) (viewedAt : String) : ViewedRecipe :=
  { id := id, title := JSValue.str "t", image := JSValue.null, rating := JSValue.num 5,
    author := JSValue.null, viewedAt := viewedAt }

/-- In a meal plan no date key maps to an empty record. -/
def NoEmptyDay (plan : MealPlan) : Prop :=
  ∀ dateKey day, objGet dateKey plan = some day → day ≠ []

/-- A planned recipe. -/
def plannedSample : PlannedRecipe :=
  { id := 7, title := "Soup", image := "", prepTime := "15 min", servings := 2 }

/-- A plan with lunch and dinner on one day and breakfast on the next. -/
def planSample : MealPlan :=
  addMeal "t3" (addMeal "t2" (addMeal "t1" [] "2024-01-15" "lunch" plannedSample)
    "2024-01-15" "dinner" plannedSample) "2024-01-16" "breakfast" plannedSample

/-- A shopping-list item with the given category. -/
def itemSample (id : ℚ) (category : Option String) : ShoppingItem :=
  { id := id, name := "item", category := category, completed := false }

/-- The bucket the grouping is meant to give an item: its category when that
is one of the five bucket names, `other` otherwise. -/
def bucketOf (item : ShoppingItem) : String :=
  match item.category with
  | some c => if c ∈ ["produce", "dairy", "meat", "pantry", "other"] then c else "other"
  | none => "other"

/-- A recipe card with the given id. -/
def cardSample (id : Nat) : RecipeCard :=
  { id := id, title := JSValue.str "t", image := JSValue.null, rating := JSValue.num 5,
    author := JSValue.null }

/-- A favorite with the given id. -/
def favoriteSample (id : Nat) : Favorite :=
  { id := id, title := JSValue.str "t", image := JSValue.null, rating := JSValue.num 5,
    author := JSValue.null, addedAt := "t0" }

/-- Two favorites, ids 1 and 2, and the empty store. -/
def favoritesSample : FavoritesState :=
  { favorites := [favoriteSample 1, favoriteSample 2], store := emptyStore }

/-- A store holding one entry written by plain `set`: an object with a
property `expiry`, stored under `coupon` at time 0. -/
def couponStore : LocalStorage :=
  (liveService.set RefHost.host 0 emptyStore "coupon"
    (JSValue.obj [("code", JSValue.str "X"), ("expiry", JSValue.num 5)])).2

/-- The value that `get` reads from a stored text: the parsed JSON, or the
text itself when it is not JSON. -/
def decodeItem (H : Host) (text : String) : JSValue :=
  match H.jsonParse text with
  | some parsed => parsed
  | none => JSValue.str text

/-- A value that is read back unchanged after a `set`: a string that is not
JSON text, or another value that the host round-trips. -/
def Host.Stable (H : Host) (v : JSValue) : Prop :=
  match v with
  | JSValue.str s => H.jsonParse s = none
  | other => H.RoundTrips other

/-- The text `"123"`, quotes included. -/
def quotedDigits : String :=
  String.mk [RefHost.dquote, '1', '2', '3', RefHost.dquote]

/-- The store after `set('k', '"123"')` on the empty store. -/
def quotedStore : LocalStorage :=
  (liveService.set RefHost.host 0 emptyStore "k" (JSValue.str quotedDigits)).2

/-- The store after `set('n', 42)` and `set('s', 'hello world')` on the empty
store. -/
def plainStore : LocalStorage :=
  (liveService.set RefHost.host 0
    (liveService.set RefHost.host 0 emptyStore "n" (JSValue.num 42)).2
    "s" (JSValue.str "hello world")).2

/-- An invocation after which `retry` goes on when turns are left: it
rejects, and not with an `APIError` whose status is in 400..499. -/
def Attempt.retryable {ρ : Type} : Attempt ρ → Bool
  | Attempt.resolve _ => false
  | Attempt.reject error => !(error.isAPIError && error.isClientError)

/-- What `retry` returns or throws when the loop ends with this invocation. -/
def Attempt.outcome {ρ : Type} : Attempt ρ → Except (Option ThrownError) ρ
  | Attempt.resolve result => Except.ok result
  | Attempt.reject error => Except.error (some error)

/-- The waits made before the invocation number `n`: `delay * (i + 1)` after
each of the invocations `i < n`. -/
def waitsBefore (delay : Int) (n : Nat) : List Int :=
  (List.range n).map (fun (i : Nat) => delay * ((i : Int) + 1))

/-- A server that fails with status 500 until the invocation number `k`,
which resolves with 7. -/
def flakyCall (k : Nat) (n : Nat) : Attempt Nat :=
  if n < k then Attempt.reject { isAPIError := true, status := 500, message := "down" }
  else Attempt.resolve 7

/-- A server that always fails with status 503. -/
def downCall (_ : Nat) : Attempt Nat :=
  Attempt.reject { isAPIError := true, status := 503, message := "unavailable" }

/-- The test of `VALIDATION_RULES.password.pattern`, the regular expression
`/^(?=.*[a-z])(?=.*[A-Z])(?=.*\d)/`: the text before the first line terminator
holds a lowercase letter, an uppercase letter and a digit. -/
def validationRulesPasswordPattern (value : String) : Bool :=
  let line := value.data.takeWhile (fun c => !(c.toNat ∈ [10, 13, 8232, 8233]))
  line.any (fun c => decide ('a'.toNat ≤ c.toNat ∧ c.toNat ≤ 'z'.toNat))
    && line.any (fun c => decide ('A'.toNat ≤ c.toNat ∧ c.toNat ≤ 'Z'.toNat))
    && line.any (fun c => c.isDigit)

/-- Preferences with one nested object. -/
def prefsSample : List (String × JSValue) :=
  [("theme", JSValue.str "light"),
   ("notifications", JSValue.obj [("email", JSValue.bool true), ("push", JSValue.bool false)])]

/-- Credentials with an email. -/
def credentialsSample : JSValue :=
  JSValue.obj [("email", JSValue.str "a@b.c"), ("password", JSValue.str "x")]

namespace Double

/-- A value that an operation on finite numbers gives: an infinity, or a
multiple of `2 ^ (-1074)`. -/
def IsNumber : Double → Prop
  | finite value => ∃ k : Int, value = (k : ℚ) * pow2 (-1074)
  | infinity _ => True
  | nan => False

end Double

/-! # Theorems -/

/-! ## Storage: reading back what was written -/

theorem LocalStorage.find_put (key value : String) (entries : List (String × String)) :
    (LocalStorage.put key value entries).find? (fun e => e.1 = key) = some (key, value) := by
  induction entries with
  | nil => simp [LocalStorage.put]
  | cons e rest ih =>
    obtain ⟨k, v⟩ := e
    by_cases h : k = key
    · simp [LocalStorage.put, h]
    · simp [LocalStorage.put, h, ih]

theorem LocalStorage.getItem_of_setItem {ls ls1 : LocalStorage} {key value : String}
    (h : ls.setItem key value = Except.ok ls1) : ls1.getItem key = some value := by
  unfold LocalStorage.setItem at h
  split at h
  · cases h
  · split at h
    · cases h
    · cases h
      simp [LocalStorage.getItem, LocalStorage.find_put]

theorem LocalStorage.getItem_removeItem (ls : LocalStorage) (key : String) :
    (ls.removeItem key).getItem key = none := by
  simp [LocalStorage.getItem, LocalStorage.removeItem, List.find?_eq_none]

/-- A successful `set` leaves the serialised value under the key, on a
supported store. -/
theorem StorageService.set_true {svc : StorageService} {H : Host} {now : Int}
    {ls ls1 : LocalStorage} {key : String} {value : JSValue}
    (h : svc.set H now ls key value = (true, ls1)) :
    svc.isSupported = true ∧ ls1.getItem key = some (StorageService.serialize H value) := by
  unfold StorageService.set at h
  cases hs : svc.isSupported with
  | false => simp [hs] at h
  | true =>
    refine ⟨rfl, ?_⟩
    simp only [hs, Bool.not_true, Bool.false_eq_true, if_false] at h
    cases h1 : ls.setItem key (StorageService.serialize H value) with
    | ok ls2 =>
      rw [h1] at h
      simp only [Prod.mk.injEq, true_and] at h
      subst h
      exact LocalStorage.getItem_of_setItem h1
    | error e =>
      rw [h1] at h
      cases e with
      | other => simp at h
      | quotaExceeded =>
        simp only at h
        cases h2 : (svc.clearExpired H now ls).2.setItem key (StorageService.serialize H value) with
        | ok ls3 =>
          rw [h2] at h
          simp only [Prod.mk.injEq, true_and] at h
          subst h
          exact LocalStorage.getItem_of_setItem h2
        | error e2 =>
          rw [h2] at h
          simp at h

/-- What `get` returns after a successful `set` of the same key. -/
theorem StorageService.get_after_set (svc : StorageService) (H : Host) (now : Int)
    (ls ls1 : LocalStorage) (k : String) (v d : JSValue)
    (hset : svc.set H now ls k v = (true, ls1))
    (hv : v.isString = false → H.RoundTrips v) :
    svc.get H ls1 k d =
      match v with
      | JSValue.str s =>
        (match H.jsonParse s with
         | some parsed => parsed
         | none => JSValue.str s)
      | other => other := by
  obtain ⟨hsup, hitem⟩ := StorageService.set_true hset
  unfold StorageService.get
  simp only [hsup, Bool.not_true, Bool.false_eq_true, if_false, hitem]
  cases v with
  | str s => simp [StorageService.serialize]
  | undefined =>
    obtain ⟨text, h1, h2⟩ := hv rfl
    simp [StorageService.serialize, h1, h2]
  | null =>
    obtain ⟨text, h1, h2⟩ := hv rfl
    simp [StorageService.serialize, h1, h2]
  | bool b =>
    obtain ⟨text, h1, h2⟩ := hv rfl
    simp [StorageService.serialize, h1, h2]
  | num n =>
    obtain ⟨text, h1, h2⟩ := hv rfl
    simp [StorageService.serialize, h1, h2]
  | arr xs =>
    obtain ⟨text, h1, h2⟩ := hv rfl
    simp [StorageService.serialize, h1, h2]
  | obj fields =>
    obtain ⟨text, h1, h2⟩ := hv rfl
    simp [StorageService.serialize, h1, h2]

/-- C1 (as amended). After a successful `set(k, v)` on an available store,
`get(k, d)` returns, for every default `d`: `v` itself when `v` is not a string
and the host round-trips it through JSON; for a string `v`, the value parsed
from `v` when `v` is valid JSON text, and `v` itself only when it is not. -/
theorem set_get_roundtrip (svc : StorageService) (H : Host) (now : Int)
    (ls ls1 : LocalStorage) (k : String) (v d : JSValue)
    (hset : svc.set H now ls k v = (true, ls1))
    (hv : v.isString = false → H.RoundTrips v) :
    svc.get H ls1 k d =
      match v with
      | JSValue.str s =>
        (match H.jsonParse s with
         | some parsed => parsed
         | none => JSValue.str s)
      | other => other :=
  StorageService.get_after_set svc H now ls ls1 k v d hset hv

/-- Witness for C1: a nested object written to the empty store of the
reference host is read back unchanged. -/
theorem set_get_roundtrip_witness :
    liveService.get RefHost.host (liveService.set RefHost.host 0 emptyStore "k" sampleValue).2
      "k" JSValue.null = sampleValue :=
  set_get_roundtrip liveService RefHost.host 0 emptyStore
    (liveService.set RefHost.host 0 emptyStore "k" sampleValue).2 "k" sampleValue JSValue.null
    (by rfl) (fun _ => ⟨_, rfl, rfl⟩)

/-- C1 fails as stated: the string `123` is stored unquoted, so it is read
back as the number 123. -/
theorem set_get_roundtrip_counterexample :
    (liveService.set RefHost.host 0 emptyStore "k" (JSValue.str "123")).1 = true ∧
    liveService.get RefHost.host
      (liveService.set RefHost.host 0 emptyStore "k" (JSValue.str "123")).2 "k" JSValue.null
      = JSValue.num 123 ∧
    JSValue.num 123 ≠ JSValue.str "123" :=
  ⟨by rfl, by rfl, by simp⟩

/-! ## Storage: expiring entries -/

/-- C2 (as amended). When `setWithExpiry(k, v, ttl)` at time `t0` succeeds, the
host round-trips the stored record, and the expiry time `t0 + ttl` is not 0,
then `getWithExpiry(k, d)` at any time `t > t0 + ttl` returns `d` and leaves no
entry for `k` (`exists(k)` is false). -/
theorem expired_entry_removed (svc : StorageService) (H : Host) (t0 t ttl : Int)
    (ls ls1 : LocalStorage) (k : String) (v d : JSValue)
    (hset : svc.setWithExpiry H t0 ls k v ttl = (true, ls1))
    (hround : H.RoundTrips (JSValue.obj [("value", v), ("expiry", JSValue.num (t0 + ttl))]))
    (hexpiry : t0 + ttl ≠ 0)
    (ht : t > t0 + ttl) :
    (svc.getWithExpiry H t ls1 k d).1 = d ∧
    svc.exists (svc.getWithExpiry H t ls1 k d).2 k = false := by
  have hsup : svc.isSupported = true := by
    cases hs : svc.isSupported with
    | true => rfl
    | false => simp [StorageService.setWithExpiry, hs] at hset
  have hset2 : svc.set H t0 ls k
      (JSValue.obj [("value", v), ("expiry", JSValue.num (t0 + ttl))]) = (true, ls1) := by
    simpa [StorageService.setWithExpiry, hsup] using hset
  have hget := StorageService.get_after_set svc H t0 ls ls1 k _ JSValue.null hset2 (fun _ => hround)
  simp only at hget
  unfold StorageService.getWithExpiry
  simp only [hsup, hget, Bool.not_true, Bool.false_eq_true, if_false]
  simp [JSValue.truthy, JSValue.isObject, JSValue.getProp, JSValue.lookupField, hexpiry,
    jsGreater, ht, StorageService.remove, hsup, StorageService.exists,
    LocalStorage.getItem_removeItem]

/-- Witness for C2: an entry written at time 5 with a ttl of 5 ms is gone when
read at time 16. -/
theorem expired_entry_removed_witness :
    (liveService.getWithExpiry RefHost.host 16
        (liveService.setWithExpiry RefHost.host 5 emptyStore "k" (JSValue.str "v") 5).2
        "k" JSValue.null).1 = JSValue.null ∧
    liveService.exists (liveService.getWithExpiry RefHost.host 16
        (liveService.setWithExpiry RefHost.host 5 emptyStore "k" (JSValue.str "v") 5).2
        "k" JSValue.null).2 "k" = false :=
  expired_entry_removed liveService RefHost.host 5 16 5 emptyStore
    (liveService.setWithExpiry RefHost.host 5 emptyStore "k" (JSValue.str "v") 5).2
    "k" (JSValue.str "v") JSValue.null (by rfl) ⟨_, rfl, rfl⟩ (by decide) (by decide)

/-- C2 fails as stated. (1) With `ttl = -t0` the expiry time is 0, which the
guard `!item.expiry` reads as no expiry at all: the later read returns the
default but the entry stays in the store. (2) When the write fails for lack of
room, the older entry of the key stays: written at time 0 with a ttl of 1000
ms, it is still returned at time 10, after the failed `setWithExpiry` at time 5
with a ttl of 1 ms. -/
theorem expired_entry_removed_counterexample :
    ((liveService.setWithExpiry RefHost.host 5 emptyStore "k" (JSValue.str "v") (-5)).1 = true ∧
      (6 : Int) > 5 + (-5) ∧
      liveService.exists (liveService.getWithExpiry RefHost.host 6
          (liveService.setWithExpiry RefHost.host 5 emptyStore "k" (JSValue.str "v") (-5)).2
          "k" JSValue.null).2 "k" = true) ∧
    ((liveService.setWithExpiry RefHost.host 5 smallStore "k"
          (JSValue.str "a value too long for the room left") 1).1 = false ∧
      (10 : Int) > 5 + 1 ∧
      (liveService.getWithExpiry RefHost.host 10
          (liveService.setWithExpiry RefHost.host 5 smallStore "k"
            (JSValue.str "a value too long for the room left") 1).2
          "k" JSValue.null).1 = JSValue.str "v" ∧
      liveService.exists (liveService.getWithExpiry RefHost.host 10
          (liveService.setWithExpiry RefHost.host 5 smallStore "k"
            (JSValue.str "a value too long for the room left") 1).2
          "k" JSValue.null).2 "k" = true) :=
  ⟨⟨by rfl, by decide, by rfl⟩, by rfl, by decide, by rfl, by rfl⟩

/-! ## Debounce -/

theorem runTriggers_armed {σ α : Type} (ref : σ → Option Nat) (delay : Nat)
    (call : σ × TimerLoop α → α → σ × TimerLoop α)
    (hstep : ∀ st t args t2 args2, Armed ref delay t args st → t ≤ t2 → t2 < t + delay →
      Armed ref delay t2 args2 (call (st.1, st.2.advanceTo t2) args2))
    (rest : List (Nat × α)) :
    ∀ (st : σ × TimerLoop α) (first : Nat × α),
      Armed ref delay first.1 first.2 st →
      List.Chain (fun p q => p.1 ≤ q.1 ∧ q.1 < p.1 + delay) first rest →
      Armed ref delay ((first :: rest).getLast (List.cons_ne_nil _ _)).1
        ((first :: rest).getLast (List.cons_ne_nil _ _)).2 (runTriggers call rest st) := by
  induction rest with
  | nil =>
    intro st first h _
    simpa [runTriggers] using h
  | cons next rest ih =>
    intro st first h hchain
    obtain ⟨hnext, hrest⟩ := List.chain_cons.mp hchain
    obtain ⟨t2, args2⟩ := next
    have h2 := hstep st first.1 first.2 t2 args2 h hnext.1 hnext.2
    have := ih (call (st.1, st.2.advanceTo t2) args2) (t2, args2) h2 hrest
    simpa [runTriggers, List.getLast_cons] using this

theorem drain_armed {σ α : Type} (ref : σ → Option Nat) (delay t : Nat) (args : α)
    (st : σ × TimerLoop α) (h : Armed ref delay t args st) :
    st.2.drain.calls = [(t + delay, args)] := by
  obtain ⟨id, _, _, _, hp, hc, _⟩ := h
  simp [TimerLoop.drain, TimerLoop.advanceTo, hp, hc]

theorem Debounce.call_rearms {α : Type} (delay : Nat) (st : Debounce × TimerLoop α)
    (t : Nat) (args : α) (t2 : Nat) (args2 : α)
    (h : Armed (fun d => d.timeoutId) delay t args st) (h1 : t ≤ t2) (h2 : t2 < t + delay) :
    Armed (fun d => d.timeoutId) delay t2 args2
      (Debounce.call delay (st.1, st.2.advanceTo t2) args2) := by
  obtain ⟨id, hid, hnext, href, hp, hc, hnow⟩ := h
  simp only at href
  have hnot : ¬ t + delay ≤ t2 := by omega
  refine ⟨st.2.nextId, hnext, ?_, ?_, ?_, ?_, ?_⟩ <;>
    simp [Debounce.call, TimerLoop.setTimeout, TimerLoop.clearTimeout, TimerLoop.advanceTo,
      href, hp, hc, hnot, hnow, h1]

theorem DebouncedCallback.hook_call_rearms {α : Type} (delay : Nat)
    (st : DebouncedCallback × TimerLoop α)
    (t : Nat) (args : α) (t2 : Nat) (args2 : α)
    (h : Armed (fun d => d.timeoutRef) delay t args st) (h1 : t ≤ t2) (h2 : t2 < t + delay) :
    Armed (fun d => d.timeoutRef) delay t2 args2
      (DebouncedCallback.call delay (st.1, st.2.advanceTo t2) args2) := by
  obtain ⟨id, hid, hnext, href, hp, hc, hnow⟩ := h
  simp only at href
  have hid0 : id ≠ 0 := by omega
  have hnot : ¬ t + delay ≤ t2 := by omega
  refine ⟨st.2.nextId, hnext, ?_, ?_, ?_, ?_, ?_⟩ <;>
    simp [DebouncedCallback.call, DebouncedCallback.hasTimer, TimerLoop.setTimeout,
      TimerLoop.clearTimeout, TimerLoop.advanceTo, href, hid0, hp, hc, hnot, hnow, h1]

theorem Debounce.first_call_arms {α : Type} (delay t : Nat) (args : α) :
    Armed (fun d => d.timeoutId) delay t args
      (Debounce.call delay (Debounce.init, (TimerLoop.init α).advanceTo t) args) := by
  refine ⟨1, by decide, ?_, ?_, ?_, ?_, ?_⟩ <;>
    simp [Debounce.call, Debounce.init, TimerLoop.init, TimerLoop.setTimeout,
      TimerLoop.advanceTo]

theorem DebouncedCallback.hook_first_call_arms {α : Type} (delay t : Nat) (args : α) :
    Armed (fun d => d.timeoutRef) delay t args
      (DebouncedCallback.call delay
        (DebouncedCallback.init, (TimerLoop.init α).advanceTo t) args) := by
  refine ⟨1, by decide, ?_, ?_, ?_, ?_, ?_⟩ <;>
    simp [DebouncedCallback.call, DebouncedCallback.init, DebouncedCallback.hasTimer,
      TimerLoop.init, TimerLoop.setTimeout, TimerLoop.advanceTo]

theorem observedCalls_rapid {σ α : Type} (ref : σ → Option Nat) (delay : Nat)
    (call : σ × TimerLoop α → α → σ × TimerLoop α) (start : σ)
    (hfirst : ∀ t args, Armed ref delay t args (call (start, (TimerLoop.init α).advanceTo t) args))
    (hstep : ∀ st t args t2 args2, Armed ref delay t args st → t ≤ t2 → t2 < t + delay →
      Armed ref delay t2 args2 (call (st.1, st.2.advanceTo t2) args2))
    (triggers : List (Nat × α)) (hne : triggers ≠ []) (hrapid : Rapid delay triggers) :
    observedCalls call start triggers =
      [((triggers.getLast hne).1 + delay, (triggers.getLast hne).2)] := by
  cases triggers with
  | nil => exact absurd rfl hne
  | cons first rest =>
    have harmed := runTriggers_armed ref delay call hstep rest
      (call (start, (TimerLoop.init α).advanceTo first.1) first.2) first
      (hfirst first.1 first.2) hrapid
    exact drain_armed ref delay _ _ _ harmed

/-- C4. For every non-empty sequence of triggers in which each trigger comes
less than `delay` ms after the previous one, the function wrapped by
`debounce` and the one wrapped by `useDebouncedCallback` are each called
exactly once, `delay` ms after the last trigger, with the arguments of the
last trigger. -/
theorem debounce_collapses {α : Type} (delay : Nat) (triggers : List (Nat × α))
    (hne : triggers ≠ []) (hrapid : Rapid delay triggers) :
    observedCalls (Debounce.call delay) Debounce.init triggers =
      [((triggers.getLast hne).1 + delay, (triggers.getLast hne).2)] ∧
    observedCalls (DebouncedCallback.call delay) DebouncedCallback.init triggers =
      [((triggers.getLast hne).1 + delay, (triggers.getLast hne).2)] :=
  ⟨observedCalls_rapid (fun d => d.timeoutId) delay _ _ (Debounce.first_call_arms delay)
      (Debounce.call_rearms delay) triggers hne hrapid,
   observedCalls_rapid (fun d => d.timeoutRef) delay _ _ (DebouncedCallback.hook_first_call_arms delay)
      (DebouncedCallback.hook_call_rearms delay) triggers hne hrapid⟩

/-- Witness for C4: triggers at 0, 50 and 90 ms with a delay of 100 ms give one
call, at 190 ms, with the arguments of the trigger at 90 ms. -/
theorem debounce_collapses_witness :
    observedCalls (Debounce.call 100) Debounce.init [(0, "a"), (50, "b"), (90, "c")] =
      [(190, "c")] ∧
    observedCalls (DebouncedCallback.call 100) DebouncedCallback.init
      [(0, "a"), (50, "b"), (90, "c")] = [(190, "c")] :=
  debounce_collapses 100 [(0, "a"), (50, "b"), (90, "c")] (by simp)
    (by simp [Rapid])

/-! ## Debounced API calls -/

/-- C3 (as amended). Request `a` is started, then request `b` before `a`
settles. When the API function honours the abort signal for `a`, then in both
settlement orders the data and the error observed after both have settled are
those of `b`; and whenever an aborted request that honours the signal settles,
`data` and `error` are left as they were. -/
theorem stale_response_dropped {ρ : Type} (calls : Nat → ApiCall ρ) (a b : Nat)
    (hab : a ≠ b) (hsignal : (calls a).honoursSignal = true) :
    ((ApiState.run calls
        [ApiEvent.start a, ApiEvent.start b, ApiEvent.settle a, ApiEvent.settle b]).data
        = dataOf (calls b) ∧
      (ApiState.run calls
        [ApiEvent.start a, ApiEvent.start b, ApiEvent.settle a, ApiEvent.settle b]).error
        = errorOf (calls b)) ∧
    ((ApiState.run calls
        [ApiEvent.start a, ApiEvent.start b, ApiEvent.settle b, ApiEvent.settle a]).data
        = dataOf (calls b) ∧
      (ApiState.run calls
        [ApiEvent.start a, ApiEvent.start b, ApiEvent.settle b, ApiEvent.settle a]).error
        = errorOf (calls b)) ∧
    (∀ st : ApiState ρ, a ∈ st.aborted →
      (st.settle (calls a) a).data = st.data ∧ (st.settle (calls a) a).error = st.error) := by
  have hba : b ≠ a := fun h => hab h.symm
  refine ⟨?_, ?_, ?_⟩
  · cases hb : (calls b).outcome with
    | resolve r =>
      simp [ApiState.run, ApiState.step, ApiState.start, ApiState.settle, ApiState.delivered,
        ApiState.init, hsignal, hb, hba, dataOf, errorOf]
    | reject name message =>
      by_cases hname : name = "AbortError" <;>
      simp [ApiState.run, ApiState.step, ApiState.start, ApiState.settle, ApiState.delivered,
        ApiState.init, hsignal, hb, hba, dataOf, errorOf, hname]
  · cases hb : (calls b).outcome with
    | resolve r =>
      simp [ApiState.run, ApiState.step, ApiState.start, ApiState.settle, ApiState.delivered,
        ApiState.init, hsignal, hb, hba, dataOf, errorOf]
    | reject name message =>
      by_cases hname : name = "AbortError" <;>
      simp [ApiState.run, ApiState.step, ApiState.start, ApiState.settle, ApiState.delivered,
        ApiState.init, hsignal, hb, hba, dataOf, errorOf, hname]
  · intro st hmem
    simp [ApiState.settle, ApiState.delivered, hsignal, hmem]

/-- Witness for C3: request 0 honours the signal and settles last; the data
observed is the result of request 1. -/
theorem stale_response_dropped_witness :
    (ApiState.run (twoCalls true)
      [ApiEvent.start 0, ApiEvent.start 1, ApiEvent.settle 1, ApiEvent.settle 0]).data
      = some 2 :=
  (stale_response_dropped (twoCalls true) 0 1 (by decide) (by rfl)).2.1.1

/-- C3 fails as stated: when the API function ignores the abort signal and the
superseded request 0 settles after request 1, its result 1 replaces the
result 2 of the newer request. -/
theorem stale_response_dropped_counterexample :
    (ApiState.run (twoCalls false)
      [ApiEvent.start 0, ApiEvent.start 1, ApiEvent.settle 1, ApiEvent.settle 0]).data
      = some 1 ∧
    dataOf (twoCalls false 1) = some 2 := by
  decide

/-! ## Recipe queries: pagination -/

theorem length_sortWith {α : Type} (compare : α → α → ℚ) (xs : List α) :
    (sortWith compare xs).length = xs.length := by
  simp [sortWith, List.length_insertionSort]

theorem length_sortRecipes (H : Host) (sortBy : Option String) (xs : List Recipe) :
    (sortRecipes H sortBy xs).length = xs.length := by
  unfold sortRecipes
  split
  · rfl
  · split_ifs <;> exact length_sortWith _ _

theorem length_jsSlice_page {α : Type} (xs : List α) (start limit : Int)
    (hstart : 0 ≤ start) (hlimit : 1 ≤ limit) :
    ((jsSlice xs start (start + limit)).length : Int) =
      min limit (max 0 ((xs.length : Int) - start)) := by
  have h1 : ¬ start < 0 := by omega
  have h2 : ¬ start + limit < 0 := by omega
  simp only [jsSlice, relativeIndex, h1, h2, if_false, List.length_take, List.length_drop]
  omega

theorem jsSlice_page_beyond {α : Type} (xs : List α) (start limit : Int)
    (hstart : (xs.length : Int) ≤ start) :
    jsSlice xs start (start + limit) = [] := by
  have h1 : ¬ start < 0 := by omega
  have h3 : xs.length ≤ start.toNat := by omega
  simp [jsSlice, relativeIndex, h1, h3]

/-- C5. For every collection, every filter specification and all integers
`page ≥ 1`, `limit ≥ 1`: the page produced by `fetchRecipes` has length
`min(limit, max(0, total - (page-1)*limit))` where `total` is the number of
recipes matching the filters; the reported total is that number whatever the
page; a page that starts at or beyond `total` is empty. The same holds of
`mockDataUtils.paginate` with `total` the number of items. -/
theorem pagination_length (H : Host) (all : List Recipe) (f : Filters) (page limit : Int)
    (hpage : 1 ≤ page) (hlimit : 1 ≤ limit) :
    (((fetchRecipes H all { f with page := some page, limit := some limit }).recipes.length : Int)
        = min limit (max 0 (((matchedRecipes H all f).length : Int) - (page - 1) * limit)) ∧
      (fetchRecipes H all { f with page := some page, limit := some limit }).pagination.total
        = (matchedRecipes H all f).length ∧
      (((matchedRecipes H all f).length : Int) ≤ (page - 1) * limit →
        (fetchRecipes H all { f with page := some page, limit := some limit }).recipes = [])) ∧
    (((paginate all (some page) (some limit)).items.length : Int)
        = min limit (max 0 ((all.length : Int) - (page - 1) * limit)) ∧
      (paginate all (some page) (some limit)).total = all.length ∧
      ((all.length : Int) ≤ (page - 1) * limit →
        (paginate all (some page) (some limit)).items = [])) := by
  have hp0 : page ≠ 0 := by omega
  have hl0 : limit ≠ 0 := by omega
  have hstart : 0 ≤ (page - 1) * limit := mul_nonneg (by omega) (by omega)
  have hm : matchedRecipes H all { f with page := some page, limit := some limit }
      = matchedRecipes H all f := rfl
  refine ⟨⟨?_, ?_, ?_⟩, ?_, ?_, ?_⟩
  · simp only [fetchRecipes, orElse, hp0, hl0, if_false, hm]
    rw [length_jsSlice_page _ _ _ hstart hlimit, length_sortRecipes]
  · simp only [fetchRecipes, hm, length_sortRecipes]
  · intro hbeyond
    simp only [fetchRecipes, orElse, hp0, hl0, if_false, hm]
    apply jsSlice_page_beyond
    rw [length_sortRecipes]
    exact hbeyond
  · simp only [paginate, Option.getD_some]
    exact length_jsSlice_page _ _ _ hstart hlimit
  · rfl
  · intro hbeyond
    simp only [paginate, Option.getD_some]
    exact jsSlice_page_beyond _ _ _ hbeyond

/-- Witness for C5: five recipes in pages of two; page 3 holds one recipe and
page 4 none, the total staying 5. -/
theorem pagination_length_witness :
    ((fetchRecipes RefHost.host sampleRecipes
        { noFilters with page := some 3, limit := some 2 }).recipes.length : Int) = 1 ∧
    (fetchRecipes RefHost.host sampleRecipes
        { noFilters with page := some 4, limit := some 2 }).recipes = [] ∧
    (fetchRecipes RefHost.host sampleRecipes
        { noFilters with page := some 4, limit := some 2 }).pagination.total = 5 :=
  ⟨(pagination_length RefHost.host sampleRecipes noFilters 3 2 (by decide) (by decide)).1.1,
   (pagination_length RefHost.host sampleRecipes noFilters 4 2 (by decide) (by decide)).1.2.2
      (by decide),
   (pagination_length RefHost.host sampleRecipes noFilters 4 2 (by decide) (by decide)).1.2.1⟩

/-! ## Recipe queries: page numbers that are not positive -/

/-- C6 (as amended). `fetchRecipes` rejects no query: it always ends with
`error` null. A page of 0 is replaced by 1 and a limit of 0 by 12, as for an
absent page or limit; any other page and limit, negative ones included, go
unchanged into the bounds `(page-1)*limit` and `(page-1)*limit + limit` of the
slice that is returned. -/
theorem nonpositive_page_not_rejected (H : Host) (all : List Recipe) (f : Filters) :
    (fetchRecipes H all f).error = none ∧
    fetchRecipes H all { f with page := some 0 } = fetchRecipes H all { f with page := some 1 } ∧
    fetchRecipes H all { f with page := none } = fetchRecipes H all { f with page := some 1 } ∧
    fetchRecipes H all { f with limit := some 0 }
      = fetchRecipes H all { f with limit := some 12 } ∧
    fetchRecipes H all { f with limit := none }
      = fetchRecipes H all { f with limit := some 12 } ∧
    (fetchRecipes H all f).recipes =
      jsSlice (sortRecipes H f.sortBy (matchedRecipes H all f))
        ((orElse f.page 1 - 1) * orElse f.limit 12)
        ((orElse f.page 1 - 1) * orElse f.limit 12 + orElse f.limit 12) :=
  ⟨rfl, rfl, rfl, rfl, rfl, rfl⟩

/-- C6 fails as stated: the query with page 0 and limit 0 is answered, with
page 1 and limit 12 substituted, and the query with page -1 is answered with a
slice counted from the end of the list; neither sets an error. -/
theorem nonpositive_page_not_rejected_counterexample :
    ((fetchRecipes RefHost.host sampleRecipes
        { noFilters with page := some 0, limit := some 0 }).error = none ∧
      (fetchRecipes RefHost.host sampleRecipes
        { noFilters with page := some 0, limit := some 0 }).pagination.page = 1 ∧
      (fetchRecipes RefHost.host sampleRecipes
        { noFilters with page := some 0, limit := some 0 }).pagination.limit = 12 ∧
      (fetchRecipes RefHost.host sampleRecipes
        { noFilters with page := some 0, limit := some 0 }).recipes = sampleRecipes) ∧
    ((fetchRecipes RefHost.host sampleRecipes
        { noFilters with page := some (-1), limit := some 2 }).error = none ∧
      (fetchRecipes RefHost.host sampleRecipes
        { noFilters with page := some (-1), limit := some 2 }).recipes.map (fun r => r.id)
        = [2, 3]) := by
  refine ⟨⟨rfl, rfl, rfl, ?_⟩, rfl, ?_⟩
  · decide!
  · decide!

/-! ## Binary64 numbers: rounding and comparison -/

namespace Double

theorem pow2_eq_zpow (e : Int) : pow2 e = (2 : ℚ) ^ e := by
  unfold pow2
  split
  · rename_i h
    obtain ⟨n, rfl⟩ := Int.eq_ofNat_of_zero_le h
    simp
  · rename_i h
    obtain ⟨n, hn⟩ := Int.eq_ofNat_of_zero_le (by omega : 0 ≤ -e)
    have he : e = -(n : Int) := by omega
    subst he
    simp

theorem pow2_pos (e : Int) : 0 < pow2 e := by
  rw [pow2_eq_zpow]
  positivity

theorem pow2_le_pow2 {a b : Int} (h : a ≤ b) : pow2 a ≤ pow2 b := by
  rw [pow2_eq_zpow, pow2_eq_zpow]
  exact zpow_le_zpow_right₀ (by norm_num) h

theorem bitLength_zero (fuel : Nat) : bitLength fuel 0 = 0 := by
  cases fuel <;> simp [bitLength]

theorem bitLength_bounds : ∀ (fuel n : Nat), n ≤ fuel → 0 < n →
    2 ^ (bitLength fuel n - 1) ≤ n ∧ n < 2 ^ bitLength fuel n := by
  intro fuel
  induction fuel with
  | zero => intro n h1 h2; omega
  | succ fuel ih =>
    intro n hle hpos
    have hne : n ≠ 0 := by omega
    simp only [bitLength, hne, if_false, Nat.add_sub_cancel]
    by_cases hhalf : n / 2 = 0
    · have h1 : n = 1 := by omega
      subst h1
      simp [bitLength_zero]
    · obtain ⟨hlow, hhigh⟩ := ih (n / 2) (by omega) (by omega)
      have hb : 1 ≤ bitLength fuel (n / 2) := by
        by_contra hcon
        have h0 : bitLength fuel (n / 2) = 0 := by omega
        rw [h0] at hhigh
        simp at hhigh
        exact hhalf hhigh
      have hpow : 2 ^ bitLength fuel (n / 2) = 2 * 2 ^ (bitLength fuel (n / 2) - 1) := by
        rw [← Nat.pow_succ']
        congr 1
        omega
      constructor
      · rw [hpow]; omega
      · rw [Nat.pow_succ]; omega

theorem abs_eq_natAbs_div (q : ℚ) : |q| = (q.num.natAbs : ℚ) / (q.den : ℚ) := by
  have h := Rat.num_div_den q
  conv_lhs => rw [← h]
  rw [abs_div, Nat.abs_cast, Nat.cast_natAbs, Int.cast_abs]

theorem pow2_floorLog2_le (q : ℚ) (hq : q ≠ 0) : pow2 (floorLog2 q) ≤ |q| := by
  unfold floorLog2
  split
  · assumption
  · have hnum : 0 < q.num.natAbs := Int.natAbs_pos.mpr (Rat.num_ne_zero.mpr hq)
    have hden : 0 < q.den := q.den_pos
    have h1 := (bitLength_bounds _ _ (Nat.le_refl _) hnum).1
    have h2 := (bitLength_bounds _ _ (Nat.le_refl _) hden).2
    have hb : 1 ≤ bitLength q.num.natAbs q.num.natAbs := by
      by_contra hcon
      have h0 : bitLength q.num.natAbs q.num.natAbs = 0 := by omega
      have h3 := (bitLength_bounds _ _ (Nat.le_refl _) hnum).2
      rw [h0] at h3
      omega
    rw [abs_eq_natAbs_div, pow2_eq_zpow]
    have hexp : ((bitLength q.num.natAbs q.num.natAbs : Int) - (bitLength q.den q.den : Int) - 1)
        = (((bitLength q.num.natAbs q.num.natAbs - 1 : Nat) : Int) - (bitLength q.den q.den : Int)) := by
      omega
    rw [hexp, zpow_sub₀ (by norm_num : (2 : ℚ) ≠ 0), zpow_natCast, zpow_natCast]
    have h1q : ((2 : ℚ) ^ (bitLength q.num.natAbs q.num.natAbs - 1)) ≤ (q.num.natAbs : ℚ) := by
      exact_mod_cast h1
    have h2q : (q.den : ℚ) ≤ (2 : ℚ) ^ bitLength q.den q.den := by
      exact_mod_cast h2.le
    have hdq : (0 : ℚ) < (q.den : ℚ) := by exact_mod_cast hden
    exact div_le_div₀ (by positivity) h1q hdq h2q

theorem roundHalfEven_nonpos {x : ℚ} (hx : x ≤ 0) : roundHalfEven x ≤ 0 := by
  have hf : ⌊x⌋ ≤ 0 := by
    have := Int.floor_le x
    by_contra hcon
    have h1 : (1 : ℤ) ≤ ⌊x⌋ := by omega
    have h2 : ((1 : ℤ) : ℚ) ≤ (⌊x⌋ : ℚ) := by exact_mod_cast h1
    have h3 : (1 : ℚ) ≤ x := by
      calc (1 : ℚ) = ((1 : ℤ) : ℚ) := by norm_num
        _ ≤ ⌊x⌋ := h2
        _ ≤ x := this
    linarith
  unfold roundHalfEven
  split
  · exact hf
  · rename_i hfrac
    by_cases h0 : ⌊x⌋ = 0
    · exfalso
      rw [h0] at hfrac
      simp only [Int.cast_zero, sub_zero] at hfrac
      apply hfrac
      linarith
    · have : ⌊x⌋ + 1 ≤ 0 := by omega
      split
      · exact this
      · split
        · exact hf
        · exact this

theorem roundHalfEven_pos {x : ℚ} (hx : 1 ≤ x) : 1 ≤ roundHalfEven x := by
  have hf : 1 ≤ ⌊x⌋ := Int.le_floor.mpr (by simpa using hx)
  unfold roundHalfEven
  split
  · exact hf
  · split
    · omega
    · split
      · exact hf
      · omega

theorem round_isNumber (q : ℚ) : (round q).IsNumber := by
  unfold round
  split
  · exact ⟨0, by simp⟩
  · split
    · trivial
    · have he : (-1074 : Int) ≤ max (floorLog2 q - 52) (-1074) := le_max_right _ _
      generalize max (floorLog2 q - 52) (-1074) = e at he
      generalize roundHalfEven (q / pow2 e) = m
      obtain ⟨n, hn⟩ := Int.eq_ofNat_of_zero_le (by omega : 0 ≤ e + 1074)
      refine ⟨m * 2 ^ n, ?_⟩
      have hsplit : e = (n : Int) + (-1074) := by omega
      rw [pow2_eq_zpow, pow2_eq_zpow, hsplit, zpow_add₀ (by norm_num : (2 : ℚ) ≠ 0), zpow_natCast]
      push_cast
      ring

theorem toCompare_round_nonpos {q : ℚ} (hq : q ≤ 0) : toCompare (round q) ≤ 0 := by
  unfold round
  split
  · simp [toCompare]
  · rename_i hne
    have hlt : q < 0 := lt_of_le_of_ne hq hne
    split
    · simp [toCompare, hlt]
    · simp only [toCompare]
      have hm : roundHalfEven (q / pow2 (max (floorLog2 q - 52) (-1074))) ≤ 0 :=
        roundHalfEven_nonpos (div_nonpos_of_nonpos_of_nonneg hq (pow2_pos _).le)
      have hmq : ((roundHalfEven (q / pow2 (max (floorLog2 q - 52) (-1074))) : Int) : ℚ) ≤ 0 := by
        exact_mod_cast hm
      exact mul_nonpos_of_nonpos_of_nonneg hmq (pow2_pos _).le

theorem toCompare_round_pos {q : ℚ} (hq : 0 < q) (hgrid : ∃ k : Int, q = (k : ℚ) * pow2 (-1074)) :
    0 < toCompare (round q) := by
  have hne : q ≠ 0 := ne_of_gt hq
  have hle : pow2 (max (floorLog2 q - 52) (-1074)) ≤ q := by
    rcases max_cases (floorLog2 q - 52) (-1074) with ⟨h, _⟩ | ⟨h, _⟩
    · rw [h]
      calc pow2 (floorLog2 q - 52) ≤ pow2 (floorLog2 q) := pow2_le_pow2 (by omega)
        _ ≤ |q| := pow2_floorLog2_le q hne
        _ = q := abs_of_pos hq
    · rw [h]
      obtain ⟨k, hk⟩ := hgrid
      have hkpos : 0 < k := by
        by_contra hcon
        have hk0 : (k : ℚ) ≤ 0 := by exact_mod_cast (by omega : k ≤ 0)
        have := mul_nonpos_of_nonpos_of_nonneg hk0 (pow2_pos (-1074)).le
        linarith
      have hk1 : (1 : ℚ) ≤ (k : ℚ) := by exact_mod_cast (by omega : 1 ≤ k)
      rw [hk]
      have := mul_le_mul_of_nonneg_right hk1 (pow2_pos (-1074)).le
      linarith
  have hm : 1 ≤ roundHalfEven (q / pow2 (max (floorLog2 q - 52) (-1074))) :=
    roundHalfEven_pos ((one_le_div (pow2_pos _)).mpr hle)
  have hmq : (0 : ℚ) < ((roundHalfEven (q / pow2 (max (floorLog2 q - 52) (-1074))) : Int) : ℚ) := by
    exact_mod_cast (by omega : 0 < roundHalfEven (q / pow2 (max (floorLog2 q - 52) (-1074))))
  unfold round
  simp only [hne, if_false]
  split
  · simp [toCompare, not_lt.mpr hq.le]
  · simp only [toCompare]
    exact mul_pos hmq (pow2_pos _)

/-- The sign of a difference decides the comparison: for values that
operations on finite numbers give, `x - y` is at most 0 (as `sort` reads it)
exactly when `x <= y`. -/
theorem toCompare_sub_le_iff (x y : Double) (hx : x.IsNumber) (hy : y.IsNumber) :
    toCompare (sub x y) ≤ 0 ↔ x ≤ y := by
  show _ ↔ le x y = true
  cases x with
  | nan => exact absurd hx (by simp [IsNumber])
  | infinity n =>
    cases y with
    | nan => exact absurd hy (by simp [IsNumber])
    | infinity k => cases n <;> cases k <;> simp [sub, toCompare, le]
    | finite w => cases n <;> simp [sub, toCompare, le]
  | finite v =>
    cases y with
    | nan => exact absurd hy (by simp [IsNumber])
    | infinity k => cases k <;> simp [sub, toCompare, le]
    | finite w =>
      simp only [sub, le, decide_eq_true_eq]
      constructor
      · intro h
        by_contra hcon
        have hpos : 0 < v - w := by linarith [not_le.mp hcon]
        obtain ⟨k1, hk1⟩ := hx
        obtain ⟨k2, hk2⟩ := hy
        have := toCompare_round_pos hpos ⟨k1 - k2, by rw [hk1, hk2]; push_cast; ring⟩
        linarith
      · intro h
        exact toCompare_round_nonpos (by linarith)

theorem le_total_of_isNumber (x y : Double) (hx : x.IsNumber) (hy : y.IsNumber) :
    x ≤ y ∨ y ≤ x := by
  show le x y = true ∨ le y x = true
  cases x with
  | nan => exact absurd hx (by simp [IsNumber])
  | infinity n =>
    cases y with
    | nan => exact absurd hy (by simp [IsNumber])
    | infinity k => cases n <;> cases k <;> simp [le]
    | finite w => cases n <;> simp [le]
  | finite v =>
    cases y with
    | nan => exact absurd hy (by simp [IsNumber])
    | infinity k => cases k <;> simp [le]
    | finite w => simpa [le] using le_total v w

theorem le_trans_double {x y z : Double} (hxy : x ≤ y) (hyz : y ≤ z) : x ≤ z := by
  change le x y = true at hxy
  change le y z = true at hyz
  show le x z = true
  cases x <;> cases y <;> cases z <;> simp [le] at * <;>
    first
      | exact le_trans hxy hyz
      | (rename_i a b c; cases a <;> cases b <;> cases c <;> simp_all)

theorem le_refl_of_isNumber (x : Double) (hx : x.IsNumber) : x ≤ x := by
  rcases le_total_of_isNumber x x hx hx with h | h <;> exact h

end Double

/-! ## Recipe queries: sorting -/

theorem popularity_isNumber (r : Recipe) : (popularity r).IsNumber :=
  Double.round_isNumber _

theorem comparePopular_le_iff (a b : Recipe) :
    comparePopular a b ≤ 0 ↔ popularity b ≤ popularity a :=
  Double.toCompare_sub_le_iff _ _ (popularity_isNumber b) (popularity_isNumber a)

theorem sortWith_comparePopular_sorted (xs : List Recipe) :
    List.Pairwise (fun a b => popularity b ≤ popularity a) (sortWith comparePopular xs) := by
  haveI : IsTotal Recipe (fun a b => comparePopular a b ≤ 0) :=
    ⟨fun a b => by
      simp only [comparePopular_le_iff]
      exact Double.le_total_of_isNumber _ _ (popularity_isNumber b) (popularity_isNumber a)⟩
  haveI : IsTrans Recipe (fun a b => comparePopular a b ≤ 0) :=
    ⟨fun a b c hab hbc => by
      simp only [comparePopular_le_iff] at *
      exact Double.le_trans_double hbc hab⟩
  have h := List.sorted_insertionSort (fun a b : Recipe => comparePopular a b ≤ 0) xs
  exact List.Pairwise.imp (fun {a b} hab => (comparePopular_le_iff a b).mp hab) h

theorem sortWith_perm {α : Type} (compare : α → α → ℚ) (xs : List α) :
    (sortWith compare xs).Perm xs :=
  List.perm_insertionSort _ xs

theorem sortRecipes_popular (H : Host) (xs : List Recipe) :
    sortRecipes H (some "popular") xs = sortWith comparePopular xs := by
  simp [sortRecipes, present]

/-- Stability of the popular sort: the recipes of one popularity keep their
source order. -/
theorem sortWith_comparePopular_stable (xs : List Recipe) (q : Double) :
    (sortWith comparePopular xs).filter (fun r => decide (popularity r = q))
      = xs.filter (fun r => decide (popularity r = q)) := by
  have hsub : List.Sublist (xs.filter (fun r => decide (popularity r = q)))
      (sortWith comparePopular xs) := by
    apply List.sublist_insertionSort
    · apply List.pairwise_of_forall_mem_list
      intro a ha b hb
      have h1 := (List.mem_filter.mp ha).2
      have h2 := (List.mem_filter.mp hb).2
      simp only [decide_eq_true_eq] at h1 h2
      rw [comparePopular_le_iff, h2, ← h1]
      exact Double.le_refl_of_isNumber _ (popularity_isNumber a)
    · exact List.filter_sublist _
  have hsub2 := hsub.filter (fun r => decide (popularity r = q))
  rw [List.filter_filter] at hsub2
  simp only [Bool.and_self] at hsub2
  have hlen : ((sortWith comparePopular xs).filter (fun r => decide (popularity r = q))).length
      = (xs.filter (fun r => decide (popularity r = q))).length :=
    ((sortWith_perm comparePopular xs).filter _).length_eq
  exact (hsub2.eq_of_length hlen.symm).symm

/-- C7 (as amended). A query that gives no sort key is not sorted at all: the
page is cut from the matched recipes in source order. The popular order,
descending `rating * reviewCount`, is what the sort key `popular` gives. -/
theorem no_sort_key_keeps_source_order (H : Host) (all : List Recipe) (f : Filters) :
    sortRecipes H none (matchedRecipes H all f) = matchedRecipes H all f ∧
    (fetchRecipes H all { f with sortBy := none }).recipes =
      jsSlice (matchedRecipes H all f)
        ((orElse f.page 1 - 1) * orElse f.limit 12)
        ((orElse f.page 1 - 1) * orElse f.limit 12 + orElse f.limit 12) ∧
    List.Pairwise (fun a b => popularity b ≤ popularity a)
      (sortRecipes H (some "popular") (matchedRecipes H all f)) := by
  refine ⟨rfl, rfl, ?_⟩
  rw [sortRecipes_popular]
  exact sortWith_comparePopular_sorted _

/-- C7 fails as stated: without a sort key the five sample recipes come back
in source order, a recipe of popularity 40 ahead of one of popularity 50,
while the sort key `popular` gives another order. -/
theorem no_sort_key_keeps_source_order_counterexample :
    (fetchRecipes RefHost.host sampleRecipes noFilters).recipes.map (fun r => r.id)
      = [1, 2, 3, 4, 5] ∧
    (fetchRecipes RefHost.host sampleRecipes
      { noFilters with sortBy := some "popular" }).recipes.map (fun r => r.id)
      = [2, 4, 5, 1, 3] ∧
    (fetchRecipes RefHost.host sampleRecipes noFilters).recipes.map popularity
      = [40, 50, 40, 48, 45] := by
  refine ⟨?_, ?_, ?_⟩ <;> decide!

/-- C8 fails on the code: the `prep-time` sort compares `parseInt(prepTime)`,
which reads `1 hour` as 1, so a recipe of one hour is placed ahead of a recipe
of 20 minutes although `parseTime` gives 60 and 20 minutes. -/
theorem prep_time_sort_ignores_unit :
    (fetchRecipes RefHost.host
      [sampleRecipe 1 "Pizza" "20 min" 4 10, sampleRecipe 2 "Soup" "1 hour" 5 10]
      { noFilters with sortBy := some "prep-time" }).recipes.map (fun r => r.prepTime)
      = ["1 hour", "20 min"] ∧
    parseTime "1 hour" = 60 ∧ parseTime "20 min" = 20 ∧
    parseInt "1 hour" = some 1 ∧ parseInt "20 min" = some 20 := by
  refine ⟨?_, ?_, ?_, ?_, ?_⟩ <;> decide!

/-- C9. Under the popular sort (the `popular` case of `fetchRecipes`, and
`fetchPopularRecipes`) the result is a rearrangement of the matched recipes in
which a recipe never comes after one of smaller `rating * reviewCount`, and
recipes of equal `rating * reviewCount` keep the relative order they have in
the source collection. The product is the binary64 product that the code
computes, and the comparison is that of the Number type. -/
theorem popular_sort_stable (H : Host) (xs : List Recipe) :
    (sortRecipes H (some "popular") xs).Perm xs ∧
    List.Pairwise (fun a b => popularity b ≤ popularity a) (sortRecipes H (some "popular") xs) ∧
    (∀ q : Double, (sortRecipes H (some "popular") xs).filter (fun r => decide (popularity r = q))
      = xs.filter (fun r => decide (popularity r = q))) ∧
    (∀ a b : Recipe, popularity a = popularity b → List.Sublist [a, b] xs →
      List.Sublist [a, b] (sortRecipes H (some "popular") xs)) ∧
    (∀ limit : Option Int,
      fetchPopularRecipes xs limit = jsSlice (sortRecipes H (some "popular") xs) 0 (limit.getD 6)) := by
  rw [sortRecipes_popular]
  refine ⟨sortWith_perm _ _, sortWith_comparePopular_sorted _,
    sortWith_comparePopular_stable xs, ?_, fun _ => rfl⟩
  intro a b hab hsub
  exact List.pair_sublist_insertionSort
    ((comparePopular_le_iff a b).mpr (hab ▸ Double.le_refl_of_isNumber _ (popularity_isNumber a)))
    hsub

/-- Witness for C9: recipes 1 and 3 of the sample both have popularity 40 and
stay in that order under the popular sort. -/
theorem popular_sort_stable_witness :
    List.Sublist [sampleRecipe 1 "Pizza" "20 min" 4 10, sampleRecipe 3 "Salad" "15 min" 4 10]
      (sortRecipes RefHost.host (some "popular") sampleRecipes) :=
  (popular_sort_stable RefHost.host sampleRecipes).2.2.2.1
    (sampleRecipe 1 "Pizza" "20 min" 4 10) (sampleRecipe 3 "Salad" "15 min" 4 10)
    (by decide!) (by decide!)

/-- The products are the rounded ones: `3.3 * 4` is `13.2` and `4.4 * 3` is
`13.200000000000001` in binary64, so the second recipe has the larger product
and comes first, although the decimal products are equal. -/
theorem popular_sort_rounds_products :
    popularity (sampleRecipe 1 "a" "5 min" 3.3 4)
      = Double.finite (3715469692580659 / 281474976710656) ∧
    popularity (sampleRecipe 2 "b" "5 min" 4.4 3)
      = Double.finite (7430939385161319 / 562949953421312) ∧
    ¬ (popularity (sampleRecipe 2 "b" "5 min" 4.4 3) ≤ popularity (sampleRecipe 1 "a" "5 min" 3.3 4)) ∧
    (sortRecipes RefHost.host (some "popular")
      [sampleRecipe 1 "a" "5 min" 3.3 4, sampleRecipe 2 "b" "5 min" 4.4 3]).map (fun r => r.id) = [2, 1] := by
  refine ⟨?_, ?_, ?_, ?_⟩ <;> decide!

/-! ## Recipe queries: composition of the filters -/

theorem filterCategory_some (c : String) (hc : c ≠ "") (xs : List Recipe) :
    filterCategory (some c) xs = xs.filter (fun recipe => decide (recipe.category = c)) := by
  simp [filterCategory, present, hc]

theorem filterDifficulty_some (d : String) (hd : d ≠ "") (xs : List Recipe) :
    filterDifficulty (some d) xs = xs.filter (fun recipe => decide (recipe.difficulty = d)) := by
  simp [filterDifficulty, present, hd]

theorem filterTags_some (tags : List String) (ht : tags ≠ []) (xs : List Recipe) :
    filterTags (some tags) xs
      = xs.filter (fun recipe => tags.any (fun tag => recipe.tags.contains tag)) := by
  cases tags with
  | nil => exact absurd rfl ht
  | cons t ts => rfl

theorem filterCategory_idem (category : Option String) (xs : List Recipe) :
    filterCategory category (filterCategory category xs) = filterCategory category xs := by
  unfold filterCategory
  split
  · simp [List.filter_filter]
  · rfl

/-- C10 (as amended). Applying the category filter twice gives the same list
as applying it once, for every category. For every non-empty category `c`,
non-empty difficulty `d` and non-empty tag set `T`, the recipes matched by
`fetchRecipes` with `{category: c, difficulty: d, tags: T}` are the
source-order sublist of the (search-filtered) recipes that satisfy all three
predicates, and each of the six orders of the three filters gives that list. -/
theorem filters_commute (H : Host) (all : List Recipe) (f : Filters) (c d : String)
    (tags : List String) (hc : c ≠ "") (hd : d ≠ "") (ht : tags ≠ []) :
    (∀ (category : Option String) (xs : List Recipe),
      filterCategory category (filterCategory category xs) = filterCategory category xs) ∧
    matchedRecipes H all { f with category := some c, difficulty := some d, tags := some tags }
      = (filterSearch H f.search all).filter (satisfiesAll c d tags) ∧
    (∀ xs : List Recipe,
      filterTags (some tags) (filterDifficulty (some d) (filterCategory (some c) xs))
        = xs.filter (satisfiesAll c d tags) ∧
      filterTags (some tags) (filterCategory (some c) (filterDifficulty (some d) xs))
        = xs.filter (satisfiesAll c d tags) ∧
      filterDifficulty (some d) (filterTags (some tags) (filterCategory (some c) xs))
        = xs.filter (satisfiesAll c d tags) ∧
      filterDifficulty (some d) (filterCategory (some c) (filterTags (some tags) xs))
        = xs.filter (satisfiesAll c d tags) ∧
      filterCategory (some c) (filterTags (some tags) (filterDifficulty (some d) xs))
        = xs.filter (satisfiesAll c d tags) ∧
      filterCategory (some c) (filterDifficulty (some d) (filterTags (some tags) xs))
        = xs.filter (satisfiesAll c d tags)) := by
  have hall : ∀ xs : List Recipe,
      filterTags (some tags) (filterDifficulty (some d) (filterCategory (some c) xs))
        = xs.filter (satisfiesAll c d tags) := by
    intro xs
    rw [filterCategory_some c hc, filterDifficulty_some d hd, filterTags_some tags ht,
      List.filter_filter, List.filter_filter]
    apply List.filter_congr
    intro r _
    simp only [satisfiesAll, Bool.and_comm, Bool.and_left_comm, Bool.and_assoc]
  refine ⟨filterCategory_idem, hall _, fun xs => ⟨hall xs, ?_, ?_, ?_, ?_, ?_⟩⟩ <;>
  · rw [filterCategory_some c hc, filterDifficulty_some d hd, filterTags_some tags ht,
      List.filter_filter, List.filter_filter]
    apply List.filter_congr
    intro r _
    simp only [satisfiesAll, Bool.and_comm, Bool.and_left_comm, Bool.and_assoc]

/-- Witness for C10: the sample recipes queried for category `main-courses`,
difficulty `easy` and the tags `quick` or `vegan`. -/
theorem filters_commute_witness :
    matchedRecipes RefHost.host sampleRecipes
      { noFilters with category := some "main-courses", difficulty := some "easy",
                       tags := some ["quick", "vegan"] }
      = (filterSearch RefHost.host none sampleRecipes).filter
          (satisfiesAll "main-courses" "easy" ["quick", "vegan"]) :=
  (filters_commute RefHost.host sampleRecipes noFilters "main-courses" "easy" ["quick", "vegan"]
    (by decide) (by decide) (by decide)).2.1

/-- C10 fails as stated: an empty category string switches the category filter
off, so the query `{category: '', difficulty: 'easy', tags: ['quick']}`
matches all five sample recipes although none of them has the category `''`. -/
theorem filters_commute_counterexample :
    (matchedRecipes RefHost.host sampleRecipes
      { noFilters with category := some "", difficulty := some "easy",
                       tags := some ["quick"] }).map (fun r => r.id) = [1, 2, 3, 4, 5] ∧
    sampleRecipes.filter (satisfiesAll "" "easy" ["quick"]) = [] := by
  refine ⟨?_, ?_⟩ <;> decide!

/-! ## Recipe queries: search and tag filters -/

theorem includesChars_iff (needle hay : List Char) :
    includesChars needle hay = true ↔ needle <:+: hay := by
  induction hay with
  | nil => simp [includesChars]
  | cons c cs ih =>
    simp only [includesChars, Bool.or_eq_true, ih, List.isPrefixOf_iff_prefix]
    exact List.infix_cons_iff.symm

theorem strIncludes_iff (haystack needle : String) :
    strIncludes haystack needle = true ↔ needle.data <:+: haystack.data :=
  includesChars_iff _ _

theorem searchPredicate_iff (H : Host) (s : String) (recipe : Recipe) :
    (strIncludes (H.toLowerCase recipe.title) (H.toLowerCase s)
      || strIncludes (H.toLowerCase recipe.description) (H.toLowerCase s)
      || recipe.tags.any (fun tag => strIncludes (H.toLowerCase tag) (H.toLowerCase s))) = true
    ↔ SearchMatch H s recipe := by
  simp only [Bool.or_eq_true, List.any_eq_true, strIncludes_iff, SearchMatch, or_assoc]

theorem mem_searchRecipes (H : Host) (all : List Recipe) (s : String) (recipe : Recipe) :
    recipe ∈ MockDataUtils.searchRecipes H all s ↔ recipe ∈ all ∧ SearchMatch H s recipe := by
  simp only [MockDataUtils.searchRecipes, List.mem_filter, searchPredicate_iff]

theorem filterSearch_eq_searchRecipes (H : Host) (all : List Recipe) (s : String) (hs : s ≠ "") :
    filterSearch H (some s) all = MockDataUtils.searchRecipes H all s := by
  simp [filterSearch, present, hs, MockDataUtils.searchRecipes]

/-- C11. For every collection and every non-empty search text `s`, the search
filter of `fetchRecipes` and `mockDataUtils.searchRecipes` keep, in source
order, exactly the recipes whose lower-cased title, lower-cased description or
some lower-cased tag contains the lower-cased `s` as a substring; a search text
with the same lower-casing gives the same result, and recipes whose fields have
the same lower-casing are matched alike. -/
theorem search_filter_exact (H : Host) (all : List Recipe) (s : String) (hs : s ≠ "") :
    (filterSearch H (some s) all = MockDataUtils.searchRecipes H all s ∧
      List.Sublist (filterSearch H (some s) all) all ∧
      ∀ recipe, recipe ∈ filterSearch H (some s) all ↔ recipe ∈ all ∧ SearchMatch H s recipe) ∧
    (∀ s2 : String, s2 ≠ "" → H.toLowerCase s2 = H.toLowerCase s →
      filterSearch H (some s2) all = filterSearch H (some s) all) ∧
    (∀ r1 r2 : Recipe, H.toLowerCase r1.title = H.toLowerCase r2.title →
      H.toLowerCase r1.description = H.toLowerCase r2.description →
      r1.tags.map H.toLowerCase = r2.tags.map H.toLowerCase →
      (SearchMatch H s r1 ↔ SearchMatch H s r2)) := by
  refine ⟨⟨filterSearch_eq_searchRecipes H all s hs, ?_, ?_⟩, ?_, ?_⟩
  · rw [filterSearch_eq_searchRecipes H all s hs]
    exact List.filter_sublist _
  · intro recipe
    rw [filterSearch_eq_searchRecipes H all s hs]
    exact mem_searchRecipes H all s recipe
  · intro s2 hs2 hlow
    rw [filterSearch_eq_searchRecipes H all s hs, filterSearch_eq_searchRecipes H all s2 hs2]
    simp only [MockDataUtils.searchRecipes, hlow]
  · intro r1 r2 ht hd htags
    have htag : ∀ r : Recipe, (∃ tag ∈ r.tags, (H.toLowerCase s).data <:+: (H.toLowerCase tag).data)
        ↔ ∃ low ∈ r.tags.map H.toLowerCase, (H.toLowerCase s).data <:+: low.data := by
      intro r
      simp
    simp only [SearchMatch, ht, hd, htag, htags]

/-- Witness for C11: among the recipes of the mock data the search text
`PIZZA` keeps the recipe titled `Classic Margherita Pizza`, as `pizza` does. -/
theorem search_filter_exact_witness :
    filterSearch RefHost.host (some "PIZZA") mockRecipesData
      = filterSearch RefHost.host (some "pizza") mockRecipesData ∧
    (filterSearch RefHost.host (some "pizza") mockRecipesData).map (fun r => r.id) = [1] :=
  ⟨(search_filter_exact RefHost.host mockRecipesData "pizza" (by decide)).2.1 "PIZZA"
      (by decide) (by decide),
   by decide!⟩

/-- C12. For every collection and every non-empty requested tag list `T`, the
tag filter of `fetchRecipes` keeps, in source order, exactly the recipes with at
least one tag that is a member of `T`; an empty or absent `T` keeps every
recipe. -/
theorem tag_filter_or_semantics (all : List Recipe) (tags : List String) (ht : tags ≠ []) :
    (∀ recipe, recipe ∈ filterTags (some tags) all ↔
      recipe ∈ all ∧ ∃ tag ∈ recipe.tags, tag ∈ tags) ∧
    filterTags (some tags) all
      = all.filter (fun recipe => decide (∃ tag ∈ recipe.tags, tag ∈ tags)) ∧
    filterTags (some []) all = all ∧
    filterTags none all = all := by
  have hpred : ∀ recipe : Recipe,
      tags.any (fun tag => recipe.tags.contains tag) = decide (∃ tag ∈ recipe.tags, tag ∈ tags) := by
    intro recipe
    rw [Bool.eq_iff_iff]
    simp only [List.any_eq_true, List.contains_eq_any_beq, beq_iff_eq, decide_eq_true_eq]
    constructor
    · rintro ⟨tag, h1, tag2, h2, h3⟩
      exact ⟨tag2, h2, h3 ▸ h1⟩
    · rintro ⟨tag, h1, h2⟩
      exact ⟨tag, h2, tag, h1, rfl⟩
  have heq : filterTags (some tags) all
      = all.filter (fun recipe => decide (∃ tag ∈ recipe.tags, tag ∈ tags)) := by
    rw [filterTags_some tags ht]
    exact List.filter_congr (fun recipe _ => hpred recipe)
  refine ⟨?_, heq, rfl, rfl⟩
  intro recipe
  rw [heq, List.mem_filter, decide_eq_true_eq]

/-- Witness for C12: of the two tags requested the sample recipes carry only
`quick`, and all five are kept. -/
theorem tag_filter_or_semantics_witness :
    filterTags (some ["vegan", "quick"]) sampleRecipes
      = sampleRecipes.filter (fun recipe => decide (∃ tag ∈ recipe.tags, tag ∈ ["vegan", "quick"])) :=
  (tag_filter_or_semantics sampleRecipes ["vegan", "quick"] (by decide)).2.1

/-! ## Recipe queries: the source collection -/

/-- C13 fails on the code: `mockDataUtils.getPopularRecipes` sorts the module
array `mockRecipes` itself. On the three recipes of the mock data (ids 1, 2, 3
with popularities 748.8, 400.5 and 1099.8) the collection is left in the order
3, 1, 2; `fetchRecipes`, `fetchPopularRecipes` and `mockDataUtils.filterRecipes`
work on a copy and leave it as it was. -/
theorem getPopularRecipes_reorders_source :
    ((MockDataUtils.getPopularRecipes mockRecipesData none).mockRecipes.map (fun r => r.id)
        = [3, 1, 2] ∧
      mockRecipesData.map (fun r => r.id) = [1, 2, 3]) ∧
    (∀ (H : Host) (all : List Recipe) (filters : Filters),
      (fetchRecipesRun H all filters).mockRecipes = all) ∧
    (∀ (all : List Recipe) (limit : Option Int),
      (fetchPopularRecipesRun all limit).mockRecipes = all) ∧
    (∀ (H : Host) (all : List Recipe) (filters : MockFilters),
      (MockDataUtils.filterRecipes H all filters).mockRecipes = all) := by
  refine ⟨⟨?_, ?_⟩, fun _ _ _ => rfl, fun _ _ => rfl, fun _ _ _ => rfl⟩ <;> decide!

/-! ## Persisted state binding -/

/-- C14 (as amended). After `setValue(x)` the in-memory value is `v` in every
case. When the write succeeds, the string persisted under the key is
`JSON.stringify(v)`, which parses to `v` when the host round-trips `v`. When the
write fails, the store is left as it was while the in-memory value has changed
to `v`. -/
theorem setValue_memory_and_store (H : Host) (key : String) (stored : JSValue)
    (ls : LocalStorage) (x : SetArg) :
    (UseLocalStorage.setValue H true key (stored, ls) x).1
      = UseLocalStorage.valueToStore stored x ∧
    (∀ written, ls.setItem key
        ((H.jsonStringify (UseLocalStorage.valueToStore stored x)).getD "undefined")
        = Except.ok written →
      (UseLocalStorage.setValue H true key (stored, ls) x).2 = written ∧
      written.getItem key
        = some ((H.jsonStringify (UseLocalStorage.valueToStore stored x)).getD "undefined") ∧
      (H.RoundTrips (UseLocalStorage.valueToStore stored x) →
        (written.getItem key).bind H.jsonParse = some (UseLocalStorage.valueToStore stored x))) ∧
    (∀ e, ls.setItem key
        ((H.jsonStringify (UseLocalStorage.valueToStore stored x)).getD "undefined")
        = Except.error e →
      (UseLocalStorage.setValue H true key (stored, ls) x).2 = ls) := by
  refine ⟨?_, ?_, ?_⟩
  · unfold UseLocalStorage.setValue
    simp only [if_true]
    split <;> rfl
  · intro written hw
    refine ⟨?_, LocalStorage.getItem_of_setItem hw, ?_⟩
    · simp [UseLocalStorage.setValue, hw]
    · rintro ⟨text, h1, h2⟩
      rw [LocalStorage.getItem_of_setItem hw, h1]
      simpa using h2
  · intro e he
    simp [UseLocalStorage.setValue, he]

/-- Witness for C14: an updater applied to the stored value 1 on the empty
store; the stored string parses to the new in-memory value. -/
theorem setValue_memory_and_store_witness :
    ((UseLocalStorage.setValue RefHost.host true "k" (JSValue.num 1, emptyStore)
        (SetArg.updater (fun prev => JSValue.arr [prev, JSValue.num 2]))).2.getItem "k").bind
      RefHost.host.jsonParse = some (JSValue.arr [JSValue.num 1, JSValue.num 2]) :=
  (((setValue_memory_and_store RefHost.host "k" (JSValue.num 1) emptyStore
      (SetArg.updater (fun prev => JSValue.arr [prev, JSValue.num 2]))).2.1
      (UseLocalStorage.setValue RefHost.host true "k" (JSValue.num 1, emptyStore)
        (SetArg.updater (fun prev => JSValue.arr [prev, JSValue.num 2]))).2 (by rfl)).2.2
    ⟨_, rfl, rfl⟩).trans (by rfl)

/-- C14 fails as stated: on a store that rejects the write, `setValue(1)` from
the in-memory value 0 leaves the persisted string `0` but changes the
in-memory value to 1. -/
theorem setValue_memory_and_store_counterexample :
    (UseLocalStorage.setValue RefHost.host true "k" (JSValue.num 0, lockedStore)
      (SetArg.value (JSValue.num 1))).1 = JSValue.num 1 ∧
    (UseLocalStorage.setValue RefHost.host true "k" (JSValue.num 0, lockedStore)
      (SetArg.value (JSValue.num 1))).2 = lockedStore ∧
    lockedStore.getItem "k" = some "0" ∧
    JSValue.num 1 ≠ JSValue.num 0 :=
  ⟨by rfl, by rfl, by rfl, by simp⟩

/-! ## Bounded most-recent-first lists -/

theorem jsSlice_zero {α : Type} (xs : List α) (count : Int) (hcount : 0 ≤ count) :
    jsSlice xs 0 count = xs.take count.toNat := by
  have h1 : ¬ count < 0 := by omega
  simp only [jsSlice, relativeIndex, h1, if_false, lt_self_iff_false, Int.toNat_zero,
    Nat.zero_min, List.drop_zero, Nat.sub_zero]
  rw [List.take_eq_take]
  omega

/-- C15. For every history `h` whose entries are pairwise distinct when
lower-cased, every `maxItems ≥ 1` and every query `q` that is not blank,
`addSearch(q)` stores the trimmed `q` followed by the entries of `h` that differ
from it when lower-cased, in their order, cut to `maxItems` entries; the result
is again pairwise distinct when lower-cased and has at most `maxItems` entries.
A blank or empty `q` leaves `h` unchanged. -/
theorem addSearch_dedup_cap (H : Host) (maxItems : Int) (h : List String) (q : String)
    (hmax : 1 ≤ maxItems)
    (hdistinct : h.Pairwise (fun a b => H.toLowerCase a ≠ H.toLowerCase b)) :
    (jsTrim q ≠ "" →
      addSearch H maxItems h q
        = (jsTrim q :: h.filter
            (fun item => decide (H.toLowerCase item ≠ H.toLowerCase (jsTrim q)))).take
            maxItems.toNat ∧
      (addSearch H maxItems h q).head? = some (jsTrim q) ∧
      (addSearch H maxItems h q).Pairwise (fun a b => H.toLowerCase a ≠ H.toLowerCase b) ∧
      ((addSearch H maxItems h q).length : Int) ≤ maxItems) ∧
    (jsTrim q = "" → addSearch H maxItems h q = h) := by
  constructor
  · intro hq
    have hq2 : q ≠ "" := by
      intro h0
      apply hq
      subst h0
      rfl
    have heq : addSearch H maxItems h q
        = (jsTrim q :: h.filter
            (fun item => decide (H.toLowerCase item ≠ H.toLowerCase (jsTrim q)))).take
            maxItems.toNat := by
      simp only [addSearch, hq, hq2, or_self, if_false]
      exact jsSlice_zero _ _ (by omega)
    have hpos : 0 < maxItems.toNat := by omega
    refine ⟨heq, ?_, ?_, ?_⟩
    · rw [heq]
      obtain ⟨n, hn⟩ : ∃ n, maxItems.toNat = n + 1 := ⟨maxItems.toNat - 1, by omega⟩
      rw [hn]
      rfl
    · rw [heq]
      apply List.Pairwise.sublist (List.take_sublist _ _)
      rw [List.pairwise_cons]
      constructor
      · intro item hitem
        have := (List.mem_filter.mp hitem).2
        simp only [decide_eq_true_eq] at this
        exact fun hc => this hc.symm
      · exact hdistinct.sublist (List.filter_sublist _)
    · rw [heq, List.length_take]
      omega
  · intro hq
    simp [addSearch, hq]

/-- Witness for C15: `  Pasta ` is added to a history that holds `pasta`, with
room for two entries. -/
theorem addSearch_dedup_cap_witness :
    addSearch RefHost.host 2 ["soup", "pasta", "cake"] "  Pasta " = ["Pasta", "soup"] :=
  ((addSearch_dedup_cap RefHost.host 2 ["soup", "pasta", "cake"] "  Pasta " (by decide)
    (by decide)).1 (by decide)).1.trans (by decide)

/-- C16. For every recently-viewed list `l` with pairwise distinct ids, every
`maxItems ≥ 1` and every recipe `r` with an id (an id that passes the guard
`!recipe.id`, so not 0), `addRecipe(r)` stores an entry with the id and the
copied fields of `r`, stamped with the current time, followed by the entries of
`l` with another id, in their order, cut to `maxItems` entries; the ids of the
result are pairwise distinct and it has at most `maxItems` entries. -/
theorem addRecipe_dedup_cap (nowIso : String) (maxItems : Int) (l : List ViewedRecipe)
    (r : RecipeCard) (hmax : 1 ≤ maxItems) (hid : r.id ≠ 0)
    (hdistinct : l.Pairwise (fun a b => a.id ≠ b.id)) :
    addRecipe nowIso maxItems l (some r)
      = (({ id := r.id, title := r.title, image := r.image, rating := r.rating,
            author := r.author, viewedAt := nowIso } : ViewedRecipe) ::
          l.filter (fun item => decide (item.id ≠ r.id))).take maxItems.toNat ∧
    (addRecipe nowIso maxItems l (some r)).head?
      = some { id := r.id, title := r.title, image := r.image, rating := r.rating,
               author := r.author, viewedAt := nowIso } ∧
    (addRecipe nowIso maxItems l (some r)).Pairwise (fun a b => a.id ≠ b.id) ∧
    ((addRecipe nowIso maxItems l (some r)).length : Int) ≤ maxItems := by
  have heq : addRecipe nowIso maxItems l (some r)
      = (({ id := r.id, title := r.title, image := r.image, rating := r.rating,
            author := r.author, viewedAt := nowIso } : ViewedRecipe) ::
          l.filter (fun item => decide (item.id ≠ r.id))).take maxItems.toNat := by
    simp only [addRecipe, hid, if_false]
    exact jsSlice_zero _ _ (by omega)
  refine ⟨heq, ?_, ?_, ?_⟩
  · rw [heq]
    obtain ⟨n, hn⟩ : ∃ n, maxItems.toNat = n + 1 := ⟨maxItems.toNat - 1, by omega⟩
    rw [hn]
    rfl
  · rw [heq]
    apply List.Pairwise.sublist (List.take_sublist _ _)
    rw [List.pairwise_cons]
    constructor
    · intro item hitem
      have := (List.mem_filter.mp hitem).2
      simp only [decide_eq_true_eq] at this
      exact fun hc => this hc.symm
    · exact hdistinct.sublist (List.filter_sublist _)
  · rw [heq, List.length_take]
    omega

/-- Witness for C16: recipe 2 is viewed again at time `t3`, with room for two
entries. -/
theorem addRecipe_dedup_cap_witness :
    (addRecipe "t3" 2 [viewedSample 1 "t1", viewedSample 2 "t2", viewedSample 3 "t0"]
      (some { id := 2, title := JSValue.str "t", image := JSValue.null, rating := JSValue.num 5,
              author := JSValue.null })).map (fun e => (e.id, e.viewedAt))
      = [(2, "t3"), (1, "t1")] :=
  (congrArg (List.map (fun e => (e.id, e.viewedAt)))
    (addRecipe_dedup_cap "t3" 2 [viewedSample 1 "t1", viewedSample 2 "t2", viewedSample 3 "t0"]
      { id := 2, title := JSValue.str "t", image := JSValue.null, rating := JSValue.num 5,
        author := JSValue.null }
      (by decide) (by decide) (by simp [viewedSample])).1).trans (by rfl)

/-! ## Meal plan -/

theorem objGet_objSet_same {β : Type} (key : String) (value : β) (object : List (String × β)) :
    objGet key (objSet key value object) = some value := by
  induction object with
  | nil => simp [objGet, objSet]
  | cons e rest ih =>
    obtain ⟨k, v⟩ := e
    by_cases h : k = key
    · simp [objGet, objSet, h]
    · simpa [objGet, objSet, h] using ih

theorem objGet_objSet_other {β : Type} (key other : String) (value : β)
    (object : List (String × β)) (h : other ≠ key) :
    objGet other (objSet key value object) = objGet other object := by
  induction object with
  | nil => simp [objGet, objSet, Ne.symm h]
  | cons e rest ih =>
    obtain ⟨k, v⟩ := e
    by_cases hk : k = key
    · subst hk
      simp [objGet, objSet, Ne.symm h]
    · by_cases ho : k = other
      · subst ho
        simp [objGet, objSet, hk]
      · simpa [objGet, objSet, hk, ho] using ih

theorem objGet_objDelete_same {β : Type} (key : String) (object : List (String × β)) :
    objGet key (objDelete key object) = none := by
  simp [objGet, objDelete, List.find?_eq_none]

theorem objGet_objDelete_other {β : Type} (key other : String) (object : List (String × β))
    (h : other ≠ key) : objGet other (objDelete key object) = objGet other object := by
  induction object with
  | nil => rfl
  | cons e rest ih =>
    obtain ⟨k, v⟩ := e
    by_cases hk : k = key
    · subst hk
      simpa [objGet, objDelete, Ne.symm h] using ih
    · by_cases ho : k = other
      · subst ho
        simp [objGet, objDelete, hk]
      · simpa [objGet, objDelete, hk, ho] using ih

theorem objSet_ne_nil {β : Type} (key : String) (value : β) (object : List (String × β)) :
    objSet key value object ≠ [] := by
  cases object with
  | nil => simp [objSet]
  | cons e rest =>
    obtain ⟨k, v⟩ := e
    by_cases h : k = key <;> simp [objSet, h]

/-- C18. For every meal plan `p` in which no date key maps to an empty record,
every date key `d` (of a valid date), meal type `m` and recipe `r`: `addMeal`
and `removeMeal` both store a plan in which no date key maps to an empty
record, and leave the entries of all other dates as they were. `addMeal` puts
the meal in slot `m` of `d`. `removeMeal`, when `d` holds no other slot than
`m` (or has no entry), stores a plan with no key for `d` (so that
`getMealsForDate` gives the empty record), and otherwise a plan whose entry for
`d` is the old one without `m`. -/
theorem meal_plan_no_empty_day (nowIso : String) (p : MealPlan) (d m : String)
    (r : PlannedRecipe) (hp : NoEmptyDay p) :
    (NoEmptyDay (addMeal nowIso p d m r) ∧
      (∃ day, objGet d (addMeal nowIso p d m r) = some day ∧
        objGet m day = some
          ({ id := r.id, title := r.title, image := r.image, prepTime := r.prepTime,
             servings := r.servings, addedAt := nowIso } : MealEntry)) ∧
      ∀ other, other ≠ d → objGet other (addMeal nowIso p d m r) = objGet other p) ∧
    (NoEmptyDay (removeMeal p d m) ∧
      (objDelete m ((objGet d p).getD []) = [] →
        objGet d (removeMeal p d m) = none ∧ getMealsForDate (removeMeal p d m) d = []) ∧
      (objDelete m ((objGet d p).getD []) ≠ [] →
        objGet d (removeMeal p d m) = some (objDelete m ((objGet d p).getD []))) ∧
      ∀ other, other ≠ d → objGet other (removeMeal p d m) = objGet other p) := by
  refine ⟨⟨?_, ?_, ?_⟩, ?_, ?_, ?_, ?_⟩
  · intro k day hk
    by_cases hkd : k = d
    · subst hkd
      rw [addMeal, objGet_objSet_same] at hk
      cases hk
      exact objSet_ne_nil _ _ _
    · rw [addMeal, objGet_objSet_other _ _ _ _ hkd] at hk
      exact hp k day hk
  · exact ⟨_, objGet_objSet_same _ _ _, objGet_objSet_same _ _ _⟩
  · intro other ho
    exact objGet_objSet_other _ _ _ _ ho
  · intro k day hk
    unfold removeMeal at hk
    simp only at hk
    split at hk
    · by_cases hkd : k = d
      · subst hkd
        rw [objGet_objDelete_same] at hk
        cases hk
      · rw [objGet_objDelete_other _ _ _ hkd] at hk
        exact hp k day hk
    · rename_i hlen
      by_cases hkd : k = d
      · subst hkd
        rw [objGet_objSet_same] at hk
        cases hk
        exact fun h0 => hlen (by rw [h0]; rfl)
      · rw [objGet_objSet_other _ _ _ _ hkd] at hk
        exact hp k day hk
  · intro hempty
    have h1 : objGet d (removeMeal p d m) = none := by
      simp only [removeMeal, hempty, List.length_nil, if_true]
      exact objGet_objDelete_same _ _
    exact ⟨h1, by simp [getMealsForDate, h1]⟩
  · intro hne
    have hlen : ¬ (objDelete m ((objGet d p).getD [])).length = 0 := by
      intro h0
      exact hne (List.length_eq_zero.mp h0)
    simp only [removeMeal, hlen, if_false]
    exact objGet_objSet_same _ _ _
  · intro other ho
    unfold removeMeal
    simp only
    split
    · exact objGet_objDelete_other _ _ _ ho
    · exact objGet_objSet_other _ _ _ _ ho

/-- Witness for C18: in the sample plan the removal of the only slot of 16
January drops the date, and the removal of lunch on 15 January keeps dinner. -/
theorem meal_plan_no_empty_day_witness :
    objGet "2024-01-16" (removeMeal planSample "2024-01-16" "breakfast") = none ∧
    (removeMeal planSample "2024-01-15" "lunch").map (fun e => (e.1, e.2.map (fun s => s.1)))
      = [("2024-01-15", ["dinner"]), ("2024-01-16", ["breakfast"])] :=
  ⟨((meal_plan_no_empty_day "t" planSample "2024-01-16" "breakfast" plannedSample
      (meal_plan_no_empty_day "t3" _ "2024-01-16" "breakfast" plannedSample
        (meal_plan_no_empty_day "t2" _ "2024-01-15" "dinner" plannedSample
          (meal_plan_no_empty_day "t1" [] "2024-01-15" "lunch" plannedSample
            (by intro k day hk; simp [objGet] at hk)).1.1).1.1).1.1).2.2.1 (by decide)).1,
   by decide⟩

/-! ## Shopping list -/

theorem groupItems_of_plain_names (items : List ShoppingItem)
    (hplain : ∀ item ∈ items, ∀ c, item.category = some c → c ∉ objectPrototypeKeys) :
    ∀ acc : Categories, groupItems items acc = Except.ok
      { produce := acc.produce ++ items.filter (fun i => decide (bucketOf i = "produce"))
        dairy := acc.dairy ++ items.filter (fun i => decide (bucketOf i = "dairy"))
        meat := acc.meat ++ items.filter (fun i => decide (bucketOf i = "meat"))
        pantry := acc.pantry ++ items.filter (fun i => decide (bucketOf i = "pantry"))
        other := acc.other ++ items.filter (fun i => decide (bucketOf i = "other")) } := by
  induction items with
  | nil => intro acc; simp [groupItems]
  | cons item rest ih =>
    intro acc
    have hrest : ∀ i ∈ rest, ∀ c, i.category = some c → c ∉ objectPrototypeKeys :=
      fun i hi => hplain i (List.mem_cons_of_mem _ hi)
    have hitem := hplain item (List.mem_cons_self _ _)
    cases hc : item.category with
    | none =>
      simp [groupItems, groupItem, hc, ih hrest, bucketOf, List.filter_cons]
    | some c =>
      have hnot := hitem c hc
      by_cases h1 : c = "produce"
      · subst h1; simp [groupItems, groupItem, hc, ih hrest, bucketOf, List.filter_cons]
      by_cases h2 : c = "dairy"
      · subst h2; simp [groupItems, groupItem, hc, ih hrest, bucketOf, List.filter_cons]
      by_cases h3 : c = "meat"
      · subst h3; simp [groupItems, groupItem, hc, ih hrest, bucketOf, List.filter_cons]
      by_cases h4 : c = "pantry"
      · subst h4; simp [groupItems, groupItem, hc, ih hrest, bucketOf, List.filter_cons]
      by_cases h5 : c = "other"
      · subst h5; simp [groupItems, groupItem, hc, ih hrest, bucketOf, List.filter_cons]
      by_cases h6 : c = ""
      · subst h6; simp [groupItems, groupItem, hc, ih hrest, bucketOf, List.filter_cons]
      · simp [groupItems, groupItem, hc, ih hrest, bucketOf, List.filter_cons, h1, h2, h3, h4,
          h5, h6, hnot]

/-- C19 fails on the code: for an item whose category is `constructor`, a name
that every object inherits, `categories[category]` is truthy but has no `push`,
and `getItemsByCategory` throws instead of putting the item into `other`.
Absent, empty and other unknown categories do go to `other`. -/
theorem getItemsByCategory_inherited_name_throws :
    getItemsByCategory [itemSample 1 (some "produce"), itemSample 2 (some "constructor")]
      = Except.error "TypeError: categories[category].push is not a function" ∧
    bucketOf (itemSample 2 (some "constructor")) = "other" ∧
    getItemsByCategory
        [itemSample 1 (some "produce"), itemSample 2 (some "frozen"), itemSample 3 none,
         itemSample 4 (some "")]
      = Except.ok
          { produce := [itemSample 1 (some "produce")], dairy := [], meat := [], pantry := [],
            other := [itemSample 2 (some "frozen"), itemSample 3 none, itemSample 4 (some "")] } := by
  refine ⟨by rfl, by decide, by rfl⟩

/-! ## Favorites -/

theorem STORAGE_KEYS_undefined : STORAGE_KEYS = none := by decide

/-- Adding a recipe whose id is in the list returns false and leaves the list
and the store as they were. -/
theorem addToFavorites_present (H : Host) (nowIso : String) (st : FavoritesState)
    (r : RecipeCard) (h : ∃ fav ∈ st.favorites, fav.id = r.id) :
    addToFavorites H nowIso st r = (Except.ok false, st) := by
  obtain ⟨fav, hmem, hid⟩ := h
  cases hfind : st.favorites.findIdx? (fun fav => decide (fav.id = r.id)) with
  | none =>
    rw [List.findIdx?_eq_none_iff] at hfind
    have := hfind fav hmem
    simp [hid] at this
  | some i => simp [addToFavorites, hfind]

/-- Adding a recipe whose id is not in the list never returns: the read of
`STORAGE_KEYS.favorites` throws, with the new list set and the store as it
was. -/
theorem addToFavorites_absent (H : Host) (nowIso : String) (st : FavoritesState)
    (r : RecipeCard) (h : ¬ ∃ fav ∈ st.favorites, fav.id = r.id) :
    (addToFavorites H nowIso st r).1
        = Except.error "TypeError: Cannot read properties of undefined (reading 'favorites')" ∧
      (addToFavorites H nowIso st r).2.store = st.store := by
  have hfind : st.favorites.findIdx? (fun fav => decide (fav.id = r.id)) = none := by
    rw [List.findIdx?_eq_none_iff]
    intro fav hmem
    simp only [decide_eq_false_iff_not]
    exact fun hid => h ⟨fav, hmem, hid⟩
  simp only [addToFavorites, hfind, saveFavorites, STORAGE_KEYS_undefined, and_self]

/-- C17. `addToFavorites` does not return true for a new recipe. With the
favorites of ids 1 and 2 and an empty store, `addToFavorites` of a recipe of
id 3 throws a `TypeError`, because the binding `STORAGE_KEYS` is `undefined`,
and nothing is persisted; `removeFromFavorites(7)`, of an id that is not in
the list, throws in the same way. Adding the recipe of id 2, which is in the
list, returns false and leaves list and store as they were. -/
theorem addToFavorites_new_recipe_throws :
    STORAGE_KEYS = none ∧
    (addToFavorites RefHost.host "t1" favoritesSample (cardSample 3)).1
      = Except.error "TypeError: Cannot read properties of undefined (reading 'favorites')" ∧
    (addToFavorites RefHost.host "t1" favoritesSample (cardSample 3)).2.store = emptyStore ∧
    ((addToFavorites RefHost.host "t1" favoritesSample (cardSample 3)).2.favorites.map
      (fun fav => fav.id)) = [1, 2, 3] ∧
    (removeFromFavorites RefHost.host favoritesSample 7).1
      = Except.error "TypeError: Cannot read properties of undefined (reading 'favorites')" ∧
    (addToFavorites RefHost.host "t1" favoritesSample (cardSample 2)).1 = Except.ok false ∧
    ((addToFavorites RefHost.host "t1" favoritesSample (cardSample 2)).2.favorites.map
      (fun fav => fav.id)) = [1, 2] ∧
    (addToFavorites RefHost.host "t1" favoritesSample (cardSample 2)).2.store = emptyStore :=
  ⟨by decide, by rfl, by rfl, by rfl, by rfl, by rfl, by rfl, by rfl⟩

/-! ## Authentication state -/

theorem truthy_mock_token (now : Int) :
    (JSValue.str ("mock-jwt-token-" ++ numberText now)).truthy = true := by
  have h : ("mock-jwt-token-" ++ numberText now) ≠ "" := by
    intro h0
    have := congrArg String.length h0
    simp only [String.length_append, String.length_empty] at this
    have hlen : "mock-jwt-token-".length = 15 := by decide
    omega
  simp [JSValue.truthy, h]

theorem AuthOp.run_keeps_token_iff (H : Host) (K : AuthKeys) (w : AuthState × LocalStorage)
    (op : AuthOp) (hw : w.1.token.truthy = w.1.isAuthenticated) :
    (op.run H K w).1.token.truthy = (op.run H K w).1.isAuthenticated := by
  cases op with
  | initAuth =>
    simp only [AuthOp.run, AuthProvider.initAuth]
    split
    · rename_i h
      simp only [Bool.and_eq_true] at h
      simp [h.1]
    · exact hw
  | login now credentials =>
    simp only [AuthOp.run, AuthProvider.login]
    split
    · exact hw
    · exact truthy_mock_token now
  | register encodeName now userData =>
    simp only [AuthOp.run, AuthProvider.register]
    split
    · exact hw
    · split
      · exact hw
      · exact truthy_mock_token now
  | logout => simp [AuthOp.run, AuthProvider.logout, JSValue.truthy]
  | updateProfile updates => exact hw
  | changePassword currentPassword =>
    simp only [AuthOp.run, AuthProvider.changePassword]
    split <;> exact hw
  | validateToken =>
    simp only [AuthOp.run, AuthProvider.validateToken]
    split <;> exact hw

/-- C20. In every state of the provider reachable from its first render by
completed `initAuth`, `login`, `register`, `logout`, `updateProfile`,
`changePassword` and `validateToken` operations, the token is non-empty
(truthy) if and only if `isAuthenticated` is true. -/
theorem token_iff_authenticated (H : Host) (K : AuthKeys) (w : AuthState × LocalStorage)
    (hreach : AuthReachable H K w) :
    w.1.token.truthy = true ↔ w.1.isAuthenticated = true := by
  have h : w.1.token.truthy = w.1.isAuthenticated := by
    induction hreach with
    | start ls => rfl
    | step w op _ ih => exact AuthOp.run_keeps_token_iff H K w op ih
    | outside st ls ls2 _ ih => exact ih
  rw [h]

/-- Witness for C20: after `initAuth`, a login at time 1700 and a profile
update on the empty store, the provider holds a token and is authenticated;
after a logout it holds none and is not. -/
theorem token_iff_authenticated_witness :
    ((((AuthOp.updateProfile (JSValue.obj [("bio", JSValue.str "cook")])).run RefHost.host
        importedAuthKeys
        ((AuthOp.login 1700 (JSValue.obj [("email", JSValue.str "a@b.c")])).run RefHost.host
          importedAuthKeys
          (AuthOp.initAuth.run RefHost.host importedAuthKeys
            (AuthProvider.init, emptyStore)))).1.token.truthy = true) ↔
      (((AuthOp.updateProfile (JSValue.obj [("bio", JSValue.str "cook")])).run RefHost.host
        importedAuthKeys
        ((AuthOp.login 1700 (JSValue.obj [("email", JSValue.str "a@b.c")])).run RefHost.host
          importedAuthKeys
          (AuthOp.initAuth.run RefHost.host importedAuthKeys
            (AuthProvider.init, emptyStore)))).1.isAuthenticated = true)) ∧
    ((AuthOp.login 1700 (JSValue.obj [("email", JSValue.str "a@b.c")])).run RefHost.host
      importedAuthKeys (AuthProvider.init, emptyStore)).1.isAuthenticated = true :=
  ⟨token_iff_authenticated RefHost.host importedAuthKeys _
    (AuthReachable.step _ _ (AuthReachable.step _ _ (AuthReachable.step _ _
      (AuthReachable.start emptyStore)))),
   by rfl⟩

/-! ## Storage: reading -/

/-- C22. `StorageService.get(key, d)` is a total function of the store, which
it does not change: it returns `d` when the store is unavailable or the key is
absent, the parsed value when the stored string is valid JSON, and the stored
string itself when it is not. -/
theorem get_cases (svc : StorageService) (H : Host) (ls : LocalStorage) (key : String)
    (d : JSValue) :
    (svc.isSupported = false → svc.get H ls key d = d) ∧
    (ls.getItem key = none → svc.get H ls key d = d) ∧
    (∀ item parsed, svc.isSupported = true → ls.getItem key = some item →
      H.jsonParse item = some parsed → svc.get H ls key d = parsed) ∧
    (∀ item, svc.isSupported = true → ls.getItem key = some item →
      H.jsonParse item = none → svc.get H ls key d = JSValue.str item) := by
  refine ⟨?_, ?_, ?_, ?_⟩
  · intro h
    simp [StorageService.get, h]
  · intro h
    simp [StorageService.get, h]
  · intro item parsed hs hi hp
    simp [StorageService.get, hs, hi, hp]
  · intro item hs hi hp
    simp [StorageService.get, hs, hi, hp]

/-- Witness for C22: the raw string `hello` is not JSON and is read back as it
is; the raw string `[1,2]` is read back as an array. -/
theorem get_cases_witness :
    liveService.get RefHost.host { emptyStore with entries := [("a", "hello"), ("b", "[1,2]")] }
      "a" JSValue.null = JSValue.str "hello" ∧
    liveService.get RefHost.host { emptyStore with entries := [("a", "hello"), ("b", "[1,2]")] }
      "b" JSValue.null = JSValue.arr [JSValue.num 1, JSValue.num 2] :=
  ⟨(get_cases liveService RefHost.host
      { emptyStore with entries := [("a", "hello"), ("b", "[1,2]")] } "a" JSValue.null).2.2.2
      "hello" rfl rfl rfl,
   (get_cases liveService RefHost.host
      { emptyStore with entries := [("a", "hello"), ("b", "[1,2]")] } "b" JSValue.null).2.2.1
      "[1,2]" _ rfl rfl rfl⟩

/-! ## Storage: restore of a text that is not JSON -/

/-- C24. For every string `s` that is not valid JSON and for both values of
`clearFirst`, `restore(s, clearFirst)` returns false and leaves the store as it
was. -/
theorem restore_invalid_json (svc : StorageService) (H : Host) (now : Int) (ls : LocalStorage)
    (s : String) (clearFirst : Bool) (hs : H.jsonParse s = none) :
    svc.restore H now ls s clearFirst = (false, ls) := by
  unfold StorageService.restore
  split
  · rfl
  · simp [hs]

/-- Witness for C24: the text `not json` restored with `clearFirst` on a store
of two entries. -/
theorem restore_invalid_json_witness :
    liveService.restore RefHost.host 0
      { emptyStore with entries := [("a", "hello"), ("b", "[1,2]")] } "not json" true
      = (false, { emptyStore with entries := [("a", "hello"), ("b", "[1,2]")] }) :=
  restore_invalid_json liveService RefHost.host 0 _ "not json" true rfl

/-! ## Storage: namespaces -/

theorem LocalStorage.mem_keys_of_getItem {ls : LocalStorage} {key value : String}
    (h : ls.getItem key = some value) : key ∈ ls.keys := by
  simp only [LocalStorage.getItem, Option.map_eq_some'] at h
  obtain ⟨e, he, _⟩ := h
  have hmem := List.mem_of_find?_eq_some he
  have hkey := List.find?_some he
  simp only [decide_eq_true_eq] at hkey
  simp only [LocalStorage.keys, List.mem_map]
  exact ⟨e, hmem, hkey⟩

theorem NamespaceView.startsWith_pre (pre key : String) :
    NamespaceView.startsWith (pre ++ key) pre = true := by
  simp [NamespaceView.startsWith, String.data_append]

theorem NamespaceView.stripPre_pre (pre key : String) :
    NamespaceView.stripPre (pre ++ key) pre = key := by
  simp [NamespaceView.stripPre, String.data_append]

/-- C25. For every namespace name `n` and key `k`, the view of `namespace(n)`
reads, writes, removes and tests the underlying key `n + '_' + k`; its `keys()`
are the underlying keys that start with `n + '_'`, with that prefix removed;
and after a successful `view.set(k, v)` the list `view.keys()` contains `k` and
`view.get(k)` equals the underlying `get(n + '_' + k)`. -/
theorem namespace_view (svc : StorageService) (H : Host) (now : Int) (ls : LocalStorage)
    (n k : String) (v d : JSValue) :
    ((svc.namespace n).get H ls k d = svc.get H ls (n ++ "_" ++ k) d ∧
      (svc.namespace n).set H now ls k v = svc.set H now ls (n ++ "_" ++ k) v ∧
      (svc.namespace n).remove ls k = svc.remove ls (n ++ "_" ++ k) ∧
      (svc.namespace n).exists ls k = svc.exists ls (n ++ "_" ++ k)) ∧
    (∀ key, key ∈ (svc.namespace n).keys ls ↔
      ∃ full ∈ svc.keys ls, (n ++ "_").data <+: full.data ∧
        key = String.mk (full.data.drop (n ++ "_").data.length)) ∧
    (((svc.namespace n).set H now ls k v).1 = true →
      k ∈ (svc.namespace n).keys ((svc.namespace n).set H now ls k v).2 ∧
      (svc.namespace n).get H ((svc.namespace n).set H now ls k v).2 k d
        = svc.get H ((svc.namespace n).set H now ls k v).2 (n ++ "_" ++ k) d) := by
  refine ⟨⟨rfl, rfl, rfl, rfl⟩, ?_, ?_⟩
  · intro key
    simp only [NamespaceView.keys, StorageService.namespace, NamespaceView.pre, List.mem_map,
      List.mem_filter, NamespaceView.startsWith, List.isPrefixOf_iff_prefix,
      NamespaceView.stripPre]
    constructor
    · rintro ⟨full, ⟨h1, h2⟩, h3⟩
      exact ⟨full, h1, h2, h3.symm⟩
    · rintro ⟨full, h1, h2, h3⟩
      exact ⟨full, ⟨h1, h2⟩, h3.symm⟩
  · intro hset
    refine ⟨?_, rfl⟩
    have hpair : (svc.namespace n).set H now ls k v
        = (true, ((svc.namespace n).set H now ls k v).2) := by
      rw [← hset]
    obtain ⟨hsup, hitem⟩ := StorageService.set_true
      (show svc.set H now ls (n ++ "_" ++ k) v = (true, _) from hpair)
    have hmem := LocalStorage.mem_keys_of_getItem hitem
    simp only [NamespaceView.keys, StorageService.namespace, NamespaceView.pre, List.mem_map,
      List.mem_filter, StorageService.keys, hsup, Bool.not_true, Bool.false_eq_true, if_false]
    exact ⟨n ++ "_" ++ k, ⟨hmem, NamespaceView.startsWith_pre _ _⟩,
      NamespaceView.stripPre_pre _ _⟩

/-- Witness for C25: the view `app` writes `theme` under `app_theme` and lists
it as `theme`. -/
theorem namespace_view_witness :
    "theme" ∈ (liveService.namespace "app").keys
      ((liveService.namespace "app").set RefHost.host 0 emptyStore "theme"
        (JSValue.str "dark")).2 ∧
    (liveService.namespace "app").get RefHost.host
      ((liveService.namespace "app").set RefHost.host 0 emptyStore "theme"
        (JSValue.str "dark")).2 "theme" JSValue.null
      = liveService.get RefHost.host
          ((liveService.namespace "app").set RefHost.host 0 emptyStore "theme"
            (JSValue.str "dark")).2 ("app" ++ "_" ++ "theme") JSValue.null :=
  (namespace_view liveService RefHost.host 0 emptyStore "app" "theme" (JSValue.str "dark")
    JSValue.null).2.2 (by rfl)

/-! ## Storage: purge of expired entries -/

theorem LocalStorage.getItem_removeItem_other (ls : LocalStorage) (key other : String)
    (h : other ≠ key) : (ls.removeItem key).getItem other = ls.getItem other := by
  simp only [LocalStorage.getItem, LocalStorage.removeItem]
  congr 1
  induction ls.entries with
  | nil => rfl
  | cons e rest ih =>
    obtain ⟨k0, v0⟩ := e
    by_cases hk : k0 = key
    · subst hk
      have ho : ¬ k0 = other := fun h2 => h h2.symm
      simpa [List.filter_cons, List.find?_cons, ho] using ih
    · by_cases ho : k0 = other
      · subst ho
        simp [List.filter_cons, hk, List.find?_cons]
      · simpa [List.filter_cons, hk, List.find?_cons, ho] using ih

theorem StorageService.get_removeItem_other (svc : StorageService) (H : Host)
    (ls : LocalStorage) (key other : String) (d : JSValue) (h : other ≠ key) :
    svc.get H (ls.removeItem key) other d = svc.get H ls other d := by
  simp only [StorageService.get, LocalStorage.getItem_removeItem_other ls key other h]

theorem StorageService.clearExpiredLoop_spec (svc : StorageService) (H : Host) (now : Int)
    (hsup : svc.isSupported = true) (ks : List String) :
    ∀ (n : Nat) (cur : LocalStorage), ks.Nodup →
      svc.clearExpiredLoop H now ks (n, cur) =
        (n + (ks.filter
            (fun k => StorageService.isExpiredItem H now (svc.get H cur k JSValue.null))).length,
          { cur with entries := cur.entries.filter (fun e =>
              !(decide (e.1 ∈ ks) &&
                StorageService.isExpiredItem H now (svc.get H cur e.1 JSValue.null))) }) := by
  induction ks with
  | nil =>
    intro n cur _
    simp [StorageService.clearExpiredLoop]
  | cons k rest ih =>
    intro n cur hnodup
    obtain ⟨hk, hrest⟩ := List.nodup_cons.mp hnodup
    unfold StorageService.clearExpiredLoop
    by_cases hexp : StorageService.isExpiredItem H now (svc.get H cur k JSValue.null) = true
    · simp only [hexp, if_true]
      rw [ih (n + 1) (svc.remove cur k).2 hrest]
      have hrem : (svc.remove cur k).2 = cur.removeItem k := by
        simp [StorageService.remove, hsup]
      rw [hrem]
      have hget : ∀ other, other ≠ k →
          svc.get H (cur.removeItem k) other JSValue.null = svc.get H cur other JSValue.null :=
        fun other ho => StorageService.get_removeItem_other svc H cur k other _ ho
      have hcount : rest.filter (fun k2 => StorageService.isExpiredItem H now
            (svc.get H (cur.removeItem k) k2 JSValue.null))
          = rest.filter (fun k2 => StorageService.isExpiredItem H now
            (svc.get H cur k2 JSValue.null)) := by
        apply List.filter_congr
        intro k2 hk2
        rw [hget k2 (fun h => hk (h ▸ hk2))]
      rw [hcount]
      refine Prod.ext ?_ ?_
      · simp only [List.filter_cons, hexp, if_true, List.length_cons]
        omega
      · simp only [LocalStorage.removeItem, List.filter_filter]
        congr 1
        apply List.filter_congr
        intro e _
        by_cases hek : e.1 = k
        · simp [hek, hexp]
        · have := hget e.1 hek
          simp only [LocalStorage.removeItem, ne_eq, decide_not] at this
          simp [hek, this]
    · have hfalse : StorageService.isExpiredItem H now (svc.get H cur k JSValue.null)
          = false := by simpa using hexp
      simp only [hfalse, Bool.false_eq_true, if_false]
      rw [ih n cur hrest, Prod.mk.injEq]
      refine ⟨?_, ?_⟩
      · simp only [List.filter_cons, hfalse, Bool.false_eq_true, if_false]
      · congr 1
        apply List.filter_congr
        intro e _
        by_cases hek : e.1 = k
        · simp [hek, hfalse]
        · simp [hek]

theorem StorageService.clearExpired_spec (svc : StorageService) (H : Host) (now : Int)
    (ls : LocalStorage) (hsup : svc.isSupported = true) (hnodup : ls.keys.Nodup) :
    svc.clearExpired H now ls =
      ((ls.entries.filter (fun e =>
          StorageService.isExpiredItem H now (svc.get H ls e.1 JSValue.null))).length,
        { ls with entries := ls.entries.filter (fun e =>
            !StorageService.isExpiredItem H now (svc.get H ls e.1 JSValue.null)) }) := by
  unfold StorageService.clearExpired
  simp only [hsup, Bool.not_true, Bool.false_eq_true, if_false, StorageService.keys]
  rw [StorageService.clearExpiredLoop_spec svc H now hsup ls.keys 0 ls hnodup, Prod.mk.injEq]
  refine ⟨?_, ?_⟩
  · simp only [LocalStorage.keys, List.filter_map, List.length_map, Nat.zero_add]
    rfl
  · congr 1
    apply List.filter_congr
    intro e he
    have : e.1 ∈ ls.keys := List.mem_map.mpr ⟨e, he, rfl⟩
    simp [this]

theorem List.length_filter_add_filter_not {α : Type} (p : α → Bool) (l : List α) :
    (l.filter p).length + (l.filter (fun a => !p a)).length = l.length := by
  induction l with
  | nil => rfl
  | cons a rest ih =>
    cases h : p a <;> simp [List.filter_cons, h] <;> omega

/-- C27 (as amended). On an available store `clearExpired` removes exactly the
entries that `get` reads as an object with a truthy `expiry` that the current
time exceeds, whoever wrote them; it leaves every other entry, the order and
the rest of the store unchanged and returns the number of entries removed. An
entry written by `setWithExpiry` with a non-zero expiry time `t0 + ttl` is of
that kind exactly when `now > t0 + ttl`. -/
theorem clearExpired_exact (svc : StorageService) (H : Host) (now : Int) (ls : LocalStorage)
    (hsup : svc.isSupported = true) (hnodup : ls.keys.Nodup) :
    (svc.clearExpired H now ls).2.entries
      = ls.entries.filter (fun e =>
          !StorageService.isExpiredItem H now (svc.get H ls e.1 JSValue.null)) ∧
    (svc.clearExpired H now ls).1 + (svc.clearExpired H now ls).2.entries.length
      = ls.entries.length ∧
    (svc.clearExpired H now ls).2.quota = ls.quota ∧
    (svc.clearExpired H now ls).2.readOnly = ls.readOnly ∧
    (∀ (k : String) (v : JSValue) (t0 ttl : Int),
      ls.getItem k = some (StorageService.serialize H
        (JSValue.obj [("value", v), ("expiry", JSValue.num (t0 + ttl))])) →
      H.RoundTrips (JSValue.obj [("value", v), ("expiry", JSValue.num (t0 + ttl))]) →
      t0 + ttl ≠ 0 →
      StorageService.isExpiredItem H now (svc.get H ls k JSValue.null)
        = decide (now > t0 + ttl)) := by
  rw [StorageService.clearExpired_spec svc H now ls hsup hnodup]
  refine ⟨rfl, ?_, rfl, rfl, ?_⟩
  · exact List.length_filter_add_filter_not _ _
  · intro k v t0 ttl hitem hround hne
    obtain ⟨text, h1, h2⟩ := hround
    have hget : svc.get H ls k JSValue.null
        = JSValue.obj [("value", v), ("expiry", JSValue.num (t0 + ttl))] := by
      simp [StorageService.get, hsup, hitem, StorageService.serialize, h1, h2]
    rw [hget]
    simp [StorageService.isExpiredItem, JSValue.truthy, JSValue.isObject, JSValue.getProp,
      JSValue.lookupField, hne, jsGreater]

/-- Witness for C27: the entry of `smallStore`, written by `setWithExpiry` at
time 0 with a ttl of 1000 ms, is kept at time 500 and removed at time 2000. -/
theorem clearExpired_exact_witness :
    (liveService.clearExpired RefHost.host 500 smallStore).2.entries = smallStore.entries ∧
    (liveService.clearExpired RefHost.host 2000 smallStore).2.entries = [] ∧
    (liveService.clearExpired RefHost.host 2000 smallStore).1 = 1 :=
  ⟨(clearExpired_exact liveService RefHost.host 500 smallStore rfl (by decide)).1.trans (by rfl),
   (clearExpired_exact liveService RefHost.host 2000 smallStore rfl (by decide)).1.trans
     (by rfl),
   by rfl⟩

/-- C27 fails as stated: an entry written by plain `set`, an object with a
property `expiry` of 5, is removed by `clearExpired` at time 10. -/
theorem clearExpired_exact_counterexample :
    couponStore.keys = ["coupon"] ∧
    (liveService.clearExpired RefHost.host 10 couponStore).1 = 1 ∧
    (liveService.clearExpired RefHost.host 10 couponStore).2.entries = [] :=
  ⟨by rfl, by rfl, by rfl⟩

/-! ## Storage: writing when the quota is exceeded -/

/-- C23. On an available store `set(k, v)` returns true when the first write
succeeds. When the first write fails with a quota error, the store is first
purged by `clearExpired` (which removes the entries that carry a truthy
`expiry` that the current time exceeds), the write is tried once more on the
purged store, and the result is true exactly when that retry succeeds. On any
other failure of the first write it returns false and the store is left as it
was. -/
theorem set_quota_retry (svc : StorageService) (H : Host) (now : Int) (ls : LocalStorage)
    (k : String) (v : JSValue) (hsup : svc.isSupported = true) :
    (∀ written, ls.setItem k (StorageService.serialize H v) = Except.ok written →
      svc.set H now ls k v = (true, written)) ∧
    (ls.setItem k (StorageService.serialize H v) = Except.error StorageError.quotaExceeded →
      (ls.keys.Nodup →
        (svc.clearExpired H now ls).2.entries = ls.entries.filter (fun e =>
          !StorageService.isExpiredItem H now (svc.get H ls e.1 JSValue.null))) ∧
      (∀ written, (svc.clearExpired H now ls).2.setItem k (StorageService.serialize H v)
          = Except.ok written → svc.set H now ls k v = (true, written)) ∧
      (∀ e, (svc.clearExpired H now ls).2.setItem k (StorageService.serialize H v)
          = Except.error e → svc.set H now ls k v = (false, (svc.clearExpired H now ls).2))) ∧
    (ls.setItem k (StorageService.serialize H v) = Except.error StorageError.other →
      svc.set H now ls k v = (false, ls)) := by
  refine ⟨?_, ?_, ?_⟩
  · intro written h
    simp [StorageService.set, hsup, h]
  · intro h
    refine ⟨?_, ?_, ?_⟩
    · intro hnodup
      rw [StorageService.clearExpired_spec svc H now ls hsup hnodup]
    · intro written h2
      simp [StorageService.set, hsup, h, h2]
    · intro e h2
      simp [StorageService.set, hsup, h, h2]
  · intro h
    simp [StorageService.set, hsup, h]

/-- Witness for C23: `smallStore` has room for 40 characters and holds an entry
of 28 that expired at time 1000. At time 2000 a write of 21 characters first
fails on the quota, the expired entry is purged and the retry succeeds. -/
theorem set_quota_retry_witness :
    smallStore.setItem "a" "twenty characters..." = Except.error StorageError.quotaExceeded ∧
    (liveService.set RefHost.host 2000 smallStore "a" (JSValue.str "twenty characters...")).1
      = true ∧
    (liveService.set RefHost.host 2000 smallStore "a"
      (JSValue.str "twenty characters...")).2.entries = [("a", "twenty characters...")] :=
  ⟨by rfl,
   congrArg Prod.fst
     (((set_quota_retry liveService RefHost.host 2000 smallStore "a"
        (JSValue.str "twenty characters...") rfl).2.1 (by rfl)).2.1
        { entries := [("a", "twenty characters...")], quota := 40, readOnly := false } (by rfl)),
   by rfl⟩

/-! ## Storage: backup and restore -/

theorem StorageService.get_eq_decodeItem (svc : StorageService) (H : Host) (ls : LocalStorage)
    (key : String) (d : JSValue) (hsup : svc.isSupported = true) :
    svc.get H ls key d =
      match ls.getItem key with
      | none => d
      | some text => decodeItem H text := by
  simp only [StorageService.get, hsup, Bool.not_true, Bool.false_eq_true, if_false, decodeItem]

theorem find_of_mem_nodup (entries : List (String × String))
    (hnodup : (entries.map (fun e => e.1)).Nodup) (e : String × String) (he : e ∈ entries) :
    entries.find? (fun x => decide (x.1 = e.1)) = some e := by
  induction entries with
  | nil => cases he
  | cons a rest ih =>
    rw [List.map_cons, List.nodup_cons] at hnodup
    rcases List.mem_cons.mp he with h | h
    · subst h
      simp
    · have hne : ¬ a.1 = e.1 := by
        intro heq
        exact hnodup.1 (heq ▸ List.mem_map.mpr ⟨e, h, rfl⟩)
      simp only [List.find?_cons, hne, decide_False]
      exact ih hnodup.2 h

theorem LocalStorage.getItem_of_mem (ls : LocalStorage) (hnodup : ls.keys.Nodup)
    (e : String × String) (he : e ∈ ls.entries) : ls.getItem e.1 = some e.2 := by
  simp only [LocalStorage.getItem, find_of_mem_nodup ls.entries hnodup e he, Option.map_some']

theorem objSet_of_not_mem {β : Type} (key : String) (value : β) (object : List (String × β))
    (h : ∀ e ∈ object, e.1 ≠ key) : objSet key value object = object ++ [(key, value)] := by
  induction object with
  | nil => rfl
  | cons e rest ih =>
    obtain ⟨k, v⟩ := e
    have hk : ¬ k = key := h (k, v) (List.mem_cons_self _ _)
    simp only [objSet, hk, if_false, List.cons_append]
    rw [ih (fun e he => h e (List.mem_cons_of_mem _ he))]

theorem LocalStorage.put_of_not_mem (key value : String) (entries : List (String × String))
    (h : ∀ e ∈ entries, e.1 ≠ key) :
    LocalStorage.put key value entries = entries ++ [(key, value)] := by
  induction entries with
  | nil => rfl
  | cons e rest ih =>
    obtain ⟨k, v⟩ := e
    have hk : ¬ k = key := h (k, v) (List.mem_cons_self _ _)
    simp only [LocalStorage.put, hk, if_false, List.cons_append]
    rw [ih (fun e he => h e (List.mem_cons_of_mem _ he))]

theorem LocalStorage.used_append (a b : List (String × String)) :
    LocalStorage.used (a ++ b) = LocalStorage.used a + LocalStorage.used b := by
  simp [LocalStorage.used]

theorem foldl_assignProp (get : String → JSValue) (ks : List String) :
    ∀ acc : List (String × JSValue), ks.Nodup → "__proto__" ∉ ks →
      (∀ e ∈ acc, e.1 ∉ ks) →
      ks.foldl (fun acc key => assignProp key (get key) acc) acc
        = acc ++ ks.map (fun key => (key, get key)) := by
  induction ks with
  | nil => intro acc _ _ _; simp
  | cons k rest ih =>
    intro acc hnodup hproto hacc
    obtain ⟨hk, hrest⟩ := List.nodup_cons.mp hnodup
    have hkp : k ≠ "__proto__" := fun h => hproto (h ▸ List.mem_cons_self _ _)
    have hstep : assignProp k (get k) acc = acc ++ [(k, get k)] := by
      simp only [assignProp, hkp, if_false]
      exact objSet_of_not_mem _ _ _ (fun e he h => hacc e he (h ▸ List.mem_cons_self _ _))
    simp only [List.foldl_cons, hstep]
    rw [ih (acc ++ [(k, get k)]) hrest (fun h => hproto (List.mem_cons_of_mem _ h))]
    · simp
    · intro e he
      rcases List.mem_append.mp he with h | h
      · exact fun hm => hacc e h (List.mem_cons_of_mem _ hm)
      · simp only [List.mem_singleton] at h
        subst h
        exact hk

theorem StorageService.backupObject_eq (svc : StorageService) (H : Host) (ls : LocalStorage)
    (hsup : svc.isSupported = true) (hnodup : ls.keys.Nodup) (hproto : "__proto__" ∉ ls.keys) :
    svc.backupObject H ls = ls.entries.map (fun e => (e.1, decodeItem H e.2)) := by
  unfold StorageService.backupObject
  simp only [StorageService.keys, hsup, Bool.not_true, Bool.false_eq_true, if_false]
  rw [foldl_assignProp _ ls.keys [] hnodup hproto (fun e he => by cases he)]
  simp only [List.nil_append, LocalStorage.keys, List.map_map]
  apply List.map_congr_left
  intro e he
  simp only [Function.comp]
  rw [StorageService.get_eq_decodeItem svc H ls e.1 _ hsup,
    LocalStorage.getItem_of_mem ls hnodup e he]

theorem StorageService.restoreLoop_appends (svc : StorageService) (H : Host) (now : Int)
    (hsup : svc.isSupported = true) (es : List (String × JSValue)) :
    ∀ cur : LocalStorage, cur.readOnly = false → (es.map (fun e => e.1)).Nodup →
      (∀ e ∈ es, e.1 ∉ cur.keys) →
      LocalStorage.used
        (cur.entries ++ es.map (fun e => (e.1, StorageService.serialize H e.2))) ≤ cur.quota →
      svc.restoreLoop H now es cur =
        { cur with entries :=
            cur.entries ++ es.map (fun e => (e.1, StorageService.serialize H e.2)) } := by
  induction es with
  | nil => intro cur _ _ _ _; simp [StorageService.restoreLoop]
  | cons e rest ih =>
    intro cur hw hnodup hfresh hroom
    obtain ⟨k, v⟩ := e
    rw [List.map_cons, List.nodup_cons] at hnodup
    have hk : ∀ x ∈ cur.entries, x.1 ≠ k := by
      intro x hx heq
      exact hfresh (k, v) (List.mem_cons_self _ _) (List.mem_map.mpr ⟨x, hx, heq⟩)
    have hput := LocalStorage.put_of_not_mem k (StorageService.serialize H v) cur.entries hk
    have hfit : ¬ LocalStorage.used (cur.entries ++ [(k, StorageService.serialize H v)])
        > cur.quota := by
      simp only [List.map_cons, LocalStorage.used_append] at hroom ⊢
      simp only [LocalStorage.used, List.map_cons, List.sum_cons, List.map_nil, List.sum_nil]
        at hroom ⊢
      omega
    have hset : svc.set H now cur k v
        = (true, { cur with entries := cur.entries ++ [(k, StorageService.serialize H v)] }) := by
      simp [StorageService.set, hsup, LocalStorage.setItem, hw, hput, hfit]
    simp only [StorageService.restoreLoop, hset]
    rw [ih { cur with entries := cur.entries ++ [(k, StorageService.serialize H v)] } hw
      hnodup.2]
    · simp
    · intro x hx hmem
      simp only [LocalStorage.keys, List.map_append, List.map_cons, List.map_nil,
        List.mem_append, List.mem_singleton] at hmem
      rcases hmem with h | h
      · exact hfresh x (List.mem_cons_of_mem _ hx) h
      · exact hnodup.1 (h ▸ List.mem_map.mpr ⟨x, hx, rfl⟩)
    · simpa using hroom

theorem find_map_value {β γ : Type} (g : β → γ) (key : String) (l : List (String × β)) :
    (l.map (fun e => (e.1, g e.2))).find? (fun e => decide (e.1 = key))
      = (l.find? (fun e => decide (e.1 = key))).map (fun e => (e.1, g e.2)) := by
  induction l with
  | nil => rfl
  | cons a rest ih =>
    by_cases h : a.1 = key <;> simp [List.find?_cons, h, ih]

theorem Host.decode_serialize (H : Host) (v : JSValue) (h : H.Stable v) :
    decodeItem H (StorageService.serialize H v) = v := by
  cases v with
  | str s =>
    simp only [Host.Stable] at h
    simp [StorageService.serialize, decodeItem, h]
  | undefined =>
    obtain ⟨text, h1, h2⟩ := h
    simp [StorageService.serialize, decodeItem, h1, h2]
  | null =>
    obtain ⟨text, h1, h2⟩ := h
    simp [StorageService.serialize, decodeItem, h1, h2]
  | bool b =>
    obtain ⟨text, h1, h2⟩ := h
    simp [StorageService.serialize, decodeItem, h1, h2]
  | num n =>
    obtain ⟨text, h1, h2⟩ := h
    simp [StorageService.serialize, decodeItem, h1, h2]
  | arr xs =>
    obtain ⟨text, h1, h2⟩ := h
    simp [StorageService.serialize, decodeItem, h1, h2]
  | obj fields =>
    obtain ⟨text, h1, h2⟩ := h
    simp [StorageService.serialize, decodeItem, h1, h2]

/-- C29 (as amended). Let `S` be a writable store of an available service in
which no key is `__proto__`, every value that `get` reads is read back
unchanged after a `set` (it is not a string that is itself JSON text), the host
round-trips the backup object and the re-serialised entries fit into the
quota. Then `restore(backup(), true)` returns true and leaves a store with the
keys of `S`, in which `get(k, d)` returns for every key `k` the value it
returned in `S`. -/
theorem backup_restore_roundtrip (svc : StorageService) (H : Host) (now : Int)
    (ls : LocalStorage) (hsup : svc.isSupported = true) (hnodup : ls.keys.Nodup)
    (hproto : "__proto__" ∉ ls.keys) (hwritable : ls.readOnly = false)
    (hround : H.RoundTrips (JSValue.obj (svc.backupObject H ls)))
    (hstable : ∀ e ∈ ls.entries, H.Stable (decodeItem H e.2))
    (hroom : LocalStorage.used
      (ls.entries.map (fun e => (e.1, StorageService.serialize H (decodeItem H e.2))))
      ≤ ls.quota) :
    (svc.restore H now ls (svc.backup H ls) true).1 = true ∧
    (svc.restore H now ls (svc.backup H ls) true).2.keys = ls.keys ∧
    ∀ (k : String) (d : JSValue),
      svc.get H (svc.restore H now ls (svc.backup H ls) true).2 k d = svc.get H ls k d := by
  obtain ⟨text, h1, h2⟩ := hround
  have hbackup : svc.backup H ls = text := by
    simp [StorageService.backup, hsup, h1]
  have hobj := StorageService.backupObject_eq svc H ls hsup hnodup hproto
  have hloop := StorageService.restoreLoop_appends svc H now hsup (svc.backupObject H ls)
    { ls with entries := [] } hwritable
    (by
      rw [hobj, List.map_map]
      exact hnodup)
    (by intro e _ hmem; simp [LocalStorage.keys] at hmem)
    (by
      rw [hobj, List.map_map]
      simpa [Function.comp] using hroom)
  have hrestore : svc.restore H now ls (svc.backup H ls) true
      = (true,
          { ls with
            entries := ls.entries.map
              (fun e => (e.1, StorageService.serialize H (decodeItem H e.2))) }) := by
    simp only [StorageService.restore, hsup, hbackup, h2, objectEntries, AuthProvider.isNullish,
      spreadFields, StorageService.clear, Bool.not_true, Bool.false_eq_true, if_false, if_true,
      hloop]
    rw [hobj, List.map_map]
    simp [Function.comp]
  rw [hrestore]
  refine ⟨rfl, ?_, ?_⟩
  · simp [LocalStorage.keys, List.map_map, Function.comp]
  · intro k d
    rw [StorageService.get_eq_decodeItem svc H _ k d hsup,
      StorageService.get_eq_decodeItem svc H ls k d hsup]
    simp only [LocalStorage.getItem]
    rw [find_map_value (fun t => StorageService.serialize H (decodeItem H t)) k ls.entries]
    cases hfind : ls.entries.find? (fun e => decide (e.1 = k)) with
    | none => rfl
    | some e =>
      simp only [Option.map_some']
      exact Host.decode_serialize H _ (hstable e (List.mem_of_find?_eq_some hfind))

/-- Witness for C29: the store after `set('n', 42)` and
`set('s', 'hello world')` is restored from its backup with the same keys and
values. -/
theorem backup_restore_roundtrip_witness :
    (liveService.restore RefHost.host 0 plainStore
      (liveService.backup RefHost.host plainStore) true).1 = true ∧
    (liveService.restore RefHost.host 0 plainStore
      (liveService.backup RefHost.host plainStore) true).2.keys = plainStore.keys ∧
    ∀ (k : String) (d : JSValue),
      liveService.get RefHost.host (liveService.restore RefHost.host 0 plainStore
        (liveService.backup RefHost.host plainStore) true).2 k d
        = liveService.get RefHost.host plainStore k d :=
  backup_restore_roundtrip liveService RefHost.host 0 plainStore rfl (by decide) (by decide) rfl
    ⟨_, rfl, rfl⟩
    (by
      intro e he
      have hentries : plainStore.entries = [("n", "42"), ("s", "hello world")] := by rfl
      rw [hentries] at he
      simp only [List.mem_cons, List.mem_singleton, List.not_mem_nil, or_false] at he
      rcases he with h | h
      · subst h
        exact (⟨_, rfl, rfl⟩ : RefHost.host.RoundTrips (JSValue.num 42))
      · subst h
        exact (rfl : RefHost.host.jsonParse "hello world" = none))
    (by decide)

/-- C29 fails as stated: after `set('k', '"123"')` the value read is the
string `123`; the backup holds that string, `restore` writes it unquoted, and
the value read after `restore(backup(), true)` is the number 123. -/
theorem backup_restore_roundtrip_counterexample :
    (liveService.restore RefHost.host 0 quotedStore
      (liveService.backup RefHost.host quotedStore) true).1 = true ∧
    liveService.get RefHost.host quotedStore "k" JSValue.null = JSValue.str "123" ∧
    liveService.get RefHost.host (liveService.restore RefHost.host 0 quotedStore
      (liveService.backup RefHost.host quotedStore) true).2 "k" JSValue.null = JSValue.num 123 ∧
    JSValue.num 123 ≠ JSValue.str "123" :=
  ⟨by rfl, by rfl, by rfl, by simp⟩

/-! ## Retry -/

theorem retryLoop_invocations_le {ρ : Type} (apiCall : Nat → Attempt ρ) (m : Nat) (delay : Int) :
    ∀ (fuel i : Nat) (waits : List Int) (last : Option ThrownError), i ≤ m + 1 →
      (retryLoop apiCall m delay fuel i waits last).invocations ≤ m + 1 := by
  intro fuel
  induction fuel with
  | zero => intro i waits last hi; simpa [retryLoop] using hi
  | succ fuel ih =>
    intro i waits last hi
    unfold retryLoop
    by_cases hle : (i : Int) ≤ (m : Int)
    · have hle2 : i ≤ m := by exact_mod_cast hle
      simp only [hle, if_true]
      cases apiCall i with
      | resolve result => simp only []; omega
      | reject error =>
        simp only []
        split
        · simp only []; omega
        · split
          · simp only []; omega
          · exact ih (i + 1) _ _ (by omega)
    · simp only [hle, if_false]
      exact hi

theorem waitsBefore_shift (delay : Int) (i d : Nat) :
    [delay * ((i : Int) + 1)]
        ++ (List.range d).map (fun t => delay * (((i + 1 + t : Nat) : Int) + 1))
      = (List.range (d + 1)).map (fun t => delay * (((i + t : Nat) : Int) + 1)) := by
  rw [List.range_succ_eq_map]
  simp only [List.map_cons, List.map_map, List.singleton_append, Nat.add_zero]
  congr 1
  apply List.map_congr_left
  intro t _
  simp only [Function.comp, Nat.succ_eq_add_one]
  congr 3
  omega

theorem retryLoop_stops {ρ : Type} (apiCall : Nat → Attempt ρ) (m : Nat) (delay : Int) (s : Nat)
    (hs : s ≤ m) (hbefore : ∀ j, j < s → (apiCall j).retryable = true)
    (hstop : (apiCall s).retryable = false ∨ s = m) :
    ∀ (d i : Nat) (waits : List Int) (last : Option ThrownError) (fuel : Nat),
      i + d = s → m + 1 ≤ i + fuel →
      retryLoop apiCall m delay fuel i waits last =
        { invocations := s + 1
          waits := waits ++ (List.range d).map (fun t => delay * (((i + t : Nat) : Int) + 1))
          outcome := (apiCall s).outcome } := by
  intro d
  induction d with
  | zero =>
    intro i waits last fuel hid hfuel
    have his : i = s := by omega
    subst his
    obtain ⟨f, rfl⟩ : ∃ f, fuel = f + 1 := ⟨fuel - 1, by omega⟩
    have hle : (i : Int) ≤ (m : Int) := by exact_mod_cast hs
    unfold retryLoop
    simp only [hle, if_true, List.range_zero, List.map_nil, List.append_nil]
    cases hcall : apiCall i with
    | resolve result => simp [Attempt.outcome]
    | reject error =>
      simp only [Attempt.outcome]
      by_cases hclient : (error.isAPIError && error.isClientError) = true
      · simp [hclient]
      · have hfalse : (error.isAPIError && error.isClientError) = false :=
          Bool.eq_false_iff.mpr hclient
        have hretry : (apiCall i).retryable = true := by
          simp only [hcall, Attempt.retryable, hfalse, Bool.not_false]
        have him : i = m := by
          rcases hstop with h | h
          · rw [hretry] at h; cases h
          · exact h
        simp [hclient, him]
  | succ d ih =>
    intro i waits last fuel hid hfuel
    have his : i < s := by omega
    obtain ⟨f, rfl⟩ : ∃ f, fuel = f + 1 := ⟨fuel - 1, by omega⟩
    have hle : (i : Int) ≤ (m : Int) := by exact_mod_cast (by omega : i ≤ m)
    have hne : ¬ ((i : Int) = (m : Int)) := by
      intro h
      have : i = m := by exact_mod_cast h
      omega
    have hretry := hbefore i his
    unfold retryLoop
    simp only [hle, if_true]
    cases hcall : apiCall i with
    | resolve result => rw [hcall] at hretry; simp [Attempt.retryable] at hretry
    | reject error =>
      rw [hcall] at hretry
      simp only [Attempt.retryable, Bool.not_eq_true'] at hretry
      simp only [hretry, Bool.false_eq_true, if_false, hne]
      rw [ih (i + 1) (waits ++ [delay * ((i : Int) + 1)]) (some error) f (by omega) (by omega)]
      rw [List.append_assoc, waitsBefore_shift]

theorem retry_stops {ρ : Type} (apiCall : Nat → Attempt ρ) (m : Nat) (delay : Int) (s : Nat)
    (hs : s ≤ m) (hbefore : ∀ j, j < s → (apiCall j).retryable = true)
    (hstop : (apiCall s).retryable = false ∨ s = m) :
    retry apiCall m delay =
      { invocations := s + 1, waits := waitsBefore delay s, outcome := (apiCall s).outcome } := by
  have hfuel : ((m : Int) + 1).toNat = m + 1 := by omega
  unfold retry
  rw [hfuel, retryLoop_stops apiCall m delay s hs hbefore hstop s 0 [] none (m + 1)
    (by omega) (by omega)]
  simp only [waitsBefore, List.nil_append, Nat.zero_add]

/-- C26 (amended). For every integer `maxRetries >= 0` and every `delay`,
`retry(apiCall, maxRetries, delay)` invokes `apiCall` at most `maxRetries + 1`
times; when the invocation number `s <= maxRetries` is the first that does not
fail with a retryable error, `retry` makes `s + 1` invocations, waits
`delay * (i + 1)` ms after each failed invocation `i < s`, and returns the
result of that invocation if it resolves, or rethrows its error at once if it
is an `APIError` with a status in 400..499; when every invocation fails with a
retryable error it makes exactly `maxRetries + 1` invocations, waits
`delay * (i + 1)` ms after the failed invocation `i` for each
`i < maxRetries` only (there is no wait after the last one), and throws the
last error. -/
theorem retry_contract {ρ : Type} (apiCall : Nat → Attempt ρ) (m : Nat) (delay : Int) :
    (retry apiCall m delay).invocations ≤ m + 1 ∧
    (∀ s result, s ≤ m → (∀ j, j < s → (apiCall j).retryable = true) →
      apiCall s = Attempt.resolve result →
      retry apiCall m delay =
        { invocations := s + 1, waits := waitsBefore delay s, outcome := Except.ok result }) ∧
    (∀ s error, s ≤ m → (∀ j, j < s → (apiCall j).retryable = true) →
      apiCall s = Attempt.reject error →
      error.isAPIError = true → error.isClientError = true →
      retry apiCall m delay =
        { invocations := s + 1, waits := waitsBefore delay s
          outcome := Except.error (some error) }) ∧
    ((∀ j, j ≤ m → (apiCall j).retryable = true) →
      ∃ error, apiCall m = Attempt.reject error ∧
        retry apiCall m delay =
          { invocations := m + 1, waits := waitsBefore delay m
            outcome := Except.error (some error) }) := by
  refine ⟨?_, ?_, ?_, ?_⟩
  · exact retryLoop_invocations_le apiCall m delay _ 0 [] none (by omega)
  · intro s result hs hbefore hcall
    rw [retry_stops apiCall m delay s hs hbefore (Or.inl (by rw [hcall]; rfl)), hcall]
    rfl
  · intro s error hs hbefore hcall hapi hclient
    rw [retry_stops apiCall m delay s hs hbefore
      (Or.inl (by rw [hcall]; simp [Attempt.retryable, hapi, hclient])), hcall]
    rfl
  · intro hall
    have hlast := hall m (Nat.le_refl m)
    cases hcall : apiCall m with
    | resolve result => rw [hcall] at hlast; simp [Attempt.retryable] at hlast
    | reject error =>
      refine ⟨error, rfl, ?_⟩
      rw [retry_stops apiCall m delay m (Nat.le_refl m)
        (fun j hj => hall j (Nat.le_of_lt hj)) (Or.inr rfl), hcall]
      rfl

/-- Witness for C26: with `maxRetries = 3` and `delay = 1000`, a call that
fails twice with status 500 and then resolves with 7 is invoked three times,
with waits of 1000 and 2000 ms; a call that always fails with status 503 is
invoked four times, with waits of 1000, 2000 and 3000 ms, and its error is
thrown. -/
theorem retry_contract_witness :
    retry (flakyCall 2) 3 1000 =
        { invocations := 3, waits := [1000, 2000], outcome := Except.ok 7 } ∧
    ∃ error, downCall 3 = Attempt.reject error ∧
      retry downCall 3 1000 =
        { invocations := 4, waits := [1000, 2000, 3000]
          outcome := Except.error (some error) } :=
  ⟨(retry_contract (flakyCall 2) 3 1000).2.1 2 7 (by decide)
      (fun j hj => by
        have h : j = 0 ∨ j = 1 := by omega
        rcases h with h | h <;> subst h <;> rfl) rfl,
    (retry_contract downCall 3 1000).2.2.2 (fun _ _ => rfl)⟩

/-- Counterexample for C26 as stated: no wait follows the last failed
attempt. With `maxRetries = 0` the only invocation fails and the error is
thrown with no wait at all, and with `maxRetries = 2` three invocations fail
and the waits are 1000 and 2000 ms only, none of 3000 ms. -/
theorem retry_contract_counterexample :
    (retry downCall 0 1000).invocations = 1 ∧
    (retry downCall 0 1000).waits = [] ∧
    (retry downCall 2 1000).invocations = 3 ∧
    (retry downCall 2 1000).waits = [1000, 2000] ∧
    (retry downCall 2 1000).outcome =
      Except.error (some { isAPIError := true, status := 503, message := "unavailable" }) :=
  ⟨by rfl, by rfl, by rfl, by rfl, by rfl⟩

/-! ## Password rule -/

theorem password_accepts_eight (value : String) (message : Option String)
    (hlen : 8 ≤ utf16Length value)
    (hlower : value.data.any (fun c => decide ('a'.toNat ≤ c.toNat ∧ c.toNat ≤ 'z'.toNat)) = true)
    (hupper : value.data.any (fun c => decide ('A'.toNat ≤ c.toNat ∧ c.toNat ≤ 'Z'.toNat)) = true)
    (hdigit : value.data.any (fun c => c.isDigit) = true) :
    password (some value) message = none := by
  have herrors : passwordErrors value = [] := by
    unfold passwordErrors
    rw [hlower, hupper, hdigit]
    simp only [Nat.not_lt.mpr hlen, if_false, Bool.not_true, Bool.false_eq_true,
      List.append_nil]
  unfold password present
  by_cases hempty : value = ""
  · simp only [hempty, if_true]
  · simp only [hempty, if_false, herrors, List.length_nil, gt_iff_lt, Nat.lt_irrefl]

/-- C28. The validator `password` does not enforce the rule documented in
`VALIDATION_RULES.password`: the password `Abc123` has the documented minimum
of 6 characters, an uppercase letter, a lowercase letter and a digit (it
passes the documented pattern), and the validator rejects it, asking for at
least 8 characters; the validator accepts `Abcd1234`. -/
theorem password_rejects_documented_minimum :
    validationRulesPasswordMinLength ≤ utf16Length "Abc123" ∧
    validationRulesPasswordPattern "Abc123" = true ∧
    password (some "Abc123") none = some "Password must contain at least 8 characters" ∧
    password (some "Abcd1234") none = none :=
  ⟨by decide, by decide, by rfl, by rfl⟩

/-! ## Preferences -/

theorem splitChars_ne_nil (separator : Char) (cs : List Char) :
    splitChars separator cs ≠ [] := by
  induction cs with
  | nil => simp [splitChars]
  | cons c rest ih =>
    unfold splitChars
    split
    · simp
    · split <;> simp

theorem pathKeys_ne_nil (path : String) : pathKeys path ≠ [] := by
  simp [pathKeys, splitChars_ne_nil]

theorem getPreferenceLoop_assignPath (d v : JSValue) :
    ∀ (keys : List String) (fields sub : List (String × JSValue)), keys ≠ [] →
      assignPath keys v fields = some sub →
      getPreferenceLoop d keys (JSValue.obj sub) = v := by
  intro keys
  induction keys with
  | nil => intro fields sub h; exact absurd rfl h
  | cons key rest ih =>
    intro fields sub _ hassign
    cases rest with
    | nil =>
      simp only [assignPath, Option.some.injEq] at hassign
      subst hassign
      simp only [getPreferenceLoop, stepInto, objGet_objSet_same]
    | cons next rest2 =>
      have hstep : ∀ inner start, assignPath (next :: rest2) v start = some inner →
          getPreferenceLoop d (key :: next :: rest2)
            (JSValue.obj (objSet key (JSValue.obj inner) fields)) = v := by
        intro inner start hinner
        simp only [getPreferenceLoop, stepInto, objGet_objSet_same]
        exact ih start inner (by simp) hinner
      unfold assignPath at hassign
      split at hassign
      · simp only [Option.map_eq_some'] at hassign
        obtain ⟨inner, hinner, rfl⟩ := hassign
        exact hstep inner _ hinner
      · split at hassign
        · simp only [Option.map_eq_some'] at hassign
          obtain ⟨inner, hinner, rfl⟩ := hassign
          exact hstep inner _ hinner
        · cases hassign

/-- After `updatePreference(path, value)` the new state reads `value` at
`path`, whatever the default. -/
theorem updatePreference_then_get (prev : List (String × JSValue)) (path : String)
    (value d : JSValue) (u : PreferenceUpdate)
    (h : updatePreference prev path value = some u) :
    getPreference (JSValue.obj u.newPrefs) path d = value := by
  unfold updatePreference at h
  unfold getPreference
  cases hkeys : pathKeys path with
  | nil => exact absurd hkeys (pathKeys_ne_nil path)
  | cons key rest =>
    rw [hkeys] at h
    cases rest with
    | nil =>
      simp only [Option.some.injEq] at h
      subst h
      simp only [getPreferenceLoop, stepInto, objGet_objSet_same]
    | cons next rest2 =>
      simp only at h
      split at h
      · simp only [Option.map_eq_some'] at h
        obtain ⟨inner, hinner, rfl⟩ := h
        simp only [getPreferenceLoop, stepInto, objGet_objSet_same]
        exact getPreferenceLoop_assignPath d value _ _ inner (by simp) hinner
      · split at h
        · simp only [Option.map_eq_some'] at h
          obtain ⟨inner, hinner, rfl⟩ := h
          simp only [getPreferenceLoop, stepInto, objGet_objSet_same]
          exact getPreferenceLoop_assignPath d value _ _ inner (by simp) hinner
        · cases h

/-- C30. The updater of `updatePreference` changes the previous preferences
object: on preferences that hold a theme and a nested object `notifications`
with `email: true` and `push: false`,
`updatePreference('notifications.email', false)` gives a new state that reads
`false` at the path, and the previous object, which read `true` there before
the call, reads `false` after it, because the new state shares the nested
object `notifications` with it. -/
theorem updatePreference_mutates_previous :
    getPreference (JSValue.obj prefsSample) "notifications.email" JSValue.null
      = JSValue.bool true ∧
    (updatePreference prefsSample "notifications.email" (JSValue.bool false)).map
        (fun u => getPreference (JSValue.obj u.newPrefs) "notifications.email" JSValue.null)
      = some (JSValue.bool false) ∧
    (updatePreference prefsSample "notifications.email" (JSValue.bool false)).map
        (fun u => getPreference (JSValue.obj u.prevAfter) "notifications.email" JSValue.null)
      = some (JSValue.bool false) ∧
    (updatePreference prefsSample "notifications.email" (JSValue.bool false)).map
        (fun u => u.prevAfter)
      = some [("theme", JSValue.str "light"),
          ("notifications",
            JSValue.obj [("email", JSValue.bool false), ("push", JSValue.bool false)])] :=
  ⟨by rfl, by rfl, by rfl, by rfl⟩

/-! ## Auth round trip -/

set_option maxRecDepth 100000

theorem LocalStorage.find_put_other (key other value : String)
    (entries : List (String × String)) (h : other ≠ key) :
    (LocalStorage.put key value entries).find? (fun e => e.1 = other)
      = entries.find? (fun e => e.1 = other) := by
  induction entries with
  | nil => simp [LocalStorage.put, Ne.symm h]
  | cons e rest ih =>
    obtain ⟨k, v⟩ := e
    by_cases hk : k = key
    · subst hk
      simp [LocalStorage.put, Ne.symm h]
    · by_cases ho : k = other
      · subst ho
        simp [LocalStorage.put, hk]
      · simp [LocalStorage.put, hk, ho, ih]

theorem LocalStorage.getItem_setItem_other {ls ls1 : LocalStorage} {key value : String}
    (h : ls.setItem key value = Except.ok ls1) (other : String) (hne : other ≠ key) :
    ls1.getItem other = ls.getItem other := by
  unfold LocalStorage.setItem at h
  split at h
  · cases h
  · split at h
    · cases h
    · cases h
      simp only [LocalStorage.getItem, LocalStorage.find_put_other key other value _ hne]

theorem HelperStorage.helper_set_ok {H : Host} {ls : LocalStorage} {key : String} {value : JSValue}
    (h : (HelperStorage.set H ls key value).1 = true) :
    ls.setItem key ((H.jsonStringify value).getD "undefined")
      = Except.ok (HelperStorage.set H ls key value).2 := by
  unfold HelperStorage.set at h ⊢
  cases hset : ls.setItem key ((H.jsonStringify value).getD "undefined") with
  | ok written => rfl
  | error e => rw [hset] at h; cases h

theorem HelperStorage.get_of_getItem (H : Host) (ls : LocalStorage) (key : String)
    (value d : JSValue) (hempty : H.jsonParse "" = none) (hvalue : H.RoundTrips value)
    (hitem : ls.getItem key = some ((H.jsonStringify value).getD "undefined")) :
    HelperStorage.get H ls key d = value := by
  obtain ⟨text, htext, hparse⟩ := hvalue
  have hne : text ≠ "" := by
    intro h0
    rw [h0, hempty] at hparse
    cases hparse
  simp only [HelperStorage.get, hitem, htext, Option.getD_some, hne, if_false, hparse]

theorem HelperStorage.get_of_absent (H : Host) (ls : LocalStorage) (key : String) (d : JSValue)
    (h : ls.getItem key = none) : HelperStorage.get H ls key d = d := by
  simp only [HelperStorage.get, h]

/-- From every state, after `logout` both persisted keys are absent and a
fresh provider start begins with token `null`, user `null` and
`isAuthenticated` false. -/
theorem logout_then_fresh_start (H : Host) (K : AuthKeys) (w : AuthState × LocalStorage) :
    (AuthProvider.logout K w).2.getItem K.tokenKey = none ∧
    (AuthProvider.logout K w).2.getItem K.userKey = none ∧
    (AuthProvider.initAuth H K (AuthProvider.init, (AuthProvider.logout K w).2)).1.token
      = JSValue.null ∧
    (AuthProvider.initAuth H K (AuthProvider.init, (AuthProvider.logout K w).2)).1.user
      = JSValue.null ∧
    (AuthProvider.initAuth H K
      (AuthProvider.init, (AuthProvider.logout K w).2)).1.isAuthenticated = false := by
  have hnoToken : (AuthProvider.logout K w).2.getItem K.tokenKey = none := by
    simp only [AuthProvider.logout, HelperStorage.remove]
    by_cases h : K.tokenKey = K.userKey
    · rw [h]; exact LocalStorage.getItem_removeItem _ _
    · rw [LocalStorage.getItem_removeItem_other _ _ _ h]
      exact LocalStorage.getItem_removeItem _ _
  have hnoUser : (AuthProvider.logout K w).2.getItem K.userKey = none := by
    simp only [AuthProvider.logout, HelperStorage.remove]
    exact LocalStorage.getItem_removeItem _ _
  have hgetToken := HelperStorage.get_of_absent H _ K.tokenKey JSValue.null hnoToken
  have hgetUser := HelperStorage.get_of_absent H _ K.userKey JSValue.null hnoUser
  refine ⟨hnoToken, hnoUser, ?_, ?_, ?_⟩ <;>
    simp [AuthProvider.initAuth, hgetToken, hgetUser, JSValue.truthy, AuthProvider.init]

/-- C21. The token that `login` stores is not read back by a fresh provider
start. The bindings `AUTH_TOKEN_KEY` and `AUTH_USER_KEY` are both `undefined`,
so `login` writes the token and then the user record under the one key
`undefined`. After a login at time 1700 on the empty store the provider holds
the token `mock-jwt-token-1700`; the store is left with the single key
`undefined`, and a fresh start reads the user record as the token. After a
logout both keys are absent and a fresh start is anonymous. -/
theorem login_token_not_read_back :
    (AUTH_TOKEN_KEY = none ∧ AUTH_USER_KEY = none ∧
      importedAuthKeys.tokenKey = "undefined" ∧ importedAuthKeys.userKey = "undefined") ∧
    ((AuthProvider.login RefHost.host importedAuthKeys 1700
        (AuthProvider.init, emptyStore) credentialsSample).1.user
        = some (AuthProvider.mockUser credentialsSample) ∧
      (AuthProvider.login RefHost.host importedAuthKeys 1700
        (AuthProvider.init, emptyStore) credentialsSample).2.1.token
        = JSValue.str "mock-jwt-token-1700" ∧
      (AuthProvider.login RefHost.host importedAuthKeys 1700
        (AuthProvider.init, emptyStore) credentialsSample).2.2.keys = ["undefined"]) ∧
    ((AuthProvider.initAuth RefHost.host importedAuthKeys
        (AuthProvider.init, (AuthProvider.login RefHost.host importedAuthKeys 1700
          (AuthProvider.init, emptyStore) credentialsSample).2.2)).1.isAuthenticated = true ∧
      (AuthProvider.initAuth RefHost.host importedAuthKeys
        (AuthProvider.init, (AuthProvider.login RefHost.host importedAuthKeys 1700
          (AuthProvider.init, emptyStore) credentialsSample).2.2)).1.token
        = AuthProvider.mockUser credentialsSample ∧
      (AuthProvider.initAuth RefHost.host importedAuthKeys
        (AuthProvider.init, (AuthProvider.login RefHost.host importedAuthKeys 1700
          (AuthProvider.init, emptyStore) credentialsSample).2.2)).1.user
        = AuthProvider.mockUser credentialsSample) ∧
    ((AuthProvider.logout importedAuthKeys
        (AuthProvider.login RefHost.host importedAuthKeys 1700
          (AuthProvider.init, emptyStore) credentialsSample).2).2.keys = [] ∧
      (AuthProvider.initAuth RefHost.host importedAuthKeys
        (AuthProvider.init, (AuthProvider.logout importedAuthKeys
          (AuthProvider.login RefHost.host importedAuthKeys 1700
            (AuthProvider.init, emptyStore) credentialsSample).2).2)).1.isAuthenticated
        = false) :=
  ⟨⟨by decide, by decide, by decide, by decide⟩, ⟨by rfl, by rfl, by rfl⟩,
    ⟨by rfl, by rfl, by rfl⟩, ⟨by rfl, by rfl⟩⟩
